import Mathlib

/-!
Verification of the SQL-Parser-And-Optimizer repository against its
natural-language specification.

Shallow embedding conventions used throughout this file:

* Python floats are modelled by the rationals; every constant involved in the
  claims (0.01, 0.0025, 0.1, 0.5, 0.9, 0.95, page sizes) is dyadic, so the
  rational model agrees exactly with IEEE double arithmetic on the concrete
  inputs that appear below.
* Database statistics lookups (psycopg2 queries in the source) are modelled by
  total environment functions from table names to statistics records; the
  claims quantify over those environments.
* Python exceptions are modelled with Except / Option result types.
* Python dict iteration is modelled by association lists in insertion order.
-/

namespace Util

/-! ## Shared helpers

String scanning is performed on character lists and set-like Python values
are modelled by first-occurrence-deduplicated lists, so that every
definition evaluates by plain reduction. -/

/-- Deduplication keeping the first occurrence of each element, preserving
order (Python dict/set insertion order). -/
def firstDedup {α : Type} [DecidableEq α] : List α → List α
  | [] => []
  | x :: rest => x :: (firstDedup rest).filter (fun y => y ≠ x)

def listPrefix : List Char → List Char → Bool
  | [], _ => true
  | _ :: _, [] => false
  | c :: cs, d :: ds => c = d ∧ listPrefix cs ds

/-- str.startswith. -/
def strStartsWith (s pfx : String) : Bool :=
  listPrefix pfx.toList s.toList

/-- Lexicographic code-point comparison of strings as character lists: the
key order used by the Python sorted builtin on strings. -/
def keyLe : List Char → List Char → Bool
  | [], _ => true
  | _ :: _, [] => false
  | c :: cs, d :: ds => if c = d then keyLe cs ds else decide (c < d)

end Util

namespace CostPopulator

/-! ## Embedding of src/web_interface/cost_populator.py -/

/-- Column statistics as assembled by CostCalculator.get_table_statistics. -/
structure ColStats where
  ndv : ℚ
  avg_width : ℚ
  mcv : List (String × ℚ)
deriving Repr, DecidableEq

/-- Table statistics record: row_count, page_count and per-column stats. -/
structure TableStats where
  row_count : ℚ
  page_count : ℚ
  columns : List (String × ColStats)
deriving Repr, DecidableEq

/-- Cost-model constants from CostCalculator.__init__. -/
def cpu_tuple_cost : ℚ := 1/100

def cpu_operator_cost : ℚ := 1/400

def seq_page_cost : ℚ := 1

/-- Condition types of the RA-JSON condition sub-model. -/
inductive CondType where
  | EQ | LT | GT | LE | GE | NE | AND | OR | NOT
deriving Repr, DecidableEq

/-- The module-level predicate_selectivity dict: GT maps to 0.5, LT to 0.5 and EQ
to 0.1; every other condition type is absent from the mapping. -/
def predicate_selectivity : CondType → Option ℚ
  | .GT => some (1/2)
  | .LT => some (1/2)
  | .EQ => some (1/10)
  | _ => none

/-- RA-JSON plan nodes, restricted to the fields CostCalculator.calculate_cost
reads: the type tag, the first table name of a base_relation, the condition
type of a select, the structural children, and the id of an expr_ref. -/
inductive PlanNode where
  | base_relation (tables : List String)
  | select (condType : CondType) (input : PlanNode)
  | project (input : PlanNode)
  | join (left right : PlanNode)
  | subquery (query : PlanNode)
  | expr_ref (id : String)
deriving Repr, DecidableEq

/-- Failure modes of calculate_cost: a base_relation with an empty table list
(IndexError on tables[0]), the unguarded division in the join branch when both
child cardinalities are 0 (ZeroDivisionError), and an expr_ref whose id cannot
be resolved to an already-costed common expression. -/
inductive CalcErr where
  | emptyTables
  | divZero
  | missingExpr (id : String)
deriving Repr, DecidableEq

/-- CostCalculator.calculate_cost.  Returns the pair (cost, cardinality) that
the Python function returns, together with the list of expr_ref ids resolved
during evaluation, in evaluation order (the increments of self.expr_occ).
The exprs environment models self.exprs: the cost/cardinality annotations of
the already-costed common-expressions entries. -/
def calculate_cost (stats : String → TableStats) (exprs : String → Option (ℚ × ℚ)) :
    PlanNode → Except CalcErr ((ℚ × ℚ) × List String)
  | .base_relation tables =>
    match tables with
    | [] => .error .emptyTables
    | t :: _ =>
      let s := stats t
      .ok ((s.row_count * cpu_tuple_cost + s.page_count * seq_page_cost, s.row_count), [])
  | .select condType input => do
    let ((input_cost, input_size), occ) ← calculate_cost stats exprs input
    let selectivity := (predicate_selectivity condType).getD (1/2)
    .ok ((input_cost + input_size, input_size * selectivity), occ)
  | .project input => do
    let ((input_cost, input_size), occ) ← calculate_cost stats exprs input
    .ok ((input_cost, input_size), occ)
  | .join left right => do
    let ((left_cost, left_size), occL) ← calculate_cost stats exprs left
    let ((right_cost, right_size), occR) ← calculate_cost stats exprs right
    if max left_size right_size = 0 then
      .error .divZero
    else
      let join_cost := left_size * right_size / max left_size right_size
      let output_size := join_cost / max left_size right_size
      .ok ((left_cost + right_cost + join_cost, output_size), occL ++ occR)
  | .subquery query => do
    let ((sub_cost, sub_size), occ) ← calculate_cost stats exprs query
    .ok ((sub_cost, sub_size), occ)
  | .expr_ref id =>
    match exprs id with
    | some (c, k) => .ok ((c, k), [id])
    | none => .error (.missingExpr id)

/-- A CSE-optimized document as consumed by calc_subseq_cost: the
common_expressions table (insertion order) and the main query. -/
structure SubseqDoc where
  common_expressions : List (String × PlanNode)
  query : PlanNode
deriving Repr, DecidableEq

/-- Entry-costing loop at the start of calc_subseq_cost: each entry whose type
is one of the structural types is costed (entries of type expr_ref are
skipped); the cost/cardinality pair is recorded on the entry for later
expr_ref resolution.  While entries are being costed self.exprs is not yet
populated, so expr_ref nodes inside an entry cannot be resolved. -/
def costEntries (stats : String → TableStats) :
    List (String × PlanNode) → Except CalcErr (List (String × (ℚ × ℚ)))
  | [] => .ok []
  | (id, e) :: rest =>
    match e with
    | .expr_ref _ => costEntries stats rest
    | e => do
      let (ck, _) ← calculate_cost stats (fun _ => none) e
      let tail ← costEntries stats rest
      .ok ((id, ck) :: tail)

/-- CostCalculator.calc_subseq_cost: cost every structural common-expressions
entry, then cost the main query resolving expr_ref nodes against those
entries, and finally subtract expression_cost * (occurrences - 1) for every
expression referenced during the main traversal. -/
def calc_subseq_cost (stats : String → TableStats) (doc : SubseqDoc) :
    Except CalcErr (ℚ × ℚ) := do
  let env ← costEntries stats doc.common_expressions
  let envF := fun i => env.lookup i
  let ((cost, cardinality), occs) ← calculate_cost stats envF doc.query
  let total := (Util.firstDedup occs).foldl
    (fun acc i =>
      match envF i with
      | some (c, _) => acc - c * ((occs.count i : ℚ) - 1)
      | none => acc)
    cost
  .ok (total, cardinality)

/-- The list of expr_ref ids occurring in a plan, in left-to-right traversal
order.  When calculate_cost succeeds, the occurrence list it returns is
exactly this list (proved below). -/
def refList : PlanNode → List String
  | .base_relation _ => []
  | .select _ input => refList input
  | .project input => refList input
  | .join left right => refList left ++ refList right
  | .subquery query => refList query
  | .expr_ref id => [id]

/-- Substitute the expression e for every expr_ref node carrying the given id:
the inline expansion of a shared subexpression at each of its reference
sites. -/
def substRef (id : String) (e : PlanNode) : PlanNode → PlanNode
  | .base_relation tables => .base_relation tables
  | .select condType input => .select condType (substRef id e input)
  | .project input => .project (substRef id e input)
  | .join left right => .join (substRef id e left) (substRef id e right)
  | .subquery query => .subquery (substRef id e query)
  | .expr_ref i => if i = id then e else .expr_ref i

/-- A node whose type tag is one of the structural types that
calc_subseq_cost is willing to cost as a common-expressions entry. -/
def PlanNode.isStructural : PlanNode → Bool
  | .expr_ref _ => false
  | _ => true

end CostPopulator

namespace PredicatePushdown

/-! ## Embedding of src/predicate_pushdown_trial.py

LogicalPlanNode instances are modelled by an inductive carrying exactly the
attributes predicate_pushdown reads: node_type, children, predicate, table and
alias.  String scanning is modelled on character lists.  The recursive helper
functions take a fuel argument standing for the Python call stack; every
theorem below instantiates it with a value large enough that it is never
exhausted on the given input. -/

/-- A logical plan node (node_type, children, predicate, table, alias). -/
inductive LPlan where
  | mk (node_type : String) (children : List LPlan) (predicate : Option String)
      (table : Option String) (tblAlias : Option String)
deriving Repr

def LPlan.node_type : LPlan → String
  | .mk t _ _ _ _ => t

def LPlan.children : LPlan → List LPlan
  | .mk _ c _ _ _ => c

def LPlan.predicate : LPlan → Option String
  | .mk _ _ p _ _ => p

def LPlan.table : LPlan → Option String
  | .mk _ _ _ t _ => t

def LPlan.tblAlias : LPlan → Option String
  | .mk _ _ _ _ a => a

def LPlan.withChildren : LPlan → List LPlan → LPlan
  | .mk t _ p tb a, c => .mk t c p tb a

/-- Convenience constructors mirroring the LogicalPlanNode keyword calls used
by the optimizer. -/
def FILTER (child : LPlan) (pred : String) : LPlan :=
  .mk "FILTER" [child] (some pred) none none

def SCAN (table : String) (tblAlias : String) : LPlan :=
  .mk "SCAN" [] none (some table) (some tblAlias)

def JOIN (left right : LPlan) (pred : String) : LPlan :=
  .mk "JOIN" [left, right] (some pred) none none

/-- Split a character list into maximal space-free words. -/
def wordsGo : List Char → List Char → List (List Char)
  | cur, [] => if cur.isEmpty then [] else [cur.reverse]
  | cur, c :: rest =>
    if c = ' ' then
      if cur.isEmpty then wordsGo [] rest else cur.reverse :: wordsGo [] rest
    else
      wordsGo (c :: cur) rest

/-- extract_table_references: replace parentheses by spaces, split on
whitespace, and collect the prefix before the first dot of every dotted
token.  The Python function returns a set; it is consumed only through its
size and (when a single table is referenced) its unique element, so an
order-preserving deduplicated list is a faithful model. -/
def extract_table_references (pred : String) : List String :=
  let cleaned := pred.toList.map (fun c => if c = '(' ∨ c = ')' then ' ' else c)
  let parts := wordsGo [] cleaned
  Util.firstDedup (parts.filterMap (fun part =>
    if '.' ∈ part then some (String.mk (part.takeWhile (fun c => c ≠ '.'))) else none))

/-- find_table_in_subtree (fuelled tree recursion). -/
def find_table_in_subtree (fuel : Nat) (node : LPlan) (table_name : String) : Bool :=
  match fuel with
  | 0 => false
  | fuel + 1 =>
    if node.node_type = "SCAN" then
      node.table = some table_name ∨ node.tblAlias = some table_name
    else if node.node_type = "SUBQUERY" ∧ node.tblAlias = some table_name then
      true
    else if node.children.isEmpty then
      false
    else
      node.children.any (fun child => find_table_in_subtree fuel child table_name)

mutual

/-- push_filter_to_scan: wrap the matching SCAN (or SUBQUERY) with a FILTER,
descending into the first child whose subtree contains the table. -/
def push_filter_to_scan : Nat → LPlan → String → String → LPlan
  | 0, node, _, _ => node
  | fuel + 1, node, table_name, pred =>
    if node.node_type = "SCAN" ∧ (node.table = some table_name ∨ node.tblAlias = some table_name) then
      FILTER node pred
    else if node.node_type = "SUBQUERY" ∧ node.tblAlias = some table_name then
      FILTER node pred
    else if node.children.isEmpty then
      node
    else
      node.withChildren (pfsReplaceFirst fuel node.children table_name pred)

/-- Replace the first child whose subtree contains the table; later children
are left untouched (the Python loop returns after the first hit). -/
def pfsReplaceFirst : Nat → List LPlan → String → String → List LPlan
  | 0, children, _, _ => children
  | fuel + 1, [], _, _ => []
  | fuel + 1, child :: rest, table_name, pred =>
    if find_table_in_subtree fuel child table_name then
      push_filter_to_scan fuel child table_name pred :: rest
    else
      child :: pfsReplaceFirst fuel rest table_name pred

end

/-- Insert a key into an association map with overwrite (Python dict update). -/
def updMap (m : List (String × String)) (k v : String) : List (String × String) :=
  if m.any (fun p => p.1 = k) then
    m.map (fun p => if p.1 = k then (k, v) else p)
  else
    m ++ [(k, v)]

/-- get_table_aliases: one-pass alias map; SCAN nodes with a distinct alias
register alias → table and table → table; SUBQUERY nodes register
alias → alias. -/
def get_table_aliases (fuel : Nat) (node : LPlan) (aliases : List (String × String)) :
    List (String × String) :=
  match fuel with
  | 0 => aliases
  | fuel + 1 =>
    let aliases :=
      if node.node_type = "SCAN" then
        match node.tblAlias, node.table with
        | some a, some t => if a ≠ "" ∧ a ≠ t then updMap (updMap aliases a t) t t else aliases
        | _, _ => aliases
      else aliases
    let aliases :=
      if node.node_type = "SUBQUERY" then
        match node.tblAlias with
        | some a => if a ≠ "" then updMap aliases a a else aliases
        | none => aliases
      else aliases
    node.children.foldl (fun acc child => get_table_aliases fuel child acc) aliases

/-- are_parentheses_balanced on a character segment: running count never goes
negative and ends at zero. -/
def parenBalanced (cs : List Char) : Bool :=
  (cs.foldl
    (fun acc c =>
      match acc with
      | none => none
      | some n =>
        if c = '(' then some (n + 1)
        else if c = ')' then (if n = 0 then none else some (n - 1))
        else some n)
    (some (0 : Nat))) = some 0

/-- Positions of top-level " AND " occurrences: scanning character i updates
the nesting level first, then tests for a level-zero " AND " starting at i.
Only indices i with at least five characters remaining are scanned. -/
def andPositionsGo : Nat → Int → List Char → List Nat
  | _, _, [] => []
  | i, level, c :: rest =>
    if (c :: rest).length < 5 then []
    else
      let level2 : Int :=
        if c = '(' then level + 1 else if c = ')' then level - 1 else level
      let hit := level2 = 0 ∧ (c :: rest).take 5 = [' ', 'A', 'N', 'D', ' ']
      let tail := andPositionsGo (i + 1) level2 rest
      if hit then i :: tail else tail

def andPositions (cs : List Char) : List Nat :=
  andPositionsGo 0 0 cs

/-- Python str.strip for the space-only strings handled here. -/
def stripChars (cs : List Char) : List Char :=
  ((cs.dropWhile (fun c => c = ' ')).reverse.dropWhile (fun c => c = ' ')).reverse

/-- Cut a string at the given " AND " positions, returning the segments
between them (the last segment runs to the end of the string). -/
def cutSegments (cs : List Char) : Nat → List Nat → List (List Char)
  | last_pos, [] => [cs.drop last_pos]
  | last_pos, pos :: rest =>
    ((cs.drop last_pos).take (pos - last_pos)) :: cutSegments cs (pos + 5) rest

/-- proper_split: strip one level of enclosing balanced parentheses, split at
top-level " AND " positions, and recurse into every non-empty segment; a
string with no top-level " AND " is emitted as a single conjunct. -/
def properSplit (fuel : Nat) (s : List Char) : List (List Char) :=
  match fuel with
  | 0 => []
  | fuel + 1 =>
    if s.head? = some '(' ∧ s.getLast? = some ')' ∧ parenBalanced (s.drop 1).dropLast then
      properSplit fuel (stripChars ((s.drop 1).dropLast))
    else
      match andPositions s with
      | [] => [s]
      | ps =>
        (cutSegments s 0 ps).foldl
          (fun acc seg =>
            let seg := stripChars seg
            if seg.isEmpty then acc else acc ++ properSplit fuel seg)
          []

/-- split_and_conditions. -/
def split_and_conditions (pred : String) : List String :=
  (properSplit (pred.length + 1) pred.toList).map (fun cs => String.mk cs)

/-- The contains check "AND token in predicate" of the source. -/
def containsAndToken : List Char → Bool
  | [] => false
  | c :: rest => (c :: rest).take 5 = [' ', 'A', 'N', 'D', ' '] ∨ containsAndToken rest

/-- Append a condition for a table into the insertion-ordered
table_conditions map. -/
def addCond (m : List (String × List String)) (k cond : String) : List (String × List String) :=
  if m.any (fun p => p.1 = k) then
    m.map (fun p => if p.1 = k then (p.1, p.2 ++ [cond]) else p)
  else
    m ++ [(k, [cond])]

/-- predicate_pushdown.  Children are optimized first; a FILTER node then
either splits an AND predicate into conjuncts and pushes every single-table
conjunct to its scan, or pushes a single-table non-AND predicate, leaving
multi-table conjuncts as FILTER wrappers above the (possibly rewritten)
child. -/
def predicate_pushdown (fuel : Nat) (plan : LPlan) : LPlan :=
  match fuel with
  | 0 => plan
  | fuel + 1 =>
    if plan.children.isEmpty then plan
    else
      let plan := plan.withChildren (plan.children.map (predicate_pushdown fuel))
      if plan.node_type = "FILTER" then
        match plan.children with
        | [] => plan
        | child :: _ =>
          let pred := plan.predicate.getD ""
          if containsAndToken pred.toList then
            let conditions := split_and_conditions pred
            let aliases := get_table_aliases (fuel + 1) plan []
            if child.node_type = "PROJECT" then
              match child.children with
              | [] => plan
              | gchild :: grest =>
                let filtered_child := conditions.foldl (fun fc cond => FILTER fc cond) gchild
                child.withChildren (predicate_pushdown fuel filtered_child :: grest)
            else
              let classified := conditions.foldl
                (fun (acc : List (String × List String) × List String) cond =>
                  let tables := extract_table_references cond
                  match tables with
                  | [t] =>
                    let actual := ((aliases.lookup t).getD t)
                    (addCond acc.1 actual cond, acc.2)
                  | _ => (acc.1, acc.2 ++ [cond]))
                ([], [])
              let result := classified.1.foldl
                (fun res p => p.2.foldl
                  (fun res cond => push_filter_to_scan (fuel + 1) res p.1 cond) res)
                child
              classified.2.foldl (fun res cond => FILTER res cond) result
          else
            match extract_table_references pred with
            | [t] =>
              if child.node_type = "PROJECT" then
                match child.children with
                | [] => plan
                | gchild :: grest =>
                  child.withChildren
                    (predicate_pushdown fuel (FILTER gchild pred) :: grest)
              else if child.node_type = "JOIN" ∨ child.node_type = "FILTER" then
                push_filter_to_scan (fuel + 1) child t pred
              else if child.node_type = "SCAN" ∧
                  (child.table = some t ∨ child.tblAlias = some t) then
                FILTER child pred
              else if child.node_type = "SUBQUERY" ∧ child.tblAlias = some t then
                FILTER child pred
              else plan
            | _ => plan
      else plan

end PredicatePushdown

namespace JoinOpt

/-! ## Embedding of src/join_optimization.py

Table statistics reuse the record shape of CostPopulator (both Python classes
build the same dict).  get_table_statistics is modelled by a total statistics
environment: the live-database lookup, the tmp-alias redirection and the
default statistics for unknown subqueries are absorbed into the environment,
which the claims either quantify over or instantiate concretely with non-tmp
table names.  Costs that the source represents as floats (including
float(inf) for unknown strategies) live in WithTop of the rationals. -/

open CostPopulator (TableStats ColStats)

abbrev Stats := String → TableStats

def page_size : ℚ := 8192

def cpu_tuple_cost : ℚ := 1/100

def cpu_operator_cost : ℚ := 1/400

def seq_page_cost : ℚ := 1

def random_page_cost : ℚ := 4

/-- QueryOptimizer.estimate_selectivity.  Subquery tables (names starting with
tmp) always get 0.1; method fixed always gets 0.1; ndv uses 1/max(ndv1, ndv2)
when both column records exist and the maximum is positive; mcv sums products
of frequencies over shared most-common values, falling back to the ndv
formula; every other path returns the 0.1 default. -/
def estimate_selectivity (stats : Stats) (table1 table2 : String)
    (join_attrs : String × String) (method : String) : ℚ :=
  let attr1 := join_attrs.1
  let attr2 := join_attrs.2
  if Util.strStartsWith table1 "tmp" ∨ Util.strStartsWith table2 "tmp" then 1/10
  else if method = "fixed" then 1/10
  else
    let stats1 := stats table1
    let stats2 := stats table2
    if method = "ndv" then
      match stats1.columns.lookup attr1, stats2.columns.lookup attr2 with
      | some c1, some c2 =>
        let max_ndv := max c1.ndv c2.ndv
        if max_ndv ≤ 0 then 1/10 else 1 / max_ndv
      | _, _ => 1/10
    else if method = "mcv" then
      match stats1.columns.lookup attr1, stats2.columns.lookup attr2 with
      | some c1, some c2 =>
        let common := c1.mcv.filter (fun p => (c2.mcv.lookup p.1).isSome)
        if common.isEmpty then
          let max_ndv := max c1.ndv c2.ndv
          if max_ndv > 0 then 1 / max_ndv else 1/10
        else
          common.foldl (fun acc p => acc + p.2 * ((c2.mcv.lookup p.1).getD 0)) 0
      | _, _ => 1/10
    else 1/10

/-- block_size = (8 * 1024 * 1024) // page_size, clamped to at least 1. -/
def block_size : ℤ :=
  let bs : ℤ := (8 * 1024 * 1024) / 8192
  if bs ≤ 0 then 1 else bs

/-- QueryOptimizer.estimate_join_cost for the first join of a plan; an
unrecognized strategy costs infinity. -/
def estimate_join_cost (stats : Stats) (table1 table2 : String)
    (join_attrs : String × String) (strategy : String) (selectivity : ℚ) : WithTop ℚ :=
  let s1 := stats table1
  let s2 := stats table2
  let row_count1 := s1.row_count
  let row_count2 := s2.row_count
  let page_count1 := s1.page_count
  let page_count2 := s2.page_count
  let output_rows := row_count1 * row_count2 * selectivity
  if strategy = "hash" then
    let build_cost := page_count1 * seq_page_cost + row_count1 * cpu_tuple_cost
    let probe_cost := page_count2 * seq_page_cost + row_count2 * cpu_tuple_cost
    let hash_cpu_cost := (row_count1 + output_rows) * cpu_operator_cost
    ↑(build_cost + probe_cost + hash_cpu_cost)
  else if strategy = "nested" then
    ↑(page_count1 * seq_page_cost + row_count1 * page_count2 * random_page_cost)
  else if strategy = "block" then
    let num_blocks : ℚ := (⌊(page_count1 + (block_size : ℚ) - 1) / (block_size : ℚ)⌋ : ℤ)
    ↑(page_count1 * seq_page_cost + num_blocks * page_count2 * seq_page_cost)
  else
    ⊤

/-- QueryOptimizer.estimate_join_cost_with_intermediate. -/
def estimate_join_cost_with_intermediate (stats : Stats) (intermediate_rows : ℚ)
    (table : String) (join_attrs : String × String) (strategy : String)
    (selectivity : ℚ) : WithTop ℚ :=
  let s := stats table
  let row_count := s.row_count
  let page_count := s.page_count
  let avg_row_width : ℚ :=
    match s.columns.lookup join_attrs.2 with
    | some c => c.avg_width
    | none => 100
  let ip := (intermediate_rows * avg_row_width) / page_size
  let intermediate_pages := if ip < 1 then 1 else ip
  let output_rows := intermediate_rows * row_count * selectivity
  if strategy = "hash" then
    let build_cost := intermediate_pages * seq_page_cost + intermediate_rows * cpu_tuple_cost
    let probe_cost := page_count * seq_page_cost + row_count * cpu_tuple_cost
    let hash_cpu_cost := (intermediate_rows + output_rows) * cpu_operator_cost
    ↑(build_cost + probe_cost + hash_cpu_cost)
  else if strategy = "nested" then
    ↑(intermediate_pages * seq_page_cost + intermediate_rows * page_count * random_page_cost)
  else if strategy = "block" then
    let num_blocks : ℚ := (⌊(intermediate_pages + (block_size : ℚ) - 1) / (block_size : ℚ)⌋ : ℤ)
    ↑(intermediate_pages * seq_page_cost + num_blocks * page_count * seq_page_cost)
  else
    ⊤

/-- Join-condition map: dict keyed by ordered table pairs with directional
attribute pairs, in insertion order. -/
abbrev Conds := List ((String × String) × (String × String))

/-- Find the join condition between the current table and the first matching
earlier table, swapping the attributes when the condition is stored under the
opposite key orientation.  Returns the matched earlier table and the
attribute pair; this is the search loop repeated in calculate_naive_cost,
get_intermediate_result_size and optimize_join_query. -/
def findJoinAttrs (conds : Conds) (pfx : List String) (current : String) :
    Option (String × (String × String)) :=
  match pfx with
  | [] => none
  | prev :: rest =>
    match conds.lookup (prev, current) with
    | some attrs => some (prev, attrs)
    | none =>
      match conds.lookup (current, prev) with
      | some attrs => some (prev, (attrs.2, attrs.1))
      | none => findJoinAttrs conds rest current

/-- QueryOptimizer.get_intermediate_result_size. -/
def get_intermediate_result_size (stats : Stats) (conds : Conds) (method : String) :
    List String → ℚ
  | [] => 0
  | [t] => (stats t).row_count
  | t0 :: rest =>
    go ((stats t0).row_count) [t0] rest
where
  go (estimated : ℚ) (pfx : List String) : List String → ℚ
    | [] => estimated
    | current :: more =>
      match findJoinAttrs conds pfx current with
      | none => go estimated (pfx ++ [current]) more
      | some (_, attrs) =>
        let prev_table := (pfx.getLast?).getD ""
        let selectivity := estimate_selectivity stats prev_table current attrs method
        go (estimated * (stats current).row_count * selectivity) (pfx ++ [current]) more

/-- Join graph: adjacency map from table name to neighbour list (a
defaultdict of sets in the source; sets are modelled as insertion-ordered
deduplicated lists). -/
abbrev Graph := List (String × List String)

def nbrs (g : Graph) (t : String) : List String :=
  (g.lookup t).getD []

def graphAdd (g : Graph) (t u : String) : Graph :=
  if g.any (fun p => p.1 = t) then
    g.map (fun p => if p.1 = t then (p.1, if u ∈ p.2 then p.2 else p.2 ++ [u]) else p)
  else
    g ++ [(t, [u])]

def graphAdd2 (g : Graph) (t u : String) : Graph :=
  graphAdd (graphAdd g t u) u t

/-- Dict insertion with overwrite for the join-condition map. -/
def condsInsert (conds : Conds) (k : String × String) (v : String × String) : Conds :=
  if conds.any (fun p => p.1 = k) then
    conds.map (fun p => if p.1 = k then (k, v) else p)
  else
    conds ++ [(k, v)]

/-- A (table, attribute) pair: a node of the attribute-equivalence relation
built by add_transitive_edges. -/
abbrev TAPair := String × String

/-- The list of (table, attribute) pairs appearing as endpoints of the join
conditions, in insertion order, deduplicated: the keys of the
equivalence_classes dict. -/
def condPairs (conds : Conds) : List TAPair :=
  (conds.foldl
    (fun acc p =>
      match p with
      | ((t1, t2), (a1, a2)) => acc ++ [(t1, a1), (t2, a2)])
    [])
|> Util.firstDedup

/-- Two pairs are linked when some join condition has exactly those two
endpoints (in either orientation). -/
def linked (conds : Conds) (p q : TAPair) : Bool :=
  conds.any
    (fun c =>
      match c with
      | ((t1, t2), (a1, a2)) =>
        ((t1, a1) = p ∧ (t2, a2) = q) ∨ ((t1, a1) = q ∧ (t2, a2) = p))

/-- One round of equivalence-class growth: append every not-yet-included pair
linked to a current member, scanning pairs in insertion order. -/
def growOnce (conds : Conds) (pairs : List TAPair) (comp : List TAPair) : List TAPair :=
  comp ++ pairs.filter (fun q => q ∉ comp ∧ comp.any (fun p => linked conds p q))

def growIter (conds : Conds) (pairs : List TAPair) : Nat → List TAPair → List TAPair
  | 0, comp => comp
  | n + 1, comp => growIter conds pairs n (growOnce conds pairs comp)

/-- The merged equivalence class (connected component) containing a pair: the
fixed point of the merge loop of add_transitive_edges, reached after at most
one growth round per pair. -/
def component (conds : Conds) (p : TAPair) : List TAPair :=
  growIter conds (condPairs conds) (condPairs conds).length [p]

/-- All ordered pairs (earlier, later) of a list: the i < j loop over a
class member list. -/
def orderedPairs : List TAPair → List (TAPair × TAPair)
  | [] => []
  | x :: rest => rest.map (fun y => (x, y)) ++ orderedPairs rest

def hasCond (conds : Conds) (t1 t2 : String) : Bool :=
  (conds.lookup (t1, t2)).isSome ∨ (conds.lookup (t2, t1)).isSome

/-- Processing one ordered pair of class members: if the tables differ and no
condition exists between them in either orientation, add the transitive
condition and the join-graph edge in both directions. -/
def addPairStep (st : Conds × Graph) (pq : TAPair × TAPair) : Conds × Graph :=
  match pq with
  | ((t1, a1), (t2, a2)) =>
    if t1 ≠ t2 ∧ ¬ hasCond st.1 t1 t2 then
      (st.1 ++ [((t1, t2), (a1, a2))], graphAdd2 st.2 t1 t2)
    else
      st

/-- QueryOptimizer.add_transitive_edges.  The equivalence classes are the
connected components of the linked relation (the fixed point of the Python
merge loop); every class is processed by the i < j member-pair loop.  The
Python source iterates once over the set of distinct frozen classes in
unspecified set order; here each class is processed once per member, in key
insertion order, which produces the same map because reprocessing a class is
a no-op (every table pair of the class already has a condition). -/
def add_transitive_edges (conds : Conds) (graph : Graph) : Conds × Graph :=
  (condPairs conds).foldl
    (fun st p => (orderedPairs (component conds p)).foldl addPairStep st)
    (conds, graph)

/-- A column operand of a join condition. -/
structure ColRef where
  table : String
  attr : String
deriving Repr, DecidableEq

/-- RA-JSON plan nodes as traversed by parse_relational_algebra and
extract_join_order: a join condition is `some (left, right)` exactly when its
type is EQ with column operands (the only case the parser extracts). -/
inductive RANode where
  | base_relation (tables : List (String × Option String))
  | join (cond : Option (ColRef × ColRef)) (left right : RANode)
  | select (input : RANode)
  | project (input : RANode)
  | subquery (tblAlias : String) (query : RANode)
deriving Repr

/-- First-seen-order insertion into the table list. -/
def addTable (ts : List String) (t : String) : List String :=
  if t ∈ ts then ts else ts ++ [t]

def aliasInsert (m : List (String × String)) (k v : String) : List (String × String) :=
  if m.any (fun p => p.1 = k) then
    m.map (fun p => if p.1 = k then (k, v) else p)
  else
    m ++ [(k, v)]

structure ParseState where
  tables : List String
  alias_map : List (String × String)
  join_conditions : Conds
  join_graph : Graph
deriving Repr

/-- Strip the leading segment of a dotted attribute (the split-once of the
source: tmp.a.id becomes a.id). -/
def stripAttrTable (attr : String) : String :=
  let cs := attr.toList
  if '.' ∈ cs then
    String.mk ((cs.dropWhile (fun c => c ≠ '.')).drop 1)
  else
    attr

/-- Processing the EQ condition of a join node: resolve operand tables
through the alias map, strip the leading segment of dotted attributes, and
record the condition and the graph edge in both directions. -/
def processEq (lop rop : ColRef) (s : ParseState) : ParseState :=
  let left_real := (s.alias_map.lookup lop.table).getD lop.table
  let right_real := (s.alias_map.lookup rop.table).getD rop.table
  let left_attr := stripAttrTable lop.attr
  let right_attr := stripAttrTable rop.attr
  { s with
    join_conditions := condsInsert s.join_conditions (left_real, right_real) (left_attr, right_attr)
    join_graph := graphAdd2 s.join_graph left_real right_real }

/-- The recursive extract_info walk of parse_relational_algebra.  The join
branch of the source does not return after handling its condition, so the
generic child loop walks left and right a second time (and walks the
condition subtree, which registers nothing); both visits are modelled. -/
def extract_info : RANode → Option String → ParseState → ParseState
  | .base_relation tbls, parent_alias, s =>
    tbls.foldl
      (fun s p =>
        let s := { s with tables := addTable s.tables p.1 }
        let s :=
          match parent_alias with
          | some pa => { s with alias_map := aliasInsert s.alias_map pa p.1 }
          | none => s
        match p.2 with
        | some a => { s with alias_map := aliasInsert s.alias_map a p.1 }
        | none => s)
      s
  | .subquery al q, _, s => extract_info q (some al) s
  | .join cond l r, _, s =>
    let s := extract_info l none s
    let s := extract_info r none s
    let s :=
      match cond with
      | some (lop, rop) => processEq lop rop s
      | none => s
    let s := extract_info l none s
    extract_info r none s
  | .select input, _, s => extract_info input none s
  | .project input, _, s => extract_info input none s

/-- parse_relational_algebra: extract tables, conditions and graph, then add
the transitive closure.  The Python set of tables is modelled as a
first-seen-order list. -/
def parse_relational_algebra (tree : RANode) : List String × Conds × Graph :=
  let s := extract_info tree none ⟨[], [], [], []⟩
  let cg := add_transitive_edges s.join_conditions s.join_graph
  (s.tables, cg.1, cg.2)

/-- BFS queue processing of generate_valid_join_orders for one start table;
fuel bounds the number of queue pops. -/
def bfsOrders (graph : Graph) (n : Nat) :
    Nat → List (List String) → List (List String) → List (List String)
  | 0, _, acc => acc
  | _ + 1, [], acc => acc
  | fuel + 1, order :: queue, acc =>
    if order.length = n then
      bfsOrders graph n fuel queue (acc ++ [order])
    else
      let joinable :=
        (Util.firstDedup (order.foldl (fun js t => js ++ nbrs graph t) [])).filter
          (fun t => t ∉ order)
      bfsOrders graph n fuel (queue ++ joinable.map (fun t => order ++ [t])) acc

/-- QueryOptimizer.generate_valid_join_orders. -/
def generate_valid_join_orders (fuel : Nat) (tables : List String) (graph : Graph) :
    List (List String) :=
  if tables.length ≤ 1 then [tables]
  else
    tables.foldl (fun acc first => bfsOrders graph tables.length fuel [[first]] acc) []

/-- extract_join_order of calculate_naive_cost: first-seen base-relation
table names, with a subquery alias inserted at the point its node is
encountered. -/
def extract_join_order : RANode → List String → List String
  | .base_relation tbls, acc => tbls.foldl (fun acc p => addTable acc p.1) acc
  | .subquery al q, acc => extract_join_order q (addTable acc al)
  | .join _ l r, acc => extract_join_order r (extract_join_order l acc)
  | .select input, acc => extract_join_order input acc
  | .project input, acc => extract_join_order input acc

/-- The join-cost loop of calculate_naive_cost: block strategy and fixed
selectivity throughout; a step with no discoverable join condition costs a
default 500. -/
def naiveSteps (stats : Stats) (conds : Conds) :
    List String → List String → WithTop ℚ → WithTop ℚ
  | _, [], total => total
  | pfx, current :: more, total =>
    match findJoinAttrs conds pfx current with
    | none => naiveSteps stats conds (pfx ++ [current]) more (total + (500 : ℚ))
    | some (join_table, attrs) =>
      let selectivity := estimate_selectivity stats join_table current attrs "fixed"
      let intermediate_rows := get_intermediate_result_size stats conds "fixed" pfx
      let join_cost :=
        if pfx.length = 1 then
          estimate_join_cost stats ((pfx.head?).getD "") current attrs "block" selectivity
        else
          estimate_join_cost_with_intermediate stats intermediate_rows current attrs
            "block" selectivity
      naiveSteps stats conds (pfx ++ [current]) more (total + join_cost)

/-- QueryOptimizer.calculate_naive_cost: the cost field of the returned
dict (the statistics lookup for the first table is modelled by the total
environment, so the default-100 fallback branch is never taken). -/
def calculate_naive_cost (stats : Stats) (tree : RANode) : WithTop ℚ :=
  let parsed := parse_relational_algebra tree
  let conds := parsed.2.1
  let original_order := extract_join_order tree []
  match original_order with
  | [] => 0
  | first :: rest =>
    let start : WithTop ℚ :=
      ↑((stats first).page_count * seq_page_cost + (stats first).row_count * cpu_tuple_cost)
    naiveSteps stats conds [first] rest start

/-- The per-method strategy preference table of optimize_join_query. -/
def method_strategy_preference (method : String) : List String :=
  if method = "fixed" then ["hash", "nested", "block"]
  else if method = "ndv" then ["nested", "block", "hash"]
  else if method = "mcv" then ["block", "hash", "nested"]
  else ["hash", "nested", "block"]

/-- The discount applied to a candidate cost: 10 percent off the top
preference, 5 percent off the second. -/
def adjustCost (pref : List String) (strategy : String) (c : WithTop ℚ) : WithTop ℚ :=
  if pref.head? = some strategy then WithTop.map (fun q => q * (9/10)) c
  else if pref.get? 1 = some strategy then WithTop.map (fun q => q * (19/20)) c
  else c

/-- The inner strategy loop: try each strategy in preference order, apply the
discount, and keep the minimum (strictly-smaller updates, starting from
infinity). -/
def bestStrategyCost (pref : List String) (raw : String → WithTop ℚ) : WithTop ℚ :=
  pref.foldl
    (fun best strategy =>
      let c := adjustCost pref strategy (raw strategy)
      if c < best then c else best)
    ⊤

/-- The left-deep DP loop of optimize_join_query over one join order.  The
state is the dp_table entry for the current prefix: none when the previous
position was skipped for lack of a join condition (the entry is then missing
and the next non-skipped position of index at least 2 raises KeyError,
modelled as the error outcome). -/
def dpSteps (stats : Stats) (conds : Conds) (method : String) (pref : List String) :
    List String → List String → Option (WithTop ℚ) → Except Unit (Option (WithTop ℚ))
  | _, [], st => .ok st
  | pfx, current :: more, st =>
    match findJoinAttrs conds pfx current with
    | none => dpSteps stats conds method pref (pfx ++ [current]) more none
    | some (join_table, attrs) =>
      let selectivity := estimate_selectivity stats join_table current attrs method
      if pfx.length = 1 then
        let raw := fun strategy =>
          estimate_join_cost stats ((pfx.head?).getD "") current attrs strategy selectivity
        dpSteps stats conds method pref (pfx ++ [current]) more
          (some (bestStrategyCost pref raw))
      else
        match st with
        | none => .error ()
        | some prev_cost =>
          let intermediate_rows := get_intermediate_result_size stats conds method pfx
          let raw := fun strategy =>
            prev_cost + estimate_join_cost_with_intermediate stats intermediate_rows
              current attrs strategy selectivity
          dpSteps stats conds method pref (pfx ++ [current]) more
            (some (bestStrategyCost pref raw))

/-- The final cost of one join order: the dp_table entry for the full order,
defaulting to infinity when the entry is missing. -/
def dpOrder (stats : Stats) (conds : Conds) (method : String) (pref : List String)
    (order : List String) : Except Unit (WithTop ℚ) :=
  match order with
  | [] => .error ()
  | t0 :: rest => do
    let st ← dpSteps stats conds method pref [t0]
      rest (some (↑((stats t0).page_count * seq_page_cost)))
    pure (st.getD ⊤)

/-- Best cost over all valid join orders for one selectivity method. -/
def best_cost_for_method (stats : Stats) (conds : Conds) (orders : List (List String))
    (method : String) : Except Unit (WithTop ℚ) :=
  let pref := method_strategy_preference method
  orders.foldlM
    (fun best order => do
      let final ← dpOrder stats conds method pref order
      pure (if final < best then final else best))
    ⊤

/-- Outcome of optimize_join_query: the two structured error dicts, or the
per-method best costs. -/
inductive OptOutcome where
  | noTables
  | noOrders
  | plans (costs : List (String × WithTop ℚ))
deriving Repr

/-- QueryOptimizer.optimize_join_query, restricted to the best-plan costs it
returns for each selectivity method (join orders and strategy lists are not
needed by any claim). -/
def optimize_join_query (stats : Stats) (fuel : Nat) (tree : RANode) :
    Except Unit OptOutcome := do
  let parsed := parse_relational_algebra tree
  let tables := parsed.1
  let conds := parsed.2.1
  let graph := parsed.2.2
  if tables.isEmpty then
    pure .noTables
  else
    let join_orders := generate_valid_join_orders fuel tables graph
    if join_orders.isEmpty then
      pure .noOrders
    else do
      let fixedCost ← best_cost_for_method stats conds join_orders "fixed"
      let ndvCost ← best_cost_for_method stats conds join_orders "ndv"
      let mcvCost ← best_cost_for_method stats conds join_orders "mcv"
      pure (.plans [("fixed", fixedCost), ("ndv", ndvCost), ("mcv", mcvCost)])

end JoinOpt

namespace Cse

/-! ## Embedding of src/web_interface/subsequence_elim.py

Query trees are arbitrary JSON values: objects are insertion-ordered field
lists, numbers are restricted to integers (the only numbers appearing in the
structural fields of RA-JSON plans).  Serialization follows the byte format
of json.dumps with default separators for strings of printable ASCII
characters. -/

inductive Json where
  | null
  | bool (b : Bool)
  | num (n : Int)
  | str (s : String)
  | arr (items : List Json)
  | obj (fields : List (String × Json))
deriving Repr

/-- A field name marking internal metadata: the name starts with the
underscore character. -/
def isMetaKey (k : String) : Bool :=
  k.toList.head? = some '_'

def escapeChars : List Char → List Char
  | [] => []
  | c :: rest =>
    if c = '\\' then '\\' :: '\\' :: escapeChars rest
    else if c = '"' then '\\' :: '"' :: escapeChars rest
    else c :: escapeChars rest

/-- Python string escaping inside json.dumps, for strings made of printable
ASCII characters: backslash and double quote are escaped, everything else is
emitted verbatim. -/
def escapeString (s : String) : String :=
  String.mk (escapeChars s.toList)

def quoteString (s : String) : String :=
  "\"" ++ escapeString s ++ "\""

mutual

/-- json.dumps with sort_keys=True and the default separators: object keys
are sorted lexicographically at every level.  Sorting is performed on the
pairs of key and rendered value (a stable sort comparing only keys, which
produces the same byte string as sorting the fields first). -/
def dumpsSorted : Json → String
  | .null => "null"
  | .bool true => "true"
  | .bool false => "false"
  | .num n => toString n
  | .str s => quoteString s
  | .arr items => "[" ++ String.intercalate ", " (dumpsList items) ++ "]"
  | .obj fields =>
    let sorted :=
      List.insertionSort (fun a b => Util.keyLe a.1.toList b.1.toList = true) (dumpsFields fields)
    "\x7b" ++
      String.intercalate ", " (sorted.map (fun p => quoteString p.1 ++ ": " ++ p.2)) ++
      "\x7d"

def dumpsList : List Json → List String
  | [] => []
  | v :: rest => dumpsSorted v :: dumpsList rest

def dumpsFields : List (String × Json) → List (String × String)
  | [] => []
  | (k, v) :: rest => (k, dumpsSorted v) :: dumpsFields rest

end

/-- is_significant_expr: nodes carrying both table and attr are bare column
references and never extracted; otherwise a dict with a type field and at
least two fields is significant. -/
def isSignificant (fields : List (String × Json)) : Bool :=
  if fields.any (fun p => p.1 = "table") ∧ fields.any (fun p => p.1 = "attr") then
    false
  else
    fields.any (fun p => p.1 = "type") ∧ fields.length ≥ 2

/-- serialize_for_comparison on a dict node: drop the top-level fields whose
name starts with the internal-metadata marker and dump with sorted keys. -/
def serializeForComparison (fields : List (String × Json)) : String :=
  dumpsSorted (.obj (fields.filter (fun p => ¬ isMetaKey p.1)))

mutual

/-- The post-order collection traversal of _identify_common_exprs: children
before parents; from a dict node the traversal descends into dict-valued
fields and into dict items of list-valued fields (lists nested inside lists
are not traversed).  Each significant node contributes the pair of its
comparison serialization and its value. -/
def collectNodes : Json → List (String × Json)
  | .obj fields =>
    collectFields fields ++
      (if isSignificant fields then [(serializeForComparison fields, .obj fields)] else [])
  | _ => []

def collectFields : List (String × Json) → List (String × Json)
  | [] => []
  | (_, v) :: rest => collectValue v ++ collectFields rest

def collectValue : Json → List (String × Json)
  | .obj fields =>
    collectFields fields ++
      (if isSignificant fields then [(serializeForComparison fields, .obj fields)] else [])
  | .arr items => collectItems items
  | _ => []

def collectItems : List Json → List (String × Json)
  | [] => []
  | it :: rest => collectNodes it ++ collectItems rest

end

/-- Group the collected nodes by serialization, first-occurrence key order
(the expr_map dict). -/
def groupBySer (collected : List (String × Json)) : List (String × List Json) :=
  (Util.firstDedup (collected.map Prod.fst)).map
    (fun s => (s, (collected.filter (fun p => p.1 = s)).map Prod.snd))

/-- Groups retained by _identify_common_exprs: more than one occurrence and
serialized length exceeding 20. -/
def retainedGroups (tree : Json) : List (String × List Json) :=
  (groupBySer (collectNodes tree)).filter
    (fun g => g.2.length > 1 ∧ g.1.length > 20)

/-- The largest-serialization-first processing order of
_replace_common_exprs (a stable sort on descending key length). -/
def sortedRetained (tree : Json) : List (String × List Json) :=
  List.insertionSort (fun a b => b.1.length ≤ a.1.length) (retainedGroups tree)

/-- The minted expression table: group i (in processing order) is assigned
the id expr_i and the deep copy of its first occurrence.  The source mints
ids from the mutable next_expr_id counter of a fresh QueryTreeOptimizer;
its identity-based processed-set checks never fire because every node
belongs to exactly one serialization group. -/
def mintedEntries (tree : Json) : List (String × Json) :=
  (sortedRetained tree).enum.map
    (fun p => ("expr_" ++ toString p.1, (p.2.2.headD .null)))

/-- The replacement map from serialization to minted expression id. -/
def replaceMap (tree : Json) : List (String × String) :=
  (sortedRetained tree).enum.map (fun p => (p.2.1, "expr_" ++ toString p.1))

mutual

/-- The net effect of the in-place mutations of _replace_common_exprs on the
attached tree: a collected node whose serialization is in the replacement
map becomes an expr_ref (replacements inside an already-replaced ancestor
mutate detached objects and are invisible, so descendants of a replaced node
are not rewritten); all other nodes are rebuilt with their children
processed.  The _original diagnostic field added by the source is stripped
unconditionally by cleanup_tree afterwards and is therefore not modelled. -/
def replaceNode (m : List (String × String)) : Json → Json
  | .obj fields =>
    match m.lookup (serializeForComparison fields), isSignificant fields with
    | some eid, true => .obj [("type", .str "expr_ref"), ("id", .str eid)]
    | _, _ => .obj (replaceFields m fields)
  | v => v

def replaceFields (m : List (String × String)) : List (String × Json) → List (String × Json)
  | [] => []
  | (k, v) :: rest => (k, replaceValue m v) :: replaceFields m rest

def replaceValue (m : List (String × String)) : Json → Json
  | .obj fields =>
    match m.lookup (serializeForComparison fields), isSignificant fields with
    | some eid, true => .obj [("type", .str "expr_ref"), ("id", .str eid)]
    | _, _ => .obj (replaceFields m fields)
  | .arr items => .arr (replaceItems m items)
  | v => v

def replaceItems (m : List (String × String)) : List Json → List Json
  | [] => []
  | it :: rest => replaceNode m it :: replaceItems m rest

end

mutual

/-- cleanup_tree: recursively drop every field whose name starts with the
internal-metadata marker; list values have their dict items cleaned and
other items kept. -/
def cleanup : Json → Json
  | .obj fields => .obj (cleanupFields fields)
  | v => v

def cleanupFields : List (String × Json) → List (String × Json)
  | [] => []
  | (k, v) :: rest =>
    if isMetaKey k then cleanupFields rest
    else (k, cleanupValue v) :: cleanupFields rest

def cleanupValue : Json → Json
  | .obj fields => .obj (cleanupFields fields)
  | .arr items => .arr (cleanupItems items)
  | v => v

def cleanupItems : List Json → List Json
  | [] => []
  | it :: rest => cleanup it :: cleanupItems rest

end

/-- The fields of an object node (empty for any other node). -/
def objFields : Json → List (String × Json)
  | .obj fields => fields
  | _ => []

mutual

/-- The ids of the expression references of a tree, in traversal order: a
dict whose type field is the expr_ref marker contributes its string id
field; every dict field and list item is traversed. -/
def refIds : Json → List String
  | .obj fields =>
    (match fields.lookup "type", fields.lookup "id" with
     | some (.str tp), some (.str i) => if tp = "expr_ref" then [i] else []
     | _, _ => []) ++ refIdsFields fields
  | .arr items => refIdsItems items
  | _ => []

def refIdsFields : List (String × Json) → List String
  | [] => []
  | (_, v) :: rest => refIds v ++ refIdsFields rest

def refIdsItems : List Json → List String
  | [] => []
  | it :: rest => refIds it ++ refIdsItems rest

end

/-- The expr_ref head contribution of an object node to refIds: the id when
the type and id fields are both strings and the type is the expr_ref marker,
nothing otherwise. -/
def refHead (fields : List (String × Json)) : List String :=
  match fields.lookup "type", fields.lookup "id" with
  | some (.str tp), some (.str i) => if tp = "expr_ref" then [i] else []
  | _, _ => []

/-- The optimized document: the metadata dict emitted by the source is a
constant and is omitted from the model. -/
structure OptimizedDoc where
  common_expressions : List (String × Json)
  query : Json
deriving Repr

/-- QueryTreeOptimizer.optimize on a fresh optimizer instance. -/
def optimize (tree : Json) : OptimizedDoc :=
  ⟨mintedEntries tree, replaceNode (replaceMap tree) tree⟩

/-- QueryTreeOptimizer.optimize_and_cleanup: optimize, then strip internal
metadata from the query and from every common-expressions entry. -/
def optimize_and_cleanup (tree : Json) : OptimizedDoc :=
  let d := optimize tree
  ⟨d.common_expressions.map (fun p => (p.1, cleanup p.2)), cleanup d.query⟩

end Cse

namespace AppEndpoint

/-! ## Embedding of the common-subexpression endpoint of
src/web_interface/app.py (optimize_common_subexpr)

The statistics-dependent cost calculator (the module-level CostCalculator
connected to a live database) is an injected dependency: the endpoint is
modelled as a function of the two calculator operations it invokes.  The SVG
rendering calls are pure visualization and do not influence the response
fields modelled here.  An uncaught exception on the success path produces the
structured error response, modelled as the none outcome. -/

open Cse

/-- The slots of the module-level USER_STUFF dict read by the endpoint.  The
join endpoint populates join_plan, the stored pred cost and scale together
from the result of QueryOptimizer.get_costs_and_plans; that class lives in
the join_optimization module, which is absent from the repository, so the
stored cost and scale are unconstrained rationals here. -/
structure SessionState where
  original_plan : Option Json
  pred : Option (Json × ℚ)
  join_plan : Option Json
  scale : ℚ

/-- The condition-type tags enumerated by the CondType view.  A select whose
condition type lies outside the enumeration is outside the translated
fragment. -/
def condTypeOfString : String → Option CostPopulator.CondType
  | "EQ" => some .EQ
  | "LT" => some .LT
  | "GT" => some .GT
  | "LE" => some .LE
  | "GE" => some .GE
  | "NE" => some .NE
  | "AND" => some .AND
  | "OR" => some .OR
  | "NOT" => some .NOT
  | _ => none

/-- The name field of a tables-list member of a base_relation node. -/
def tableName : Json → Option String
  | .obj fields =>
    match fields.lookup "name" with
    | some (.str n) => some n
    | _ => none
  | _ => none

/-- Translation of a raw RA-JSON document into the PlanNode view that
CostCalculator.calculate_cost reads, defined on the fragment of documents
whose nodes carry exactly the structural fields the source accesses.  The
fuel argument stands for the recursion depth of the Python interpreter.
A none result models a document on which calculate_cost raises (unsupported
node type or missing structural field) or that lies outside the fragment. -/
def planOfJson : Nat → Json → Option CostPopulator.PlanNode
  | 0, _ => none
  | _ + 1, .null => none
  | _ + 1, .bool _ => none
  | _ + 1, .num _ => none
  | _ + 1, .str _ => none
  | _ + 1, .arr _ => none
  | fuel + 1, .obj fields =>
    match fields.lookup "type" with
    | some (.str tp) =>
      if tp = "base_relation" then
        match fields.lookup "tables" with
        | some (.arr items) => (items.mapM tableName).map .base_relation
        | _ => none
      else if tp = "select" then
        match fields.lookup "condition", fields.lookup "input" with
        | some (.obj cf), some inp =>
          match cf.lookup "type" with
          | some (.str ct) =>
            match condTypeOfString ct, planOfJson fuel inp with
            | some c, some p => some (.select c p)
            | _, _ => none
          | _ => none
        | _, _ => none
      else if tp = "project" then
        match fields.lookup "input" with
        | some inp => (planOfJson fuel inp).map .project
        | _ => none
      else if tp = "join" then
        match fields.lookup "left", fields.lookup "right" with
        | some l, some r =>
          match planOfJson fuel l, planOfJson fuel r with
          | some pl, some pr => some (.join pl pr)
          | _, _ => none
        | _, _ => none
      else if tp = "subquery" then
        match fields.lookup "query" with
        | some q => (planOfJson fuel q).map .subquery
        | _ => none
      else if tp = "expr_ref" then
        match fields.lookup "id" with
        | some (.str i) => some (.expr_ref i)
        | _ => none
      else none
    | _ => none

/-- The module-level cost_calculator's calculate_cost as invoked on a raw
RA-JSON document (line 190 of app.py): translate into the PlanNode view and
cost it against the live database statistics.  Before the first
calc_subseq_cost call self.exprs is unset, so expr_ref resolution fails; the
empty expression environment models this.  A translation failure or a
calculate_cost error is the raised exception. -/
def calcPlainReal (fuel : Nat) (stats : String → CostPopulator.TableStats)
    (j : Json) : Except Unit (ℚ × ℚ) :=
  match planOfJson fuel j with
  | none => .error ()
  | some p =>
    match CostPopulator.calculate_cost stats (fun _ => none) p with
    | .ok (ck, _) => .ok ck
    | .error _ => .error ()

/-- The module-level cost_calculator's calc_subseq_cost as invoked on the
CSE output document: translate every common-expressions entry and the query
into the PlanNode view and run the embedded calc_subseq_cost against the
live database statistics. -/
def calcSubReal (fuel : Nat) (stats : String → CostPopulator.TableStats)
    (d : OptimizedDoc) : Except Unit (ℚ × ℚ) :=
  match d.common_expressions.mapM (fun p => (planOfJson fuel p.2).map (fun n => (p.1, n))),
      planOfJson fuel d.query with
  | some entries, some q =>
    match CostPopulator.calc_subseq_cost stats ⟨entries, q⟩ with
    | .ok ck => .ok ck
    | .error _ => .error ()
  | _, _ => .error ()

/-- A cost value flowing through the endpoint: a plain number, or the
(cost, cardinality) tuple that line 190 of app.py stores without unpacking
the return value of calculate_cost. -/
inductive CostVal where
  | num (q : ℚ)
  | pair (c k : ℚ)
deriving Repr, DecidableEq

/-- optimized_cost *= scale: multiplying the tuple by a float raises
TypeError (the error response). -/
def scaleCost (v : CostVal) (scale : ℚ) : Option CostVal :=
  match v with
  | .num q => some (.num (q * scale))
  | .pair _ _ => none

/-- The response fields relevant to the claims. -/
structure CseResponse where
  original_cost : CostVal
  optimized_cost : CostVal
  optimized_doc : OptimizedDoc

/-- The success path of optimize_common_subexpr: select the most refined
stored plan, run CSE, compute the original cost (recomputing it — and
keeping the un-unpacked tuple — whenever the stored pushdown cost is absent
or falsy), compute the CSE-aware optimized cost, fall back to the original
cost when no common expressions were found, and scale the result. -/
def optimize_common_subexpr
    (calcPlain : Json → Except Unit (ℚ × ℚ))
    (calcSub : OptimizedDoc → Except Unit (ℚ × ℚ))
    (st : SessionState) : Option CseResponse :=
  let ra? : Option (Json × Option ℚ) :=
    match st.pred with
    | some (p, c) => some (p, some c)
    | none =>
      match st.original_plan with
      | some p => some (p, none)
      | none => none
  match ra? with
  | none => none
  | some (ra, ocOpt) =>
    let input := (st.join_plan).getD ra
    let doc := optimize_and_cleanup input
    let oc? : Option CostVal :=
      match ocOpt with
      | some c =>
        if c ≠ 0 then some (.num c)
        else
          match calcPlain ra with
          | .ok p => some (.pair p.1 p.2)
          | .error _ => none
      | none =>
        match calcPlain ra with
        | .ok p => some (.pair p.1 p.2)
        | .error _ => none
    match oc? with
    | none => none
    | some oc =>
      match calcSub doc with
      | .error _ => none
      | .ok p =>
        let optimized : CostVal :=
          if doc.common_expressions.isEmpty then oc else .num p.1
        match scaleCost optimized st.scale with
        | none => none
        | some scaled => some ⟨oc, scaled, doc⟩

end AppEndpoint

namespace Claims

/-! ## Concrete claim instances

Named inputs referenced by the claim theorems below. -/

open CostPopulator JoinOpt PredicatePushdown Cse AppEndpoint

/-- The effective selectivity the select branch of calculate_cost applies for
each condition type: 0.5 for GT and LT, 0.1 for EQ, and the 0.5 dict-get
default for every other type. -/
def selVal : CondType → ℚ
  | .GT => 1/2
  | .LT => 1/2
  | .EQ => 1/10
  | _ => 1/2

/-- A statistics environment where every table has 100 rows and 0 pages. -/
def rows100Stats : String → TableStats := fun _ => ⟨100, 0, []⟩

/-- A statistics environment where every table has 0 rows. -/
def zeroRowStats : String → TableStats := fun _ => ⟨0, 0, []⟩

/-- A statistics environment where every table has 10 rows and 1 page. -/
def posRowStats : String → TableStats := fun _ => ⟨10, 1, []⟩

/-- The statistics of the two tables of the hash-join cost claim: 1000 rows
over 10 pages and 500 rows over 5 pages. -/
def c6Stats : Stats := fun t =>
  if t = "t1" then ⟨1000, 10, []⟩
  else if t = "t2" then ⟨500, 5, []⟩
  else ⟨0, 0, []⟩


/-- A single base_relation scan of table t, in the raw RA-JSON form read by
calculate_cost: its CSE run finds no common expressions (it occurs once, so
no serialization group reaches two members), and the endpoint takes the
equal-cost fallback branch. -/
def planC8 : Json :=
  .obj [("type", .str "base_relation"),
        ("tables", .arr [.obj [("name", .str "t")]])]


/-- The four-condition cycle d.q = a.w, a.x = b.y, b.y = c.z, c.d = z.q used
by the transitive-closure claim: a chain a-b-c with matching attributes plus
a d-edge whose attributes differ. -/
def c4conds : Conds :=
  [(("d", "a"), ("q", "w")), (("a", "b"), ("x", "y")),
   (("b", "c"), ("y", "z")), (("c", "d"), ("z", "q"))]

/-- The join graph matching c4conds (one edge pair per condition). -/
def c4graph : Graph :=
  graphAdd2 (graphAdd2 (graphAdd2 (graphAdd2 [] "d" "a") "a" "b") "b" "c") "c" "d"


/-- The C1 chain input: project over join(join(a, b | a.x = b.y), c | b.y = c.z). -/
def chainTree : RANode :=
  .project (.join (some (⟨"b", "y"⟩, ⟨"c", "z"⟩))
    (.join (some (⟨"a", "x"⟩, ⟨"b", "y"⟩))
      (.base_relation [("a", none)]) (.base_relation [("b", none)]))
    (.base_relation [("c", none)]))

/-- The join-condition map parsed from chainTree (including the transitive
a-c condition). -/
def chainConds : Conds :=
  [(("a", "b"), ("x", "y")), (("b", "c"), ("y", "z")), (("a", "c"), ("x", "z"))]

/-- The join graph parsed from chainTree (complete over a, b, c). -/
def chainGraph : Graph :=
  [("a", ["b", "c"]), ("b", ["a", "c"]), ("c", ["b", "a"])]

/-- The six join orders the BFS enumeration finds for the chain input. -/
def orders6 : List (List String) :=
  [["a", "b", "c"], ["a", "c", "b"], ["b", "a", "c"],
   ["b", "c", "a"], ["c", "b", "a"], ["c", "a", "b"]]

-- concrete structural facts

/-- The C1 counterexample statistics: rows 1000/5000/20000 over zero pages,
each join attribute with ndv 1 (so the ndv and mcv selectivities are 1). -/
def cexStats : Stats := fun t =>
  if t = "a" then ⟨1000, 0, [("x", ⟨1, 100, []⟩)]⟩
  else if t = "b" then ⟨5000, 0, [("y", ⟨1, 100, []⟩)]⟩
  else if t = "c" then ⟨20000, 0, [("z", ⟨1, 100, []⟩)]⟩
  else ⟨1000, 10, []⟩


/-- Claim C10 instances: a bare expression-reference input, and a reference-free
join of two identical selects for the witness. -/
def c10tree : Json := .obj [("type", .str "expr_ref"), ("id", .str "expr_99")]

def c10wtree : Json :=
  .obj [("type", .str "join"),
        ("left", .obj [("type", .str "select"), ("condition", .obj [("type", .str "GT")]),
                       ("input", .obj [("type", .str "table"), ("name", .str "w")])]),
        ("right", .obj [("type", .str "select"), ("condition", .obj [("type", .str "GT")]),
                        ("input", .obj [("type", .str "table"), ("name", .str "w")])])]

/-- Claim C2 instances: a join of two identical selects whose shared condition
is itself a significant long expression (counterexample), and a join of two
identical selects with a short atomic condition (witness). -/
def c2cexinner : Json :=
  .obj [("type", .str "and"),
        ("lhs", .obj [("type", .str "c1")]),
        ("rhs", .obj [("type", .str "c2")])]

def c2cexsel : Json :=
  .obj [("type", .str "select"), ("condition", c2cexinner),
        ("input", .obj [("type", .str "t")])]

def c2cextree : Json :=
  .obj [("type", .str "join"), ("left", c2cexsel), ("right", c2cexsel)]

def c2wsel : Json :=
  .obj [("type", .str "select"), ("condition", .obj [("type", .str "EQ")]),
        ("input", .obj [("type", .str "X")])]

def c2wtree : Json :=
  .obj [("type", .str "join"), ("left", c2wsel), ("right", c2wsel)]

end Claims

/-! ## Helper lemmas -/

namespace CostPopulator

/-- With positive row counts everywhere (and positive cardinalities for the
resolvable common expressions), calculate_cost never reaches the
division-by-zero branch of the join rule, and every successful result has a
positive cardinality. -/
theorem calculate_cost_no_divZero (stats : String → TableStats)
    (exprs : String → Option (ℚ × ℚ)) (hstats : ∀ t, 0 < (stats t).row_count)
    (hexprs : ∀ i c k, exprs i = some (c, k) → 0 < k) :
    ∀ p : PlanNode, calculate_cost stats exprs p ≠ .error .divZero ∧
      ∀ c k occ, calculate_cost stats exprs p = .ok ((c, k), occ) → 0 < k := by
  intro p
  induction p with
  | base_relation tables =>
    cases tables with
    | nil => simp [calculate_cost]
    | cons t rest =>
      refine ⟨by simp [calculate_cost], ?_⟩
      intro c k occ h
      simp [calculate_cost] at h
      obtain ⟨⟨-, hk⟩, -⟩ := h
      subst hk
      exact hstats t
  | select ct input ih =>
    cases h : calculate_cost stats exprs input with
    | error e =>
      refine ⟨?_, ?_⟩
      · simp [calculate_cost, h, Except.bind, bind]
        intro hcontra
        exact ih.1 (h.trans (by rw [hcontra]))
      · intro c k occ hh
        simp [calculate_cost, h, Except.bind, bind] at hh
    | ok r =>
      obtain ⟨⟨ic, isz⟩, occ0⟩ := r
      have hisz : 0 < isz := ih.2 ic isz occ0 h
      refine ⟨by simp [calculate_cost, h, Except.bind, bind], ?_⟩
      intro c k occ hh
      simp [calculate_cost, h, Except.bind, bind] at hh
      obtain ⟨⟨-, hk⟩, -⟩ := hh
      subst hk
      apply mul_pos hisz
      cases ct <;> norm_num [predicate_selectivity]
  | project input ih =>
    cases h : calculate_cost stats exprs input with
    | error e =>
      refine ⟨?_, ?_⟩
      · simp [calculate_cost, h, Except.bind, bind]
        intro hcontra
        exact ih.1 (h.trans (by rw [hcontra]))
      · intro c k occ hh
        simp [calculate_cost, h, Except.bind, bind] at hh
    | ok r =>
      obtain ⟨⟨ic, isz⟩, occ0⟩ := r
      have hisz : 0 < isz := ih.2 ic isz occ0 h
      refine ⟨by simp [calculate_cost, h, Except.bind, bind], ?_⟩
      intro c k occ hh
      simp [calculate_cost, h, Except.bind, bind] at hh
      obtain ⟨⟨-, hk⟩, -⟩ := hh
      subst hk
      exact hisz
  | join l r ihl ihr =>
    cases hl : calculate_cost stats exprs l with
    | error e =>
      refine ⟨?_, ?_⟩
      · simp [calculate_cost, hl, Except.bind, bind]
        intro hcontra
        exact ihl.1 (hl.trans (by rw [hcontra]))
      · intro c k occ hh
        simp [calculate_cost, hl, Except.bind, bind] at hh
    | ok rl =>
      obtain ⟨⟨lc, lsz⟩, occl⟩ := rl
      have hlsz : 0 < lsz := ihl.2 lc lsz occl hl
      cases hr : calculate_cost stats exprs r with
      | error e =>
        refine ⟨?_, ?_⟩
        · simp [calculate_cost, hl, hr, Except.bind, bind]
          intro hcontra
          exact ihr.1 (hr.trans (by rw [hcontra]))
        · intro c k occ hh
          simp [calculate_cost, hl, hr, Except.bind, bind] at hh
      | ok rr =>
        obtain ⟨⟨rc, rsz⟩, occr⟩ := rr
        have hrsz : 0 < rsz := ihr.2 rc rsz occr hr
        have hmax : 0 < max lsz rsz := lt_max_of_lt_left hlsz
        have hne : ¬ (max lsz rsz = 0) := ne_of_gt hmax
        refine ⟨by simp [calculate_cost, hl, hr, Except.bind, bind, hne], ?_⟩
        intro c k occ hh
        simp [calculate_cost, hl, hr, Except.bind, bind, hne] at hh
        obtain ⟨⟨-, hk⟩, -⟩ := hh
        subst hk
        exact div_pos (div_pos (mul_pos hlsz hrsz) hmax) hmax
  | subquery q ih =>
    cases h : calculate_cost stats exprs q with
    | error e =>
      refine ⟨?_, ?_⟩
      · simp [calculate_cost, h, Except.bind, bind]
        intro hcontra
        exact ih.1 (h.trans (by rw [hcontra]))
      · intro c k occ hh
        simp [calculate_cost, h, Except.bind, bind] at hh
    | ok r =>
      obtain ⟨⟨ic, isz⟩, occ0⟩ := r
      have hisz : 0 < isz := ih.2 ic isz occ0 h
      refine ⟨by simp [calculate_cost, h, Except.bind, bind], ?_⟩
      intro c k occ hh
      simp [calculate_cost, h, Except.bind, bind] at hh
      obtain ⟨⟨-, hk⟩, -⟩ := hh
      subst hk
      exact hisz
  | expr_ref i =>
    cases h : exprs i with
    | none => simp [calculate_cost, h]
    | some ck =>
      obtain ⟨c0, k0⟩ := ck
      refine ⟨by simp [calculate_cost, h], ?_⟩
      intro c k occ hh
      simp [calculate_cost, h] at hh
      obtain ⟨⟨-, hk⟩, -⟩ := hh
      subst hk
      exact hexprs i c0 k0 h


/-- Every successful run of calculate_cost returns exactly the expr_ref
occurrence list of the plan, and each listed id resolves in the environment. -/
theorem calc_ok_occ (stats : String → TableStats) (exprs : String → Option (ℚ × ℚ)) :
    ∀ (p : PlanNode) (ck : ℚ × ℚ) (occ : List String),
      calculate_cost stats exprs p = .ok (ck, occ) →
      occ = refList p ∧ ∀ i ∈ occ, (exprs i).isSome := by
  intro p
  induction p with
  | base_relation tables =>
    intro ck occ h
    cases tables with
    | nil => simp [calculate_cost] at h
    | cons t rest =>
      simp [calculate_cost] at h
      obtain ⟨-, hocc⟩ := h
      subst hocc
      simp [refList]
  | select ct input ih =>
    intro ck occ h
    cases hi : calculate_cost stats exprs input with
    | error e => simp [calculate_cost, hi, Except.bind, bind] at h
    | ok r =>
      obtain ⟨⟨ic, isz⟩, occ0⟩ := r
      simp [calculate_cost, hi, Except.bind, bind] at h
      obtain ⟨-, hocc⟩ := h
      subst hocc
      obtain ⟨h1, h2⟩ := ih ⟨ic, isz⟩ occ0 hi
      exact ⟨by simp [refList, h1], h2⟩
  | project input ih =>
    intro ck occ h
    cases hi : calculate_cost stats exprs input with
    | error e => simp [calculate_cost, hi, Except.bind, bind] at h
    | ok r =>
      obtain ⟨⟨ic, isz⟩, occ0⟩ := r
      simp [calculate_cost, hi, Except.bind, bind] at h
      obtain ⟨-, hocc⟩ := h
      subst hocc
      obtain ⟨h1, h2⟩ := ih ⟨ic, isz⟩ occ0 hi
      exact ⟨by simp [refList, h1], h2⟩
  | join l r ihl ihr =>
    intro ck occ h
    cases hl : calculate_cost stats exprs l with
    | error e => simp [calculate_cost, hl, Except.bind, bind] at h
    | ok rl =>
      obtain ⟨⟨lc, lsz⟩, occl⟩ := rl
      cases hr : calculate_cost stats exprs r with
      | error e => simp [calculate_cost, hl, hr, Except.bind, bind] at h
      | ok rr =>
        obtain ⟨⟨rc, rsz⟩, occr⟩ := rr
        by_cases hmax : max lsz rsz = 0
        · simp [calculate_cost, hl, hr, Except.bind, bind, hmax] at h
        · simp [calculate_cost, hl, hr, Except.bind, bind, hmax] at h
          obtain ⟨-, hocc⟩ := h
          subst hocc
          obtain ⟨h1l, h2l⟩ := ihl ⟨lc, lsz⟩ occl hl
          obtain ⟨h1r, h2r⟩ := ihr ⟨rc, rsz⟩ occr hr
          refine ⟨by simp [refList, h1l, h1r], ?_⟩
          intro i hi
          rcases List.mem_append.mp hi with hh | hh
          · exact h2l i hh
          · exact h2r i hh
  | subquery q ih =>
    intro ck occ h
    cases hi : calculate_cost stats exprs q with
    | error e => simp [calculate_cost, hi, Except.bind, bind] at h
    | ok r =>
      obtain ⟨⟨ic, isz⟩, occ0⟩ := r
      simp [calculate_cost, hi, Except.bind, bind] at h
      obtain ⟨-, hocc⟩ := h
      subst hocc
      obtain ⟨h1, h2⟩ := ih ⟨ic, isz⟩ occ0 hi
      exact ⟨by simp [refList, h1], h2⟩
  | expr_ref i =>
    intro ck occ h
    cases hi : exprs i with
    | none => simp [calculate_cost, hi] at h
    | some v =>
      simp [calculate_cost, hi] at h
      obtain ⟨-, hocc⟩ := h
      subst hocc
      refine ⟨by simp [refList], ?_⟩
      intro j hj
      simp at hj
      subst hj
      simp [hi]

theorem calc_subst (stats : String → TableStats) (eid : String) (e : PlanNode)
    (ec ek : ℚ) (exprs : String → Option (ℚ × ℚ))
    (henv1 : exprs eid = some (ec, ek))
    (henv2 : ∀ i, i ≠ eid → exprs i = none)
    (he : calculate_cost stats (fun _ => none) e = .ok ((ec, ek), [])) :
    ∀ (q : PlanNode) (c k : ℚ) (occ : List String),
      calculate_cost stats exprs q = .ok ((c, k), occ) →
      calculate_cost stats (fun _ => none) (substRef eid e q) = .ok ((c, k), []) := by
  intro q
  induction q with
  | base_relation tables =>
    intro c k occ h
    cases tables with
    | nil => simp [calculate_cost] at h
    | cons t rest =>
      simp [calculate_cost] at h
      obtain ⟨⟨h1, h2⟩, -⟩ := h
      subst h1
      subst h2
      simp [substRef, calculate_cost]
  | select ct input ih =>
    intro c k occ h
    cases hi : calculate_cost stats exprs input with
    | error er => simp [calculate_cost, hi, Except.bind, bind] at h
    | ok r =>
      obtain ⟨⟨ic, isz⟩, occ0⟩ := r
      simp [calculate_cost, hi, Except.bind, bind] at h
      obtain ⟨⟨h1, h2⟩, -⟩ := h
      subst h1
      subst h2
      have := ih ic isz occ0 hi
      simp [substRef, calculate_cost, this, Except.bind, bind]
  | project input ih =>
    intro c k occ h
    cases hi : calculate_cost stats exprs input with
    | error er => simp [calculate_cost, hi, Except.bind, bind] at h
    | ok r =>
      obtain ⟨⟨ic, isz⟩, occ0⟩ := r
      simp [calculate_cost, hi, Except.bind, bind] at h
      obtain ⟨⟨h1, h2⟩, -⟩ := h
      subst h1
      subst h2
      have := ih ic isz occ0 hi
      simp [substRef, calculate_cost, this, Except.bind, bind]
  | join l r ihl ihr =>
    intro c k occ h
    cases hl : calculate_cost stats exprs l with
    | error er => simp [calculate_cost, hl, Except.bind, bind] at h
    | ok rl =>
      obtain ⟨⟨lc, lsz⟩, occl⟩ := rl
      cases hr : calculate_cost stats exprs r with
      | error er => simp [calculate_cost, hl, hr, Except.bind, bind] at h
      | ok rr =>
        obtain ⟨⟨rc, rsz⟩, occr⟩ := rr
        by_cases hmax : max lsz rsz = 0
        · simp [calculate_cost, hl, hr, Except.bind, bind, hmax] at h
        · simp [calculate_cost, hl, hr, Except.bind, bind, hmax] at h
          obtain ⟨⟨h1, h2⟩, -⟩ := h
          subst h1
          subst h2
          have hil := ihl lc lsz occl hl
          have hir := ihr rc rsz occr hr
          simp [substRef, calculate_cost, hil, hir, Except.bind, bind, hmax]
  | subquery q2 ih =>
    intro c k occ h
    cases hi : calculate_cost stats exprs q2 with
    | error er => simp [calculate_cost, hi, Except.bind, bind] at h
    | ok r =>
      obtain ⟨⟨ic, isz⟩, occ0⟩ := r
      simp [calculate_cost, hi, Except.bind, bind] at h
      obtain ⟨⟨h1, h2⟩, -⟩ := h
      subst h1
      subst h2
      have := ih ic isz occ0 hi
      simp [substRef, calculate_cost, this, Except.bind, bind]
  | expr_ref i =>
    intro c k occ h
    by_cases hie : i = eid
    · subst hie
      simp [calculate_cost, henv1] at h
      obtain ⟨⟨h1, h2⟩, -⟩ := h
      subst h1
      subst h2
      simp [substRef, he]
    · simp [calculate_cost, henv2 i hie] at h

theorem costEntries_single (stats : String → TableStats) (eid : String) (e : PlanNode)
    (he : e.isStructural = true) :
    costEntries stats [(eid, e)] =
      (calculate_cost stats (fun _ => none) e).map (fun r => [(eid, r.1)]) := by
  cases e with
  | expr_ref i => simp [PlanNode.isStructural] at he
  | base_relation ts =>
    cases hc : calculate_cost stats (fun _ => none) (.base_relation ts) <;>
      simp [costEntries, hc, Except.map, Except.bind, bind]
  | select ct inp =>
    cases hc : calculate_cost stats (fun _ => none) (.select ct inp) <;>
      simp [costEntries, hc, Except.map, Except.bind, bind]
  | project inp =>
    cases hc : calculate_cost stats (fun _ => none) (.project inp) <;>
      simp [costEntries, hc, Except.map, Except.bind, bind]
  | join l r =>
    cases hc : calculate_cost stats (fun _ => none) (.join l r) <;>
      simp [costEntries, hc, Except.map, Except.bind, bind]
  | subquery s =>
    cases hc : calculate_cost stats (fun _ => none) (.subquery s) <;>
      simp [costEntries, hc, Except.map, Except.bind, bind]

end CostPopulator


namespace Util

/-! Generic association-list, deduplication and fold lemmas shared by the
claim proofs. -/

section LookupLemmas


variable {α β : Type} [BEq α] [LawfulBEq α]

theorem lookup_append_left (l₁ l₂ : List (α × β)) (k : α)
    (h : (List.lookup k l₁).isSome = true) :
    List.lookup k (l₁ ++ l₂) = List.lookup k l₁ := by
  induction l₁ with
  | nil => simp [List.lookup] at h
  | cons p rest ih =>
    obtain ⟨a, b⟩ := p
    cases hk : k == a with
    | true => simp [List.lookup, hk]
    | false =>
      simp only [List.lookup, hk] at h ⊢
      exact ih h

theorem lookup_append_right (l₁ l₂ : List (α × β)) (k : α)
    (h : List.lookup k l₁ = none) :
    List.lookup k (l₁ ++ l₂) = List.lookup k l₂ := by
  induction l₁ with
  | nil => simp
  | cons p rest ih =>
    obtain ⟨a, b⟩ := p
    cases hk : k == a with
    | true => simp [List.lookup, hk] at h
    | false =>
      simp only [List.lookup, hk] at h
      simp only [List.cons_append, List.lookup, hk]
      exact ih h

theorem lookup_append_singleton_isSome (l : List (α × β)) (k : α) (v : β) :
    (List.lookup k (l ++ [(k, v)])).isSome = true := by
  cases hl : List.lookup k l with
  | some w => rw [lookup_append_left l [(k, v)] k (by rw [hl]; rfl), hl]; rfl
  | none => rw [lookup_append_right l [(k, v)] k hl]; simp [List.lookup]

theorem lookup_append_singleton_cases (l : List (α × β)) (k k2 : α) (v : β)
    (h : (List.lookup k (l ++ [(k2, v)])).isSome = true) :
    (List.lookup k l).isSome = true ∨ k = k2 := by
  cases hl : List.lookup k l with
  | some w => exact Or.inl rfl
  | none =>
    rw [lookup_append_right l [(k2, v)] k hl] at h
    cases hk : k == k2 with
    | true => exact Or.inr (eq_of_beq hk)
    | false => simp [List.lookup, hk] at h

end LookupLemmas
theorem mem_firstDedup {α : Type} [DecidableEq α] (l : List α) (a : α) :
    a ∈ Util.firstDedup l ↔ a ∈ l := by
  induction l with
  | nil => simp [Util.firstDedup]
  | cons x rest ih =>
    simp only [Util.firstDedup, List.mem_cons, List.mem_filter, decide_eq_true_eq]
    by_cases hax : a = x
    · simp [hax]
    · simp [hax, ih]

theorem two_le_length_of_mem {α : Type} (l : List α) (a b : α)
    (ha : a ∈ l) (hb : b ∈ l) (hab : a ≠ b) : 2 ≤ l.length := by
  induction l with
  | nil => simp at ha
  | cons x rest ih =>
    rcases List.mem_cons.mp ha with rfl | ha2
    · rcases List.mem_cons.mp hb with rfl | hb2
      · exact absurd rfl hab
      · have := List.length_pos_of_mem hb2
        simp only [List.length_cons]
        omega
    · have := List.length_pos_of_mem ha2
      simp only [List.length_cons]
      omega

theorem foldl_pres {σ α : Type} (f : σ → α → σ) (P : σ → Prop)
    (hpres : ∀ s x, P s → P (f s x)) (xs : List α) (s : σ) (h : P s) :
    P (xs.foldl f s) := by
  induction xs generalizing s with
  | nil => exact h
  | cons x rest ih => exact ih _ (hpres _ _ h)

theorem foldl_reach {σ α : Type} (f : σ → α → σ) (P : σ → Prop)
    (hpres : ∀ s x, P s → P (f s x)) (xs : List α) (a : α) (ha : a ∈ xs)
    (hhit : ∀ s, P (f s a)) (s : σ) : P (xs.foldl f s) := by
  induction xs generalizing s with
  | nil => simp at ha
  | cons x rest ih =>
    rcases List.mem_cons.mp ha with rfl | ha2
    · exact foldl_pres f P hpres rest _ (hhit s)
    · exact ih ha2 _

end Util

namespace JoinOpt

/-! Lemmas about the join-graph map, the join-condition map, the
equivalence-class growth of add_transitive_edges, and its per-pair step. -/

open Util
theorem any_key_isSome (g : Graph) (t : String)
    (h : g.any (fun p => p.1 = t) = true) : (List.lookup t g).isSome = true := by
  induction g with
  | nil => simp at h
  | cons p rest ih =>
    obtain ⟨a, l⟩ := p
    by_cases ha : a = t
    · subst ha
      simp [List.lookup]
    · simp only [List.any_cons, decide_eq_true_eq, Bool.or_eq_true] at h
      rcases h with h | h
      · exact absurd h ha
      · have hk : (t == a) = false := by
          simp [beq_eq_false_iff_ne]
          exact fun he => ha he.symm
        simp only [List.lookup, hk]
        exact ih (by simpa using h)

theorem any_key_false_none (g : Graph) (t : String)
    (h : g.any (fun p => p.1 = t) = false) : List.lookup t g = none := by
  induction g with
  | nil => rfl
  | cons p rest ih =>
    obtain ⟨a, l⟩ := p
    simp only [List.any_cons, Bool.or_eq_false_iff, decide_eq_false_iff_not] at h
    obtain ⟨h1, h2⟩ := h
    have hk : (t == a) = false := by
      simp [beq_eq_false_iff_ne]
      exact fun he => h1 he.symm
    simp only [List.lookup, hk]
    exact ih (by simpa using h2)

theorem lookup_graphAdd_map_ne (g : Graph) (t u a : String) (ha : a ≠ t) :
    List.lookup a (g.map
      (fun p => if p.1 = t then (p.1, if u ∈ p.2 then p.2 else p.2 ++ [u]) else p)) =
      List.lookup a g := by
  induction g with
  | nil => rfl
  | cons p rest ih =>
    obtain ⟨b, l⟩ := p
    by_cases hb : b = t
    · subst hb
      simp only [List.map_cons, if_pos rfl]
      have hk : (a == b) = false := beq_eq_false_iff_ne.mpr ha
      simp only [List.lookup, hk]
      exact ih
    · simp only [List.map_cons, if_neg hb]
      cases hab : a == b
      · simp only [List.lookup, hab]
        exact ih
      · simp only [List.lookup, hab]

theorem lookup_graphAdd_map_eq (g : Graph) (t u : String) :
    List.lookup t (g.map
      (fun p => if p.1 = t then (p.1, if u ∈ p.2 then p.2 else p.2 ++ [u]) else p)) =
      (List.lookup t g).map (fun l => if u ∈ l then l else l ++ [u]) := by
  induction g with
  | nil => rfl
  | cons p rest ih =>
    obtain ⟨b, l⟩ := p
    by_cases hb : b = t
    · subst hb
      simp only [List.map_cons, if_pos rfl]
      simp only [List.lookup, beq_self_eq_true]
      rfl
    · simp only [List.map_cons, if_neg hb]
      have hk : (t == b) = false := beq_eq_false_iff_ne.mpr (fun he => hb he.symm)
      simp only [List.lookup, hk]
      exact ih

theorem mem_nbrs_graphAdd_self (g : Graph) (t u : String) :
    u ∈ nbrs (graphAdd g t u) t := by
  rw [graphAdd]
  cases hany : g.any (fun p => p.1 = t) with
  | true =>
    rw [if_pos rfl]
    obtain ⟨l, hl⟩ := Option.isSome_iff_exists.mp (any_key_isSome g t hany)
    rw [nbrs, lookup_graphAdd_map_eq, hl]
    by_cases hu : u ∈ l <;> simp [hu]
  | false =>
    rw [if_neg Bool.false_ne_true]
    rw [nbrs, lookup_append_right g [(t, [u])] t (any_key_false_none g t hany)]
    simp [List.lookup]

theorem mem_nbrs_graphAdd_mono (g : Graph) (t u a v : String)
    (h : v ∈ nbrs g a) : v ∈ nbrs (graphAdd g t u) a := by
  rw [graphAdd]
  cases hany : g.any (fun p => p.1 = t) with
  | true =>
    rw [if_pos rfl]
    by_cases hat : a = t
    · subst hat
      rw [nbrs, lookup_graphAdd_map_eq]
      rw [nbrs] at h
      cases hl : List.lookup a g with
      | none => rw [hl] at h; simp at h
      | some l =>
        rw [hl] at h
        simp only [Option.getD_some] at h
        by_cases hu : u ∈ l <;> simp [hu, h]
    · rw [nbrs, lookup_graphAdd_map_ne g t u a hat]
      exact h
  | false =>
    rw [if_neg Bool.false_ne_true]
    rw [nbrs] at h ⊢
    cases hl : List.lookup a g with
    | none => rw [hl] at h; simp at h
    | some l =>
      rw [lookup_append_left g [(t, [u])] a (by rw [hl]; rfl), hl]
      rw [hl] at h
      exact h

theorem mem_nbrs_graphAdd2_mono (g : Graph) (t u a v : String)
    (h : v ∈ nbrs g a) : v ∈ nbrs (graphAdd2 g t u) a :=
  mem_nbrs_graphAdd_mono _ _ _ _ _ (mem_nbrs_graphAdd_mono _ _ _ _ _ h)

theorem mem_nbrs_graphAdd2_left (g : Graph) (t u : String) :
    u ∈ nbrs (graphAdd2 g t u) t :=
  mem_nbrs_graphAdd_mono _ _ _ _ _ (mem_nbrs_graphAdd_self g t u)

theorem mem_nbrs_graphAdd2_right (g : Graph) (t u : String) :
    t ∈ nbrs (graphAdd2 g t u) u :=
  mem_nbrs_graphAdd_self _ u t

theorem hasCond_symm (conds : Conds) (t u : String) :
    hasCond conds t u = hasCond conds u t := by
  simp only [hasCond]
  exact decide_eq_decide.mpr (by tauto)

theorem hasCond_append_left (c l : Conds) (t u : String)
    (h : hasCond c t u = true) : hasCond (c ++ l) t u = true := by
  simp only [hasCond, decide_eq_true_eq] at h ⊢
  rcases h with h | h
  · exact Or.inl (by rw [lookup_append_left c l (t, u) h]; exact h)
  · exact Or.inr (by rw [lookup_append_left c l (u, t) h]; exact h)

theorem hasCond_append_hit (c : Conds) (t u : String) (v : String × String) :
    hasCond (c ++ [((t, u), v)]) t u = true := by
  simp only [hasCond, decide_eq_true_eq]
  exact Or.inl (lookup_append_singleton_isSome c (t, u) v)

theorem hasCond_append_cases (c : Conds) (t1 t2 A C : String) (v : String × String)
    (h : hasCond (c ++ [((t1, t2), v)]) A C = true) :
    hasCond c A C = true ∨ (A = t1 ∧ C = t2) ∨ (C = t1 ∧ A = t2) := by
  simp only [hasCond, decide_eq_true_eq] at h ⊢
  rcases h with h | h
  · rcases lookup_append_singleton_cases c (A, C) (t1, t2) v h with h2 | h2
    · exact Or.inl (Or.inl h2)
    · exact Or.inr (Or.inl ⟨congrArg Prod.fst h2, congrArg Prod.snd h2⟩)
  · rcases lookup_append_singleton_cases c (C, A) (t1, t2) v h with h2 | h2
    · exact Or.inl (Or.inr h2)
    · exact Or.inr (Or.inr ⟨congrArg Prod.fst h2, congrArg Prod.snd h2⟩)

theorem linked_of_mem (conds : Conds) (t1 t2 a1 a2 : String)
    (h : ((t1, t2), (a1, a2)) ∈ conds) :
    linked conds (t1, a1) (t2, a2) = true := by
  rw [linked, List.any_eq_true]
  exact ⟨((t1, t2), (a1, a2)), h, by simp⟩

theorem mem_foldl_pairs_acc (conds : Conds) (acc : List TAPair) (x : TAPair)
    (h : x ∈ acc) :
    x ∈ conds.foldl
      (fun acc p => match p with | ((t1, t2), (a1, a2)) => acc ++ [(t1, a1), (t2, a2)])
      acc := by
  induction conds generalizing acc with
  | nil => exact h
  | cons c rest ih =>
    obtain ⟨⟨t1, t2⟩, a1, a2⟩ := c
    exact ih _ (List.mem_append_left _ h)

theorem mem_foldl_pairs (conds : Conds) (acc : List TAPair) (t1 t2 a1 a2 : String)
    (h : ((t1, t2), (a1, a2)) ∈ conds) :
    (t1, a1) ∈ conds.foldl
      (fun acc p => match p with | ((t1, t2), (a1, a2)) => acc ++ [(t1, a1), (t2, a2)]) acc ∧
    (t2, a2) ∈ conds.foldl
      (fun acc p => match p with | ((t1, t2), (a1, a2)) => acc ++ [(t1, a1), (t2, a2)]) acc := by
  induction conds generalizing acc with
  | nil => simp at h
  | cons c rest ih =>
    rcases List.mem_cons.mp h with rfl | h2
    · constructor
      · exact mem_foldl_pairs_acc rest _ _ (by simp)
      · exact mem_foldl_pairs_acc rest _ _ (by simp)
    · exact ih _ h2

theorem mem_condPairs_left (conds : Conds) (t1 t2 a1 a2 : String)
    (h : ((t1, t2), (a1, a2)) ∈ conds) : (t1, a1) ∈ condPairs conds := by
  rw [condPairs, mem_firstDedup]
  exact (mem_foldl_pairs conds [] t1 t2 a1 a2 h).1

theorem mem_condPairs_right (conds : Conds) (t1 t2 a1 a2 : String)
    (h : ((t1, t2), (a1, a2)) ∈ conds) : (t2, a2) ∈ condPairs conds := by
  rw [condPairs, mem_firstDedup]
  exact (mem_foldl_pairs conds [] t1 t2 a1 a2 h).2

theorem subset_growOnce (conds : Conds) (pairs comp : List TAPair) :
    comp ⊆ growOnce conds pairs comp :=
  List.subset_append_left _ _

theorem mem_growOnce_of_linked (conds : Conds) (pairs comp : List TAPair)
    (p q : TAPair) (hq : q ∈ pairs) (hp : p ∈ comp) (hl : linked conds p q = true) :
    q ∈ growOnce conds pairs comp := by
  by_cases hqc : q ∈ comp
  · exact List.mem_append_left _ hqc
  · refine List.mem_append_right _ ?_
    rw [List.mem_filter]
    refine ⟨hq, ?_⟩
    simp only [decide_eq_true_eq]
    exact ⟨hqc, List.any_eq_true.mpr ⟨p, hp, hl⟩⟩

theorem mem_growIter_mono (conds : Conds) (pairs : List TAPair) (n : Nat)
    (comp : List TAPair) (x : TAPair) (h : x ∈ comp) :
    x ∈ growIter conds pairs n comp := by
  induction n generalizing comp with
  | zero => exact h
  | succ n ih => exact ih _ (subset_growOnce _ _ _ h)

theorem mem_component_self (conds : Conds) (p : TAPair) :
    p ∈ component conds p :=
  mem_growIter_mono _ _ _ _ _ (by simp)

theorem mem_component_two_step (conds : Conds) (p q r : TAPair)
    (hq : q ∈ condPairs conds) (hr : r ∈ condPairs conds)
    (hl1 : linked conds p q = true) (hl2 : linked conds q r = true)
    (hlen : ∃ k, (condPairs conds).length = k + 2) :
    r ∈ component conds p := by
  obtain ⟨k, hk⟩ := hlen
  rw [component, hk]
  have h1 : q ∈ growOnce conds (condPairs conds) [p] :=
    mem_growOnce_of_linked _ _ _ p q hq (by simp) hl1
  have h2 : r ∈ growOnce conds (condPairs conds) (growOnce conds (condPairs conds) [p]) :=
    mem_growOnce_of_linked _ _ _ q r hr h1 hl2
  show r ∈ growIter conds (condPairs conds) k
    (growOnce conds (condPairs conds) (growOnce conds (condPairs conds) [p]))
  exact mem_growIter_mono _ _ _ _ _ h2

theorem mem_orderedPairs (l : List TAPair) (u v : TAPair)
    (hu : u ∈ l) (hv : v ∈ l) (huv : u ≠ v) :
    (u, v) ∈ orderedPairs l ∨ (v, u) ∈ orderedPairs l := by
  induction l with
  | nil => simp at hu
  | cons x rest ih =>
    rw [orderedPairs]
    rcases List.mem_cons.mp hu with rfl | hu2
    · rcases List.mem_cons.mp hv with rfl | hv2
      · exact absurd rfl huv
      · exact Or.inl (List.mem_append_left _ (List.mem_map.mpr ⟨v, hv2, rfl⟩))
    · rcases List.mem_cons.mp hv with rfl | hv2
      · exact Or.inr (List.mem_append_left _ (List.mem_map.mpr ⟨u, hu2, rfl⟩))
      · rcases ih hu2 hv2 with h | h
        · exact Or.inl (List.mem_append_right _ h)
        · exact Or.inr (List.mem_append_right _ h)

theorem addPairStep_hasCond_mono (st : Conds × Graph) (pq : TAPair × TAPair)
    (A C : String) (h : hasCond st.1 A C = true) :
    hasCond (addPairStep st pq).1 A C = true := by
  obtain ⟨⟨t1, a1⟩, t2, a2⟩ := pq
  simp only [addPairStep]
  split
  · exact hasCond_append_left _ _ _ _ h
  · exact h

theorem addPairStep_hasCond_hit (st : Conds × Graph) (A C a1 a2 : String)
    (hne : A ≠ C) :
    hasCond (addPairStep st ((A, a1), (C, a2))).1 A C = true := by
  simp only [addPairStep]
  split
  · exact hasCond_append_hit _ _ _ _
  · rename_i hcond
    rcases not_and_or.mp hcond with h | h
    · exact absurd hne h
    · exact not_not.mp h

theorem addPairStep_inv (A C : String) (st : Conds × Graph) (pq : TAPair × TAPair)
    (hinv : hasCond st.1 A C = true → C ∈ nbrs st.2 A ∧ A ∈ nbrs st.2 C) :
    hasCond (addPairStep st pq).1 A C = true →
      C ∈ nbrs (addPairStep st pq).2 A ∧ A ∈ nbrs (addPairStep st pq).2 C := by
  obtain ⟨⟨t1, a1⟩, t2, a2⟩ := pq
  simp only [addPairStep]
  split
  · intro h
    rcases hasCond_append_cases _ _ _ _ _ _ h with h0 | ⟨rfl, rfl⟩ | ⟨rfl, rfl⟩
    · obtain ⟨h1, h2⟩ := hinv h0
      exact ⟨mem_nbrs_graphAdd2_mono _ _ _ _ _ h1, mem_nbrs_graphAdd2_mono _ _ _ _ _ h2⟩
    · exact ⟨mem_nbrs_graphAdd2_left _ _ _, mem_nbrs_graphAdd2_right _ _ _⟩
    · exact ⟨mem_nbrs_graphAdd2_right _ _ _, mem_nbrs_graphAdd2_left _ _ _⟩
  · exact hinv

end JoinOpt


namespace Util

/-! Minimum-fold lemmas for the strategy and order loops of the join
optimizer, and the WithTop if-min normal form. -/

theorem foldl_min_step_le {α : Type} (c : α → WithTop ℚ) (best : WithTop ℚ) (x : α) :
    (if c x < best then c x else best) ≤ best := by
  split
  · exact le_of_lt (by assumption)
  · exact le_refl _

theorem foldl_min_le_init {α : Type} (c : α → WithTop ℚ) (xs : List α) (init : WithTop ℚ) :
    xs.foldl (fun best x => if c x < best then c x else best) init ≤ init := by
  induction xs generalizing init with
  | nil => exact le_refl _
  | cons x rest ih =>
    exact le_trans (ih _) (foldl_min_step_le c init x)

theorem foldl_min_le_mem {α : Type} (c : α → WithTop ℚ) (xs : List α) (init : WithTop ℚ)
    (x : α) (hx : x ∈ xs) :
    xs.foldl (fun best x => if c x < best then c x else best) init ≤ c x := by
  induction xs generalizing init with
  | nil => simp at hx
  | cons y rest ih =>
    simp only [List.foldl_cons]
    rcases List.mem_cons.mp hx with rfl | hx2
    · refine le_trans (foldl_min_le_init c rest _) ?_
      by_cases hc : c x < init
      · rw [if_pos hc]
      · rw [if_neg hc]
        exact le_of_not_lt hc
    · exact ih _ hx2

theorem wt_ite_min (a b : ℚ) :
    (if (↑a : WithTop ℚ) < ↑b then (↑a : WithTop ℚ) else ↑b) = ↑(min a b) := by
  rcases lt_trichotomy a b with h | h | h
  · rw [if_pos (WithTop.coe_lt_coe.mpr h), min_eq_left (le_of_lt h)]
  · subst h
    simp
  · rw [if_neg (by simp [WithTop.coe_lt_coe]; exact le_of_lt h), min_eq_right (le_of_lt h)]

end Util

namespace JoinOpt

/-! Lemmas about the strategy loop, the per-order DP evaluation of
optimize_join_query, and the order fold of best_cost_for_method. -/

open Util

theorem bestStrategyCost_le (pref : List String) (raw : String → WithTop ℚ)
    (s : String) (hs : s ∈ pref) :
    bestStrategyCost pref raw ≤ adjustCost pref s (raw s) :=
  foldl_min_le_mem (fun s => adjustCost pref s (raw s)) pref ⊤ s hs

theorem adjustCost_block_fixed (c : WithTop ℚ) :
    adjustCost ["hash", "nested", "block"] "block" c = c := by
  simp [adjustCost]

theorem foldlM_min_ok (f : List String → Except Unit (WithTop ℚ))
    (orders : List (List String))
    (hok : ∀ o ∈ orders, ∃ v, f o = .ok v) (init : WithTop ℚ) :
    ∃ F, (orders.foldlM
        (fun best order => do
          let final ← f order
          pure (if final < best then final else best)) init) = .ok F ∧
      F ≤ init ∧ ∀ o ∈ orders, ∀ v, f o = .ok v → F ≤ v := by
  induction orders generalizing init with
  | nil =>
    refine ⟨init, rfl, le_refl _, ?_⟩
    intro o ho
    simp at ho
  | cons o rest ih =>
    obtain ⟨v0, hv0⟩ := hok o (by simp)
    obtain ⟨F, hF, hle, hmem⟩ := ih (fun o ho => hok o (List.mem_cons_of_mem _ ho))
      (if v0 < init then v0 else init)
    refine ⟨F, ?_, ?_, ?_⟩
    · simp only [List.foldlM, hv0, Except.bind, bind, pure, Except.pure]
      exact hF
    · refine le_trans hle ?_
      by_cases hc : v0 < init
      · rw [if_pos hc]
        exact le_of_lt hc
      · rw [if_neg hc]
    · intro o2 ho2 v hv
      rcases List.mem_cons.mp ho2 with rfl | ho3
      · rw [hv0] at hv
        obtain rfl : v0 = v := by injection hv
        refine le_trans hle ?_
        by_cases hc : v0 < init
        · rw [if_pos hc]
        · rw [if_neg hc]
          exact le_of_not_lt hc
      · exact hmem o2 ho3 v hv

theorem dpOrder_three_eq (stats : Stats) (conds : Conds) (method : String)
    (pref : List String) (t0 t1 t2 jt1 jt2 : String) (ja1 ja2 : String × String)
    (h1 : findJoinAttrs conds [t0] t1 = some (jt1, ja1))
    (h2 : findJoinAttrs conds [t0, t1] t2 = some (jt2, ja2)) :
    dpOrder stats conds method pref [t0, t1, t2] =
      .ok (bestStrategyCost pref (fun strategy =>
        bestStrategyCost pref (fun strategy =>
          estimate_join_cost stats t0 t1 ja1 strategy
            (estimate_selectivity stats jt1 t1 ja1 method)) +
        estimate_join_cost_with_intermediate stats
          (get_intermediate_result_size stats conds method [t0, t1]) t2 ja2 strategy
          (estimate_selectivity stats jt2 t2 ja2 method))) := by
  simp only [dpOrder, dpSteps, List.cons_append, List.nil_append, List.singleton_append,
    h1, h2, Except.bind, bind, List.length_cons, List.length_nil, List.head?_cons,
    Option.getD_some, Except.pure, pure]
  norm_num

theorem bestStrategyCost_three (s1 s2 s3 : String) (raw : String → WithTop ℚ)
    (q1 q2 q3 : ℚ) (h21 : s2 ≠ s1) (h31 : s3 ≠ s1) (h32 : s3 ≠ s2)
    (h1 : raw s1 = ↑q1) (h2 : raw s2 = ↑q2) (h3 : raw s3 = ↑q3) :
    bestStrategyCost [s1, s2, s3] raw =
      ↑(min q3 (min (q2 * (19/20)) (q1 * (9/10)))) := by
  simp only [bestStrategyCost, List.foldl, adjustCost, List.head?_cons, h1, h2, h3,
    Option.some.injEq, List.get?]
  have e12 : (s1 = s2) = False := by simp [Ne.symm h21]
  have e13 : (s1 = s3) = False := by simp [Ne.symm h31]
  have e23 : (s2 = s3) = False := by simp [Ne.symm h32]
  simp only [e12, e13, e23, eq_self_iff_true, if_true, if_false, WithTop.map_coe,
    WithTop.coe_lt_top, wt_ite_min]

end JoinOpt

namespace Cse

/-! ### Structural lemmas about the common-subexpression eliminator -/

-- lookup after replaceFields
theorem lookup_replaceFields (m : List (String × String)) (fields : List (String × Json))
    (k : String) :
    (replaceFields m fields).lookup k = (fields.lookup k).map (replaceValue m) := by
  induction fields with
  | nil => rfl
  | cons p rest ih =>
    obtain ⟨a, v⟩ := p
    simp only [replaceFields, List.lookup]
    cases k == a
    · exact ih
    · rfl

-- replaceValue never turns a non-string into a string and keeps strings
theorem replaceValue_str_iff (m : List (String × String)) (v : Json) (s : String) :
    replaceValue m v = .str s ↔ v = .str s := by
  cases v with
  | obj fields =>
    constructor
    · intro h
      simp only [replaceValue] at h
      split at h <;> simp at h
    · intro h
      simp at h
  | arr items =>
    constructor
    · intro h
      simp [replaceValue] at h
    · intro h
      simp at h
  | str s2 => constructor <;> (intro h; simpa [replaceValue] using h)
  | null => constructor <;> (intro h; simp [replaceValue] at h)
  | bool b => constructor <;> (intro h; simp [replaceValue] at h)
  | num n => constructor <;> (intro h; simp [replaceValue] at h)

theorem refIds_obj (fields : List (String × Json)) :
    refIds (.obj fields) = refHead fields ++ refIdsFields fields := rfl

theorem replaceValue_obj_shape (m : List (String × String)) (f2 : List (String × Json)) :
    ∃ f3, replaceValue m (.obj f2) = .obj f3 := by
  simp only [replaceValue]
  split
  · exact ⟨_, rfl⟩
  · exact ⟨_, rfl⟩

theorem refHead_replace (m : List (String × String)) (fields : List (String × Json))
    (h : refHead fields = []) : refHead (replaceFields m fields) = [] := by
  unfold refHead at h ⊢
  rw [lookup_replaceFields, lookup_replaceFields]
  cases ht : fields.lookup "type" with
  | none => rfl
  | some tv =>
    rw [ht] at h
    cases tv with
    | str tp =>
      simp only [Option.map_some', replaceValue]
      cases hi : fields.lookup "id" with
      | none => rfl
      | some iv =>
        rw [hi] at h
        cases iv with
        | str i =>
          simp only [Option.map_some', replaceValue]
          exact h
        | obj f2 =>
          obtain ⟨f3, hf3⟩ := replaceValue_obj_shape m f2
          simp only [Option.map_some', hf3]
        | arr its => simp only [Option.map_some', replaceValue]
        | null => simp only [Option.map_some', replaceValue]
        | bool b => simp only [Option.map_some', replaceValue]
        | num n => simp only [Option.map_some', replaceValue]
    | obj f2 =>
      obtain ⟨f3, hf3⟩ := replaceValue_obj_shape m f2
      simp only [Option.map_some', hf3]
    | arr its => simp only [Option.map_some', replaceValue]
    | null => simp only [Option.map_some', replaceValue]
    | bool b => simp only [Option.map_some', replaceValue]
    | num n => simp only [Option.map_some', replaceValue]

theorem lookup_singleton_some {α : Type} [BEq α] [LawfulBEq α] {β : Type}
    (k a : α) (b e : β) (h : List.lookup k [(a, b)] = some e) : k = a ∧ e = b := by
  simp only [List.lookup] at h
  cases hk : k == a with
  | true =>
    rw [hk] at h
    exact ⟨eq_of_beq hk, by injection h with h2; exact h2.symm⟩
  | false => rw [hk] at h; simp at h

theorem lookup_singleton_none {α : Type} [BEq α] [LawfulBEq α] {β : Type}
    (k a : α) (b : β) (h : List.lookup k [(a, b)] = none) : k ≠ a := by
  intro he
  subst he
  simp [List.lookup] at h

theorem lookup_map_snd {α β : Type} [BEq α] (k : α) (l : List (α × β)) (v : β)
    (h : List.lookup k l = some v) : v ∈ l.map Prod.snd := by
  induction l with
  | nil => simp [List.lookup] at h
  | cons p rest ih =>
    obtain ⟨a, b⟩ := p
    simp only [List.lookup] at h
    cases hk : k == a with
    | true =>
      rw [hk] at h
      injection h with h2
      subst h2
      simp
    | false =>
      rw [hk] at h
      simp only [List.map_cons, List.mem_cons]
      exact Or.inr (ih h)

theorem replace_count (s eid : String) :
    ∀ t : Json,
      (∀ p ∈ collectNodes t, p.1 = s →
        (collectFields (objFields p.2)).countP (fun q => decide (q.1 = s)) = 0) →
      refIds t = [] →
      refIds (replaceNode [(s, eid)] t) =
        List.replicate ((collectNodes t).countP (fun p => decide (p.1 = s))) eid := by
  refine Cse.collectNodes.induct
    (fun t =>
      (∀ p ∈ collectNodes t, p.1 = s →
        (collectFields (objFields p.2)).countP (fun q => decide (q.1 = s)) = 0) →
      refIds t = [] →
      refIds (replaceNode [(s, eid)] t) =
        List.replicate ((collectNodes t).countP (fun p => decide (p.1 = s))) eid)
    (fun fields =>
      (∀ p ∈ collectFields fields, p.1 = s →
        (collectFields (objFields p.2)).countP (fun q => decide (q.1 = s)) = 0) →
      refIdsFields fields = [] →
      refIdsFields (replaceFields [(s, eid)] fields) =
        List.replicate ((collectFields fields).countP (fun p => decide (p.1 = s))) eid)
    (fun v =>
      (∀ p ∈ collectValue v, p.1 = s →
        (collectFields (objFields p.2)).countP (fun q => decide (q.1 = s)) = 0) →
      refIds v = [] →
      refIds (replaceValue [(s, eid)] v) =
        List.replicate ((collectValue v).countP (fun p => decide (p.1 = s))) eid)
    (fun items =>
      (∀ p ∈ collectItems items, p.1 = s →
        (collectFields (objFields p.2)).countP (fun q => decide (q.1 = s)) = 0) →
      refIdsItems items = [] →
      refIdsItems (replaceItems [(s, eid)] items) =
        List.replicate ((collectItems items).countP (fun p => decide (p.1 = s))) eid)
    ?_ ?_ ?_ ?_ ?_ ?_ ?_ ?_ ?_
  case _ =>
    -- obj fields, node position
    intro fields ih hnn hre
    rw [refIds_obj] at hre
    rw [List.append_eq_nil] at hre
    obtain ⟨hh, hf⟩ := hre
    have hnn2 : ∀ p ∈ collectFields fields, p.1 = s →
        (collectFields (objFields p.2)).countP (fun q => decide (q.1 = s)) = 0 :=
      fun p hp => hnn p (by simp only [collectNodes]; exact List.mem_append_left _ hp)
    have ihr := ih hnn2 hf
    simp only [collectNodes, replaceNode]
    cases hm : List.lookup (serializeForComparison fields) [(s, eid)] with
    | none =>
      have hne := lookup_singleton_none _ _ _ hm
      cases hsig : isSignificant fields with
      | false =>
        rw [refIds_obj, refHead_replace _ _ hh, List.nil_append, ihr]
        simp [List.countP_append]
      | true =>
        rw [refIds_obj, refHead_replace _ _ hh, List.nil_append, ihr]
        simp [List.countP_append, List.countP_cons, hne]
    | some e =>
      obtain ⟨hks, hke⟩ := lookup_singleton_some _ _ _ _ hm
      cases hsig : isSignificant fields with
      | false =>
        rw [refIds_obj, refHead_replace _ _ hh, List.nil_append, ihr]
        simp [List.countP_append]
      | true =>
        subst hke
        have hcnt0 : (collectFields fields).countP (fun q => decide (q.1 = s)) = 0 := by
          have hmem : (serializeForComparison fields, Json.obj fields) ∈
              collectNodes (.obj fields) := by
            simp only [collectNodes, hsig, if_true]
            exact List.mem_append_right _ (by simp)
          simpa only [objFields] using hnn _ hmem hks
        rw [List.countP_append, hcnt0]
        simp only [hsig, if_true, List.countP_cons, List.countP_nil, hks]
        simp [refIds_obj, refHead, List.lookup, refIdsFields, refIds]
  case _ =>
    -- non-obj node position
    intro t hno hnn hre
    cases t with
    | obj fields => exact absurd rfl (hno fields)
    | null => exact hre
    | bool b => exact hre
    | num n => exact hre
    | str s2 => exact hre
    | arr items => exact hre
  case _ =>
    -- obj fields, value position
    intro fields ih hnn hre
    rw [refIds_obj] at hre
    rw [List.append_eq_nil] at hre
    obtain ⟨hh, hf⟩ := hre
    have hnn2 : ∀ p ∈ collectFields fields, p.1 = s →
        (collectFields (objFields p.2)).countP (fun q => decide (q.1 = s)) = 0 :=
      fun p hp => hnn p (by simp only [collectValue]; exact List.mem_append_left _ hp)
    have ihr := ih hnn2 hf
    simp only [collectValue, replaceValue]
    cases hm : List.lookup (serializeForComparison fields) [(s, eid)] with
    | none =>
      have hne := lookup_singleton_none _ _ _ hm
      cases hsig : isSignificant fields with
      | false =>
        rw [refIds_obj, refHead_replace _ _ hh, List.nil_append, ihr]
        simp [List.countP_append]
      | true =>
        rw [refIds_obj, refHead_replace _ _ hh, List.nil_append, ihr]
        simp [List.countP_append, List.countP_cons, hne]
    | some e =>
      obtain ⟨hks, hke⟩ := lookup_singleton_some _ _ _ _ hm
      cases hsig : isSignificant fields with
      | false =>
        rw [refIds_obj, refHead_replace _ _ hh, List.nil_append, ihr]
        simp [List.countP_append]
      | true =>
        subst hke
        have hcnt0 : (collectFields fields).countP (fun q => decide (q.1 = s)) = 0 := by
          have hmem : (serializeForComparison fields, Json.obj fields) ∈
              collectValue (.obj fields) := by
            simp only [collectValue, hsig, if_true]
            exact List.mem_append_right _ (by simp)
          simpa only [objFields] using hnn _ hmem hks
        rw [List.countP_append, hcnt0]
        simp only [hsig, if_true, List.countP_cons, List.countP_nil, hks]
        simp [refIds_obj, refHead, List.lookup, refIdsFields, refIds]
  case _ =>
    -- arr items, value position
    intro items ih hnn hre
    simp only [collectValue, replaceValue] at *
    exact ih hnn hre
  case _ =>
    -- non-obj non-arr value position
    intro t hno hna hnn hre
    cases t with
    | obj fields => exact absurd rfl (hno fields)
    | arr items => exact absurd rfl (hna items)
    | null => exact hre
    | bool b => exact hre
    | num n => exact hre
    | str s2 => exact hre
  case _ =>
    intro hnn hre
    rfl
  case _ =>
    -- item cons
    intro v rest ih1 ih4 hnn hre
    simp only [refIdsItems, List.append_eq_nil] at hre
    obtain ⟨h1, h2⟩ := hre
    have hnnl : ∀ p ∈ collectNodes v, p.1 = s →
        (collectFields (objFields p.2)).countP (fun q => decide (q.1 = s)) = 0 :=
      fun p hp => hnn p (by simp only [collectItems]; exact List.mem_append_left _ hp)
    have hnnr : ∀ p ∈ collectItems rest, p.1 = s →
        (collectFields (objFields p.2)).countP (fun q => decide (q.1 = s)) = 0 :=
      fun p hp => hnn p (by simp only [collectItems]; exact List.mem_append_right _ hp)
    simp only [collectItems, replaceItems, refIdsItems, ih1 hnnl h1, ih4 hnnr h2,
      List.countP_append]
    rw [List.replicate_add]
  case _ =>
    intro hnn hre
    rfl
  case _ =>
    -- field cons
    intro k v rest ih3 ih2 hnn hre
    simp only [refIdsFields, List.append_eq_nil] at hre
    obtain ⟨h1, h2⟩ := hre
    have hnnl : ∀ p ∈ collectValue v, p.1 = s →
        (collectFields (objFields p.2)).countP (fun q => decide (q.1 = s)) = 0 :=
      fun p hp => hnn p (by simp only [collectFields]; exact List.mem_append_left _ hp)
    have hnnr : ∀ p ∈ collectFields rest, p.1 = s →
        (collectFields (objFields p.2)).countP (fun q => decide (q.1 = s)) = 0 :=
      fun p hp => hnn p (by simp only [collectFields]; exact List.mem_append_right _ hp)
    simp only [collectFields, replaceFields, refIdsFields, ih3 hnnl h1, ih2 hnnr h2,
      List.countP_append]
    rw [List.replicate_add]

theorem replace_refs_subset (m : List (String × String)) :
    ∀ t : Json, refIds t = [] →
      ∀ i ∈ refIds (replaceNode m t), i ∈ m.map Prod.snd := by
  refine Cse.collectNodes.induct
    (fun t => refIds t = [] → ∀ i ∈ refIds (replaceNode m t), i ∈ m.map Prod.snd)
    (fun fields => refIdsFields fields = [] →
      ∀ i ∈ refIdsFields (replaceFields m fields), i ∈ m.map Prod.snd)
    (fun v => refIds v = [] → ∀ i ∈ refIds (replaceValue m v), i ∈ m.map Prod.snd)
    (fun items => refIdsItems items = [] →
      ∀ i ∈ refIdsItems (replaceItems m items), i ∈ m.map Prod.snd)
    ?_ ?_ ?_ ?_ ?_ ?_ ?_ ?_ ?_
  case _ =>
    intro fields ih hre
    rw [refIds_obj, List.append_eq_nil] at hre
    obtain ⟨hh, hf⟩ := hre
    simp only [replaceNode]
    cases hm : List.lookup (serializeForComparison fields) m with
    | none =>
      intro i hi
      rw [refIds_obj, refHead_replace _ _ hh, List.nil_append] at hi
      exact ih hf i hi
    | some e =>
      cases hsig : isSignificant fields with
      | false =>
        intro i hi
        rw [refIds_obj, refHead_replace _ _ hh, List.nil_append] at hi
        exact ih hf i hi
      | true =>
        intro i hi
        simp [refIds_obj, refHead, List.lookup, refIdsFields, refIds] at hi
        subst hi
        exact lookup_map_snd _ _ _ hm
  case _ =>
    intro t hno hre
    cases t with
    | obj fields => exact absurd rfl (hno fields)
    | null => intro i hi; simp only [replaceNode] at hi; rw [hre] at hi; simp at hi
    | bool b => intro i hi; simp only [replaceNode] at hi; rw [hre] at hi; simp at hi
    | num n => intro i hi; simp only [replaceNode] at hi; rw [hre] at hi; simp at hi
    | str s2 => intro i hi; simp only [replaceNode] at hi; rw [hre] at hi; simp at hi
    | arr items => intro i hi; simp only [replaceNode] at hi; rw [hre] at hi; simp at hi
  case _ =>
    intro fields ih hre
    rw [refIds_obj, List.append_eq_nil] at hre
    obtain ⟨hh, hf⟩ := hre
    simp only [replaceValue]
    cases hm : List.lookup (serializeForComparison fields) m with
    | none =>
      intro i hi
      rw [refIds_obj, refHead_replace _ _ hh, List.nil_append] at hi
      exact ih hf i hi
    | some e =>
      cases hsig : isSignificant fields with
      | false =>
        intro i hi
        rw [refIds_obj, refHead_replace _ _ hh, List.nil_append] at hi
        exact ih hf i hi
      | true =>
        intro i hi
        simp [refIds_obj, refHead, List.lookup, refIdsFields, refIds] at hi
        subst hi
        exact lookup_map_snd _ _ _ hm
  case _ =>
    intro items ih hre
    simp only [replaceValue, refIds] at *
    exact ih hre
  case _ =>
    intro t hno hna hre
    cases t with
    | obj fields => exact absurd rfl (hno fields)
    | arr items => exact absurd rfl (hna items)
    | null => intro i hi; simp only [replaceValue] at hi; rw [hre] at hi; simp at hi
    | bool b => intro i hi; simp only [replaceValue] at hi; rw [hre] at hi; simp at hi
    | num n => intro i hi; simp only [replaceValue] at hi; rw [hre] at hi; simp at hi
    | str s2 => intro i hi; simp only [replaceValue] at hi; rw [hre] at hi; simp at hi
  case _ =>
    intro hre
    intro i hi
    simp [replaceItems, refIdsItems] at hi
  case _ =>
    intro v rest ih1 ih4 hre
    simp only [refIdsItems, List.append_eq_nil] at hre
    obtain ⟨h1, h2⟩ := hre
    intro i hi
    simp only [replaceItems, refIdsItems, List.mem_append] at hi
    rcases hi with hi | hi
    · exact ih1 h1 i hi
    · exact ih4 h2 i hi
  case _ =>
    intro hre i hi
    simp [replaceFields, refIdsFields] at hi
  case _ =>
    intro k v rest ih3 ih2 hre
    simp only [refIdsFields, List.append_eq_nil] at hre
    obtain ⟨h1, h2⟩ := hre
    intro i hi
    simp only [replaceFields, refIdsFields, List.mem_append] at hi
    rcases hi with hi | hi
    · exact ih3 h1 i hi
    · exact ih2 h2 i hi

theorem collected_refs_free :
    ∀ t : Json, refIds t = [] → ∀ p ∈ collectNodes t, refIds p.2 = [] := by
  refine Cse.collectNodes.induct
    (fun t => refIds t = [] → ∀ p ∈ collectNodes t, refIds p.2 = [])
    (fun fields => refIdsFields fields = [] → ∀ p ∈ collectFields fields, refIds p.2 = [])
    (fun v => refIds v = [] → ∀ p ∈ collectValue v, refIds p.2 = [])
    (fun items => refIdsItems items = [] → ∀ p ∈ collectItems items, refIds p.2 = [])
    ?_ ?_ ?_ ?_ ?_ ?_ ?_ ?_ ?_
  case _ =>
    intro fields ih hre p hp
    simp only [collectNodes] at hp
    rcases List.mem_append.mp hp with hp | hp
    · rw [refIds_obj, List.append_eq_nil] at hre
      exact ih hre.2 p hp
    · cases hsig : isSignificant fields with
      | false => rw [hsig] at hp; simp at hp
      | true =>
        rw [hsig] at hp
        simp at hp
        subst hp
        exact hre
  case _ =>
    intro t hno hre p hp
    cases t with
    | obj fields => exact absurd rfl (hno fields)
    | null => simp [collectNodes] at hp
    | bool b => simp [collectNodes] at hp
    | num n => simp [collectNodes] at hp
    | str s2 => simp [collectNodes] at hp
    | arr items => simp [collectNodes] at hp
  case _ =>
    intro fields ih hre p hp
    simp only [collectValue] at hp
    rcases List.mem_append.mp hp with hp | hp
    · rw [refIds_obj, List.append_eq_nil] at hre
      exact ih hre.2 p hp
    · cases hsig : isSignificant fields with
      | false => rw [hsig] at hp; simp at hp
      | true =>
        rw [hsig] at hp
        simp at hp
        subst hp
        exact hre
  case _ =>
    intro items ih hre p hp
    simp only [collectValue] at hp
    exact ih hre p hp
  case _ =>
    intro t hno hna hre p hp
    cases t with
    | obj fields => exact absurd rfl (hno fields)
    | arr items => exact absurd rfl (hna items)
    | null => simp [collectValue] at hp
    | bool b => simp [collectValue] at hp
    | num n => simp [collectValue] at hp
    | str s2 => simp [collectValue] at hp
  case _ =>
    intro hre p hp
    simp [collectItems] at hp
  case _ =>
    intro v rest ih1 ih4 hre p hp
    simp only [refIdsItems, List.append_eq_nil] at hre
    simp only [collectItems] at hp
    rcases List.mem_append.mp hp with hp | hp
    · exact ih1 hre.1 p hp
    · exact ih4 hre.2 p hp
  case _ =>
    intro hre p hp
    simp [collectFields] at hp
  case _ =>
    intro k v rest ih3 ih2 hre p hp
    simp only [refIdsFields, List.append_eq_nil] at hre
    simp only [collectFields] at hp
    rcases List.mem_append.mp hp with hp | hp
    · exact ih3 hre.1 p hp
    · exact ih2 hre.2 p hp

theorem collected_shape :
    ∀ t : Json, ∀ p ∈ collectNodes t, ∃ f, p.2 = .obj f ∧ p.1 = serializeForComparison f := by
  refine Cse.collectNodes.induct
    (fun t => ∀ p ∈ collectNodes t, ∃ f, p.2 = .obj f ∧ p.1 = serializeForComparison f)
    (fun fields => ∀ p ∈ collectFields fields,
      ∃ f, p.2 = .obj f ∧ p.1 = serializeForComparison f)
    (fun v => ∀ p ∈ collectValue v, ∃ f, p.2 = .obj f ∧ p.1 = serializeForComparison f)
    (fun items => ∀ p ∈ collectItems items,
      ∃ f, p.2 = .obj f ∧ p.1 = serializeForComparison f)
    ?_ ?_ ?_ ?_ ?_ ?_ ?_ ?_ ?_
  case _ =>
    intro fields ih p hp
    simp only [collectNodes] at hp
    rcases List.mem_append.mp hp with hp | hp
    · exact ih p hp
    · cases hsig : isSignificant fields with
      | false => rw [hsig] at hp; simp at hp
      | true =>
        rw [hsig] at hp
        simp at hp
        subst hp
        exact ⟨fields, rfl, rfl⟩
  case _ =>
    intro t hno p hp
    cases t with
    | obj fields => exact absurd rfl (hno fields)
    | null => simp [collectNodes] at hp
    | bool b => simp [collectNodes] at hp
    | num n => simp [collectNodes] at hp
    | str s2 => simp [collectNodes] at hp
    | arr items => simp [collectNodes] at hp
  case _ =>
    intro fields ih p hp
    simp only [collectValue] at hp
    rcases List.mem_append.mp hp with hp | hp
    · exact ih p hp
    · cases hsig : isSignificant fields with
      | false => rw [hsig] at hp; simp at hp
      | true =>
        rw [hsig] at hp
        simp at hp
        subst hp
        exact ⟨fields, rfl, rfl⟩
  case _ =>
    intro items ih p hp
    simp only [collectValue] at hp
    exact ih p hp
  case _ =>
    intro t hno hna p hp
    cases t with
    | obj fields => exact absurd rfl (hno fields)
    | arr items => exact absurd rfl (hna items)
    | null => simp [collectValue] at hp
    | bool b => simp [collectValue] at hp
    | num n => simp [collectValue] at hp
    | str s2 => simp [collectValue] at hp
  case _ =>
    intro p hp
    simp [collectItems] at hp
  case _ =>
    intro v rest ih1 ih4 p hp
    simp only [collectItems] at hp
    rcases List.mem_append.mp hp with hp | hp
    · exact ih1 p hp
    · exact ih4 p hp
  case _ =>
    intro p hp
    simp [collectFields] at hp
  case _ =>
    intro k v rest ih3 ih2 p hp
    simp only [collectFields] at hp
    rcases List.mem_append.mp hp with hp | hp
    · exact ih3 p hp
    · exact ih2 p hp

theorem groupBySer_mem (l : List (String × Json)) (p : String × List Json)
    (hp : p ∈ groupBySer l) :
    p.2 = (l.filter (fun q => q.1 = p.1)).map Prod.snd := by
  simp only [groupBySer, List.mem_map] at hp
  obtain ⟨s', hs', hps⟩ := hp
  rw [← hps]

theorem filter_pair_eq (s : String) (u v : Json) (l : List (String × Json))
    (hfst : ∀ x ∈ l, x.1 = s) (hsnd : l.map Prod.snd = [u, v]) :
    l = [(s, u), (s, v)] := by
  cases l with
  | nil => simp at hsnd
  | cons x rest =>
    cases rest with
    | nil => simp at hsnd
    | cons y rest2 =>
      cases rest2 with
      | nil =>
        obtain ⟨a, b⟩ := x
        obtain ⟨c, d⟩ := y
        simp only [List.map_cons, List.map_nil, List.cons.injEq, and_true] at hsnd
        obtain ⟨h1, h2⟩ := hsnd
        have ha := hfst (a, b) (by simp)
        have hc := hfst (c, d) (by simp)
        simp only at ha hc
        subst h1; subst h2; subst ha; subst hc
        rfl
      | cons z rest3 => simp at hsnd

theorem enum_map_expr_fst {β γ : Type} (l : List β) (f : Nat × β → γ) :
    (l.enum.map (fun p => ("expr_" ++ toString p.1, f p))).map Prod.fst =
      (List.range l.length).map (fun n => "expr_" ++ toString n) := by
  rw [List.map_map]
  have h1 : (Prod.fst ∘ fun p : Nat × β => ("expr_" ++ toString p.1, f p)) =
      (fun n => "expr_" ++ toString n) ∘ Prod.fst := rfl
  rw [h1, ← List.map_map, List.enum_map_fst]

theorem enum_map_expr_snd {β γ : Type} (l : List β) (f : Nat × β → γ) :
    (l.enum.map (fun p => (f p, "expr_" ++ toString p.1))).map Prod.snd =
      (List.range l.length).map (fun n => "expr_" ++ toString n) := by
  rw [List.map_map]
  have h1 : (Prod.snd ∘ fun p : Nat × β => (f p, "expr_" ++ toString p.1)) =
      (fun n => "expr_" ++ toString n) ∘ Prod.fst := rfl
  rw [h1, ← List.map_map, List.enum_map_fst]

theorem mem_of_mem_enum {β : Type} {l : List β} {p : Nat × β} (hp : p ∈ l.enum) :
    p.2 ∈ l := by
  have h2 : p.2 ∈ l.enum.map Prod.snd := List.mem_map_of_mem _ hp
  rw [List.enum_map_snd] at h2
  exact h2

theorem optimize_refs_closed (t : Json) (hrefs : refIds t = []) :
    (∀ i ∈ refIds (optimize t).query,
        i ∈ (optimize t).common_expressions.map Prod.fst) ∧
    (∀ e ∈ (optimize t).common_expressions, refIds e.2 = []) ∧
    (optimize t).common_expressions.map Prod.fst =
      (List.range (optimize t).common_expressions.length).map
        (fun n => "expr_" ++ toString n) := by
  have hkeys : (mintedEntries t).map Prod.fst =
      (List.range (sortedRetained t).length).map (fun n => "expr_" ++ toString n) := by
    rw [mintedEntries]
    exact enum_map_expr_fst _ _
  have hlen : (mintedEntries t).length = (sortedRetained t).length := by
    rw [mintedEntries, List.length_map, List.enum_length]
  have hrm : (replaceMap t).map Prod.snd =
      (List.range (sortedRetained t).length).map (fun n => "expr_" ++ toString n) := by
    rw [replaceMap]
    exact enum_map_expr_snd _ _
  refine ⟨?_, ?_, ?_⟩
  · intro i hi
    have h1 := replace_refs_subset (replaceMap t) t hrefs i hi
    rw [hrm] at h1
    show i ∈ (mintedEntries t).map Prod.fst
    rw [hkeys]
    exact h1
  · intro e he
    simp only [optimize] at he
    rw [mintedEntries, List.mem_map] at he
    obtain ⟨p, hp, hpe⟩ := he
    have hg : p.2 ∈ sortedRetained t := mem_of_mem_enum hp
    have hg2 : p.2 ∈ retainedGroups t :=
      ((List.perm_insertionSort _ _).mem_iff).mp hg
    have hg3 : p.2 ∈ groupBySer (collectNodes t) := (List.mem_filter.mp hg2).1
    have hshape := groupBySer_mem _ _ hg3
    subst hpe
    show refIds (p.2.2.headD Json.null) = []
    cases hcase : p.2.2 with
    | nil => rfl
    | cons x rest =>
      have hx : x ∈ p.2.2 := by rw [hcase]; simp
      rw [hshape] at hx
      rw [List.mem_map] at hx
      obtain ⟨q, hq, hqx⟩ := hx
      have hqc : q ∈ collectNodes t := (List.mem_filter.mp hq).1
      have hq0 := collected_refs_free t hrefs q hqc
      simp only [List.headD_cons]
      rw [← hqx]
      exact hq0
  · show (mintedEntries t).map Prod.fst = _
    rw [hkeys]
    simp only [optimize]
    rw [hlen]

theorem lookup_cleanupFields (k : String) (hk : isMetaKey k = false) :
    ∀ fields : List (String × Json),
      (cleanupFields fields).lookup k = (fields.lookup k).map cleanupValue
  | [] => rfl
  | (a, v) :: rest => by
    simp only [cleanupFields, List.lookup]
    cases hma : isMetaKey a with
    | true =>
      rw [if_pos rfl]
      have hka : (k == a) = false := by
        cases hx : k == a with
        | true =>
          have := eq_of_beq hx
          subst this
          rw [hk] at hma
          exact absurd hma Bool.false_ne_true
        | false => rfl
      rw [hka]
      exact lookup_cleanupFields k hk rest
    | false =>
      rw [if_neg Bool.false_ne_true]
      simp only [List.lookup]
      cases hka : k == a with
      | true => rfl
      | false => exact lookup_cleanupFields k hk rest

theorem refHead_cleanup (fields : List (String × Json)) :
    refHead (cleanupFields fields) = refHead fields := by
  unfold refHead
  rw [lookup_cleanupFields _ (by decide), lookup_cleanupFields _ (by decide)]
  cases ht : fields.lookup "type" with
  | none => rfl
  | some tv =>
    cases tv with
    | str tp =>
      simp only [Option.map_some', cleanupValue]
      cases hi : fields.lookup "id" with
      | none => rfl
      | some iv =>
        cases iv with
        | str i => simp only [Option.map_some', cleanupValue]
        | obj f2 => simp only [Option.map_some', cleanupValue]
        | arr its => simp only [Option.map_some', cleanupValue]
        | null => simp only [Option.map_some', cleanupValue]
        | bool b => simp only [Option.map_some', cleanupValue]
        | num n => simp only [Option.map_some', cleanupValue]
    | obj f2 => simp only [Option.map_some', cleanupValue]
    | arr its => simp only [Option.map_some', cleanupValue]
    | null => simp only [Option.map_some', cleanupValue]
    | bool b => simp only [Option.map_some', cleanupValue]
    | num n => simp only [Option.map_some', cleanupValue]

theorem refIds_cleanup_subset :
    ∀ t : Json, ∀ i ∈ refIds (cleanup t), i ∈ refIds t := by
  refine Cse.cleanup.induct
    (fun t => ∀ i ∈ refIds (cleanup t), i ∈ refIds t)
    (fun fields => ∀ i ∈ refIdsFields (cleanupFields fields), i ∈ refIdsFields fields)
    (fun v => ∀ i ∈ refIds (cleanupValue v), i ∈ refIds v)
    (fun items => ∀ i ∈ refIdsItems (cleanupItems items), i ∈ refIdsItems items)
    ?_ ?_ ?_ ?_ ?_ ?_ ?_ ?_ ?_ ?_
  case _ =>
    intro fields ih i hi
    simp only [cleanup] at hi
    rw [refIds_obj, refHead_cleanup, List.mem_append] at hi
    rw [refIds_obj, List.mem_append]
    rcases hi with hi | hi
    · exact Or.inl hi
    · exact Or.inr (ih i hi)
  case _ =>
    intro t hno i hi
    cases t with
    | obj fields => exact absurd rfl (hno fields)
    | null => exact hi
    | bool b => exact hi
    | num n => exact hi
    | str s2 => exact hi
    | arr items => exact hi
  case _ =>
    intro fields ih i hi
    simp only [cleanupValue] at hi
    rw [refIds_obj, refHead_cleanup, List.mem_append] at hi
    rw [refIds_obj, List.mem_append]
    rcases hi with hi | hi
    · exact Or.inl hi
    · exact Or.inr (ih i hi)
  case _ =>
    intro items ih i hi
    simp only [cleanupValue, refIds] at hi ⊢
    exact ih i hi
  case _ =>
    intro v hno hna i hi
    cases v with
    | obj fields => exact absurd rfl (hno fields)
    | arr items => exact absurd rfl (hna items)
    | null => exact hi
    | bool b => exact hi
    | num n => exact hi
    | str s2 => exact hi
  case _ =>
    intro i hi
    exact hi
  case _ =>
    intro it rest ih1 ih2 i hi
    simp only [cleanupItems, refIdsItems, List.mem_append] at hi ⊢
    rcases hi with hi | hi
    · exact Or.inl (ih1 i hi)
    · exact Or.inr (ih2 i hi)
  case _ =>
    intro i hi
    exact hi
  case _ =>
    intro k v rest hmk ih i hi
    simp only [cleanupFields, if_pos hmk] at hi
    simp only [refIdsFields, List.mem_append]
    exact Or.inr (ih i hi)
  case _ =>
    intro k v rest hmk ihv ihr i hi
    simp only [cleanupFields, if_neg hmk] at hi
    simp only [refIdsFields, List.mem_append] at hi
    simp only [refIdsFields, List.mem_append]
    rcases hi with hi | hi
    · exact Or.inl (ihv i hi)
    · exact Or.inr (ihr i hi)

end Cse

namespace Claims

/-! Evaluation lemmas for the C1 chain input: the parsed structure, the six
join orders, the naive cost shape, DP success on every order, and the
concrete ndv and naive costs at cexStats. -/

open Util CostPopulator JoinOpt

theorem chain_parse_eq : parse_relational_algebra chainTree = (["a", "b", "c"], chainConds, chainGraph) := by
  decide

theorem chain_orders_eq :
    generate_valid_join_orders 100 ["a", "b", "c"] chainGraph = orders6 := by
  decide

-- generic min-fold lemmas

theorem naive_chain_eq (stats : Stats) :
    calculate_naive_cost stats chainTree =
      ↑((stats "a").page_count * JoinOpt.seq_page_cost +
          (stats "a").row_count * JoinOpt.cpu_tuple_cost) +
      estimate_join_cost stats "a" "b" ("x", "y") "block"
        (estimate_selectivity stats "a" "b" ("x", "y") "fixed") +
      estimate_join_cost_with_intermediate stats
        (get_intermediate_result_size stats chainConds "fixed" ["a", "b"])
        "c" ("x", "z") "block"
        (estimate_selectivity stats "a" "c" ("x", "z") "fixed") := by
  have hextract : extract_join_order chainTree [] = ["a", "b", "c"] := by decide
  have hf1 : findJoinAttrs chainConds ["a"] "b" = some ("a", ("x", "y")) := by decide
  have hf2 : findJoinAttrs chainConds ["a", "b"] "c" = some ("a", ("x", "z")) := by decide
  simp only [calculate_naive_cost, chain_parse_eq, hextract, naiveSteps, List.cons_append,
    List.nil_append, List.singleton_append, hf1, hf2, List.length_cons, List.length_nil,
    List.head?_cons, Option.getD_some]
  norm_num

theorem chain_dpOrders_ok (stats : Stats) (method : String) (pref : List String) :
    ∀ o ∈ orders6, ∃ v, dpOrder stats chainConds method pref o = .ok v := by
  intro o ho
  have hf1 : findJoinAttrs chainConds ["a"] "b" = some ("a", ("x", "y")) := by decide
  have hf2 : findJoinAttrs chainConds ["a", "b"] "c" = some ("a", ("x", "z")) := by decide
  have hf3 : findJoinAttrs chainConds ["a"] "c" = some ("a", ("x", "z")) := by decide
  have hf4 : findJoinAttrs chainConds ["a", "c"] "b" = some ("a", ("x", "y")) := by decide
  have hf5 : findJoinAttrs chainConds ["b"] "a" = some ("b", ("y", "x")) := by decide
  have hf6 : findJoinAttrs chainConds ["b", "a"] "c" = some ("b", ("y", "z")) := by decide
  have hf7 : findJoinAttrs chainConds ["b"] "c" = some ("b", ("y", "z")) := by decide
  have hf8 : findJoinAttrs chainConds ["b", "c"] "a" = some ("b", ("y", "x")) := by decide
  have hf9 : findJoinAttrs chainConds ["c"] "b" = some ("c", ("z", "y")) := by decide
  have hf10 : findJoinAttrs chainConds ["c", "b"] "a" = some ("c", ("z", "x")) := by decide
  have hf11 : findJoinAttrs chainConds ["c"] "a" = some ("c", ("z", "x")) := by decide
  have hf12 : findJoinAttrs chainConds ["c", "a"] "b" = some ("c", ("z", "y")) := by decide
  simp only [orders6, List.mem_cons, List.not_mem_nil, or_false] at ho
  rcases ho with rfl | rfl | rfl | rfl | rfl | rfl
  · exact ⟨_, dpOrder_three_eq stats chainConds method pref _ _ _ _ _ _ _ hf1 hf2⟩
  · exact ⟨_, dpOrder_three_eq stats chainConds method pref _ _ _ _ _ _ _ hf3 hf4⟩
  · exact ⟨_, dpOrder_three_eq stats chainConds method pref _ _ _ _ _ _ _ hf5 hf6⟩
  · exact ⟨_, dpOrder_three_eq stats chainConds method pref _ _ _ _ _ _ _ hf7 hf8⟩
  · exact ⟨_, dpOrder_three_eq stats chainConds method pref _ _ _ _ _ _ _ hf9 hf10⟩
  · exact ⟨_, dpOrder_three_eq stats chainConds method pref _ _ _ _ _ _ _ hf11 hf12⟩

theorem ndv_order_cost_abc : dpOrder cexStats chainConds "ndv" (method_strategy_preference "ndv")
    ["a", "b", "c"] = .ok (((3515625/64 : ℚ)) : WithTop ℚ) := by
  rw [dpOrder_three_eq cexStats chainConds "ndv" _ "a" "b" "c" "a" "a"
    ("x", "y") ("x", "z") (by decide) (by decide)]
  have hprefN : method_strategy_preference "ndv" = ["nested", "block", "hash"] := by decide
  rw [hprefN]
  have hfa : findJoinAttrs chainConds ["a"] "b" = some ("a", ("x", "y")) := by decide
  have hin : estimate_join_cost cexStats "a" "b" ("x", "y") "nested"
      (estimate_selectivity cexStats "a" "b" ("x", "y") "ndv") = ((0 : ℚ) : WithTop ℚ) := by
    have c1 : ("nested" = "hash") = False := by decide
    have c2 : ("nested" = "nested") = True := by decide
    simp only [estimate_join_cost, c1, c2, if_true, if_false]
    rw [WithTop.coe_eq_coe]
    simp [estimate_selectivity, get_intermediate_result_size, get_intermediate_result_size.go,
      hfa, List.getLast?, cexStats, Util.strStartsWith, Util.listPrefix, List.lookup,
      JoinOpt.seq_page_cost, JoinOpt.cpu_tuple_cost, JoinOpt.cpu_operator_cost,
      JoinOpt.random_page_cost, block_size, page_size] <;> norm_num
  have hib : estimate_join_cost cexStats "a" "b" ("x", "y") "block"
      (estimate_selectivity cexStats "a" "b" ("x", "y") "ndv") = ((0 : ℚ) : WithTop ℚ) := by
    have c1 : ("block" = "hash") = False := by decide
    have c2 : ("block" = "nested") = False := by decide
    have c3 : ("block" = "block") = True := by decide
    simp only [estimate_join_cost, c1, c2, c3, if_true, if_false]
    rw [WithTop.coe_eq_coe]
    simp [estimate_selectivity, get_intermediate_result_size, get_intermediate_result_size.go,
      hfa, List.getLast?, cexStats, Util.strStartsWith, Util.listPrefix, List.lookup,
      JoinOpt.seq_page_cost, JoinOpt.cpu_tuple_cost, JoinOpt.cpu_operator_cost,
      JoinOpt.random_page_cost, block_size, page_size] <;> norm_num
  have hih : estimate_join_cost cexStats "a" "b" ("x", "y") "hash"
      (estimate_selectivity cexStats "a" "b" ("x", "y") "ndv") = ((25125/2 : ℚ) : WithTop ℚ) := by
    have c1 : ("hash" = "hash") = True := by decide
    simp only [estimate_join_cost, c1, if_true, if_false]
    rw [WithTop.coe_eq_coe]
    simp [estimate_selectivity, get_intermediate_result_size, get_intermediate_result_size.go,
      hfa, List.getLast?, cexStats, Util.strStartsWith, Util.listPrefix, List.lookup,
      JoinOpt.seq_page_cost, JoinOpt.cpu_tuple_cost, JoinOpt.cpu_operator_cost,
      JoinOpt.random_page_cost, block_size, page_size] <;> norm_num
  have hInner := bestStrategyCost_three "nested" "block" "hash"
    (fun strategy => estimate_join_cost cexStats "a" "b" ("x", "y") strategy
      (estimate_selectivity cexStats "a" "b" ("x", "y") "ndv")) 0 0 (25125/2)
    (by decide) (by decide) (by decide) hin hib hih
  have hmin1 : min (25125/2 : ℚ) (min ((0 : ℚ) * (19/20)) ((0 : ℚ) * (9/10))) = (0 : ℚ) := by
    norm_num
  rw [hmin1] at hInner
  have hoEn : estimate_join_cost_with_intermediate cexStats
      (get_intermediate_result_size cexStats chainConds "ndv" ["a", "b"]) "c" ("x", "z")
      "nested" (estimate_selectivity cexStats "a" "c" ("x", "z") "ndv") =
      ((1953125/32 : ℚ) : WithTop ℚ) := by
    have c1 : ("nested" = "hash") = False := by decide
    have c2 : ("nested" = "nested") = True := by decide
    simp only [estimate_join_cost_with_intermediate, c1, c2, if_true, if_false]
    rw [WithTop.coe_eq_coe]
    simp [estimate_selectivity, get_intermediate_result_size, get_intermediate_result_size.go,
      hfa, List.getLast?, cexStats, Util.strStartsWith, Util.listPrefix, List.lookup,
      JoinOpt.seq_page_cost, JoinOpt.cpu_tuple_cost, JoinOpt.cpu_operator_cost,
      JoinOpt.random_page_cost, block_size, page_size] <;> norm_num
  have hoEb : estimate_join_cost_with_intermediate cexStats
      (get_intermediate_result_size cexStats chainConds "ndv" ["a", "b"]) "c" ("x", "z")
      "block" (estimate_selectivity cexStats "a" "c" ("x", "z") "ndv") =
      ((1953125/32 : ℚ) : WithTop ℚ) := by
    have c1 : ("block" = "hash") = False := by decide
    have c2 : ("block" = "nested") = False := by decide
    have c3 : ("block" = "block") = True := by decide
    simp only [estimate_join_cost_with_intermediate, c1, c2, c3, if_true, if_false]
    rw [WithTop.coe_eq_coe]
    simp [estimate_selectivity, get_intermediate_result_size, get_intermediate_result_size.go,
      hfa, List.getLast?, cexStats, Util.strStartsWith, Util.listPrefix, List.lookup,
      JoinOpt.seq_page_cost, JoinOpt.cpu_tuple_cost, JoinOpt.cpu_operator_cost,
      JoinOpt.random_page_cost, block_size, page_size] <;> norm_num
  have hoEh : estimate_join_cost_with_intermediate cexStats
      (get_intermediate_result_size cexStats chainConds "ndv" ["a", "b"]) "c" ("x", "z")
      "hash" (estimate_selectivity cexStats "a" "c" ("x", "z") "ndv") =
      ((8003959525/32 : ℚ) : WithTop ℚ) := by
    have c1 : ("hash" = "hash") = True := by decide
    simp only [estimate_join_cost_with_intermediate, c1, if_true, if_false]
    rw [WithTop.coe_eq_coe]
    simp [estimate_selectivity, get_intermediate_result_size, get_intermediate_result_size.go,
      hfa, List.getLast?, cexStats, Util.strStartsWith, Util.listPrefix, List.lookup,
      JoinOpt.seq_page_cost, JoinOpt.cpu_tuple_cost, JoinOpt.cpu_operator_cost,
      JoinOpt.random_page_cost, block_size, page_size] <;> norm_num
  have hon : (fun strategy => bestStrategyCost ["nested", "block", "hash"]
        (fun strategy => estimate_join_cost cexStats "a" "b" ("x", "y") strategy
          (estimate_selectivity cexStats "a" "b" ("x", "y") "ndv")) +
      estimate_join_cost_with_intermediate cexStats
        (get_intermediate_result_size cexStats chainConds "ndv" ["a", "b"]) "c" ("x", "z")
        strategy (estimate_selectivity cexStats "a" "c" ("x", "z") "ndv")) "nested" =
      ((1953125/32 : ℚ) : WithTop ℚ) := by
    show bestStrategyCost _ _ + _ = _
    rw [hInner, hoEn, ← WithTop.coe_add, WithTop.coe_eq_coe]
    norm_num
  have hob : (fun strategy => bestStrategyCost ["nested", "block", "hash"]
        (fun strategy => estimate_join_cost cexStats "a" "b" ("x", "y") strategy
          (estimate_selectivity cexStats "a" "b" ("x", "y") "ndv")) +
      estimate_join_cost_with_intermediate cexStats
        (get_intermediate_result_size cexStats chainConds "ndv" ["a", "b"]) "c" ("x", "z")
        strategy (estimate_selectivity cexStats "a" "c" ("x", "z") "ndv")) "block" =
      ((1953125/32 : ℚ) : WithTop ℚ) := by
    show bestStrategyCost _ _ + _ = _
    rw [hInner, hoEb, ← WithTop.coe_add, WithTop.coe_eq_coe]
    norm_num
  have hoh : (fun strategy => bestStrategyCost ["nested", "block", "hash"]
        (fun strategy => estimate_join_cost cexStats "a" "b" ("x", "y") strategy
          (estimate_selectivity cexStats "a" "b" ("x", "y") "ndv")) +
      estimate_join_cost_with_intermediate cexStats
        (get_intermediate_result_size cexStats chainConds "ndv" ["a", "b"]) "c" ("x", "z")
        strategy (estimate_selectivity cexStats "a" "c" ("x", "z") "ndv")) "hash" =
      ((8003959525/32 : ℚ) : WithTop ℚ) := by
    show bestStrategyCost _ _ + _ = _
    rw [hInner, hoEh, ← WithTop.coe_add, WithTop.coe_eq_coe]
    norm_num
  have hFinal := bestStrategyCost_three "nested" "block" "hash"
    (fun strategy => bestStrategyCost ["nested", "block", "hash"]
        (fun strategy => estimate_join_cost cexStats "a" "b" ("x", "y") strategy
          (estimate_selectivity cexStats "a" "b" ("x", "y") "ndv")) +
      estimate_join_cost_with_intermediate cexStats
        (get_intermediate_result_size cexStats chainConds "ndv" ["a", "b"]) "c" ("x", "z")
        strategy (estimate_selectivity cexStats "a" "c" ("x", "z") "ndv"))
    (1953125/32) (1953125/32) (8003959525/32)
    (by decide) (by decide) (by decide) hon hob hoh
  have hmin2 : min (8003959525/32 : ℚ)
      (min ((1953125/32 : ℚ) * (19/20)) ((1953125/32 : ℚ) * (9/10))) = (3515625/64 : ℚ) := by
    norm_num
  rw [hmin2] at hFinal
  rw [hFinal]

theorem ndv_order_cost_acb : dpOrder cexStats chainConds "ndv" (method_strategy_preference "ndv")
    ["a", "c", "b"] = .ok (((3515625/16 : ℚ)) : WithTop ℚ) := by
  rw [dpOrder_three_eq cexStats chainConds "ndv" _ "a" "c" "b" "a" "a"
    ("x", "z") ("x", "y") (by decide) (by decide)]
  have hprefN : method_strategy_preference "ndv" = ["nested", "block", "hash"] := by decide
  rw [hprefN]
  have hfa : findJoinAttrs chainConds ["a"] "c" = some ("a", ("x", "z")) := by decide
  have hin : estimate_join_cost cexStats "a" "c" ("x", "z") "nested"
      (estimate_selectivity cexStats "a" "c" ("x", "z") "ndv") = ((0 : ℚ) : WithTop ℚ) := by
    have c1 : ("nested" = "hash") = False := by decide
    have c2 : ("nested" = "nested") = True := by decide
    simp only [estimate_join_cost, c1, c2, if_true, if_false]
    rw [WithTop.coe_eq_coe]
    simp [estimate_selectivity, get_intermediate_result_size, get_intermediate_result_size.go,
      hfa, List.getLast?, cexStats, Util.strStartsWith, Util.listPrefix, List.lookup,
      JoinOpt.seq_page_cost, JoinOpt.cpu_tuple_cost, JoinOpt.cpu_operator_cost,
      JoinOpt.random_page_cost, block_size, page_size] <;> norm_num
  have hib : estimate_join_cost cexStats "a" "c" ("x", "z") "block"
      (estimate_selectivity cexStats "a" "c" ("x", "z") "ndv") = ((0 : ℚ) : WithTop ℚ) := by
    have c1 : ("block" = "hash") = False := by decide
    have c2 : ("block" = "nested") = False := by decide
    have c3 : ("block" = "block") = True := by decide
    simp only [estimate_join_cost, c1, c2, c3, if_true, if_false]
    rw [WithTop.coe_eq_coe]
    simp [estimate_selectivity, get_intermediate_result_size, get_intermediate_result_size.go,
      hfa, List.getLast?, cexStats, Util.strStartsWith, Util.listPrefix, List.lookup,
      JoinOpt.seq_page_cost, JoinOpt.cpu_tuple_cost, JoinOpt.cpu_operator_cost,
      JoinOpt.random_page_cost, block_size, page_size] <;> norm_num
  have hih : estimate_join_cost cexStats "a" "c" ("x", "z") "hash"
      (estimate_selectivity cexStats "a" "c" ("x", "z") "ndv") = ((100425/2 : ℚ) : WithTop ℚ) := by
    have c1 : ("hash" = "hash") = True := by decide
    simp only [estimate_join_cost, c1, if_true, if_false]
    rw [WithTop.coe_eq_coe]
    simp [estimate_selectivity, get_intermediate_result_size, get_intermediate_result_size.go,
      hfa, List.getLast?, cexStats, Util.strStartsWith, Util.listPrefix, List.lookup,
      JoinOpt.seq_page_cost, JoinOpt.cpu_tuple_cost, JoinOpt.cpu_operator_cost,
      JoinOpt.random_page_cost, block_size, page_size] <;> norm_num
  have hInner := bestStrategyCost_three "nested" "block" "hash"
    (fun strategy => estimate_join_cost cexStats "a" "c" ("x", "z") strategy
      (estimate_selectivity cexStats "a" "c" ("x", "z") "ndv")) 0 0 (100425/2)
    (by decide) (by decide) (by decide) hin hib hih
  have hmin1 : min (100425/2 : ℚ) (min ((0 : ℚ) * (19/20)) ((0 : ℚ) * (9/10))) = (0 : ℚ) := by
    norm_num
  rw [hmin1] at hInner
  have hoEn : estimate_join_cost_with_intermediate cexStats
      (get_intermediate_result_size cexStats chainConds "ndv" ["a", "c"]) "b" ("x", "y")
      "nested" (estimate_selectivity cexStats "a" "b" ("x", "y") "ndv") =
      ((1953125/8 : ℚ) : WithTop ℚ) := by
    have c1 : ("nested" = "hash") = False := by decide
    have c2 : ("nested" = "nested") = True := by decide
    simp only [estimate_join_cost_with_intermediate, c1, c2, if_true, if_false]
    rw [WithTop.coe_eq_coe]
    simp [estimate_selectivity, get_intermediate_result_size, get_intermediate_result_size.go,
      hfa, List.getLast?, cexStats, Util.strStartsWith, Util.listPrefix, List.lookup,
      JoinOpt.seq_page_cost, JoinOpt.cpu_tuple_cost, JoinOpt.cpu_operator_cost,
      JoinOpt.random_page_cost, block_size, page_size] <;> norm_num
  have hoEb : estimate_join_cost_with_intermediate cexStats
      (get_intermediate_result_size cexStats chainConds "ndv" ["a", "c"]) "b" ("x", "y")
      "block" (estimate_selectivity cexStats "a" "b" ("x", "y") "ndv") =
      ((1953125/8 : ℚ) : WithTop ℚ) := by
    have c1 : ("block" = "hash") = False := by decide
    have c2 : ("block" = "nested") = False := by decide
    have c3 : ("block" = "block") = True := by decide
    simp only [estimate_join_cost_with_intermediate, c1, c2, c3, if_true, if_false]
    rw [WithTop.coe_eq_coe]
    simp [estimate_selectivity, get_intermediate_result_size, get_intermediate_result_size.go,
      hfa, List.getLast?, cexStats, Util.strStartsWith, Util.listPrefix, List.lookup,
      JoinOpt.seq_page_cost, JoinOpt.cpu_tuple_cost, JoinOpt.cpu_operator_cost,
      JoinOpt.random_page_cost, block_size, page_size] <;> norm_num
  have hoEh : estimate_join_cost_with_intermediate cexStats
      (get_intermediate_result_size cexStats chainConds "ndv" ["a", "c"]) "b" ("x", "y")
      "hash" (estimate_selectivity cexStats "a" "b" ("x", "y") "ndv") =
      ((2003953525/8 : ℚ) : WithTop ℚ) := by
    have c1 : ("hash" = "hash") = True := by decide
    simp only [estimate_join_cost_with_intermediate, c1, if_true, if_false]
    rw [WithTop.coe_eq_coe]
    simp [estimate_selectivity, get_intermediate_result_size, get_intermediate_result_size.go,
      hfa, List.getLast?, cexStats, Util.strStartsWith, Util.listPrefix, List.lookup,
      JoinOpt.seq_page_cost, JoinOpt.cpu_tuple_cost, JoinOpt.cpu_operator_cost,
      JoinOpt.random_page_cost, block_size, page_size] <;> norm_num
  have hon : (fun strategy => bestStrategyCost ["nested", "block", "hash"]
        (fun strategy => estimate_join_cost cexStats "a" "c" ("x", "z") strategy
          (estimate_selectivity cexStats "a" "c" ("x", "z") "ndv")) +
      estimate_join_cost_with_intermediate cexStats
        (get_intermediate_result_size cexStats chainConds "ndv" ["a", "c"]) "b" ("x", "y")
        strategy (estimate_selectivity cexStats "a" "b" ("x", "y") "ndv")) "nested" =
      ((1953125/8 : ℚ) : WithTop ℚ) := by
    show bestStrategyCost _ _ + _ = _
    rw [hInner, hoEn, ← WithTop.coe_add, WithTop.coe_eq_coe]
    norm_num
  have hob : (fun strategy => bestStrategyCost ["nested", "block", "hash"]
        (fun strategy => estimate_join_cost cexStats "a" "c" ("x", "z") strategy
          (estimate_selectivity cexStats "a" "c" ("x", "z") "ndv")) +
      estimate_join_cost_with_intermediate cexStats
        (get_intermediate_result_size cexStats chainConds "ndv" ["a", "c"]) "b" ("x", "y")
        strategy (estimate_selectivity cexStats "a" "b" ("x", "y") "ndv")) "block" =
      ((1953125/8 : ℚ) : WithTop ℚ) := by
    show bestStrategyCost _ _ + _ = _
    rw [hInner, hoEb, ← WithTop.coe_add, WithTop.coe_eq_coe]
    norm_num
  have hoh : (fun strategy => bestStrategyCost ["nested", "block", "hash"]
        (fun strategy => estimate_join_cost cexStats "a" "c" ("x", "z") strategy
          (estimate_selectivity cexStats "a" "c" ("x", "z") "ndv")) +
      estimate_join_cost_with_intermediate cexStats
        (get_intermediate_result_size cexStats chainConds "ndv" ["a", "c"]) "b" ("x", "y")
        strategy (estimate_selectivity cexStats "a" "b" ("x", "y") "ndv")) "hash" =
      ((2003953525/8 : ℚ) : WithTop ℚ) := by
    show bestStrategyCost _ _ + _ = _
    rw [hInner, hoEh, ← WithTop.coe_add, WithTop.coe_eq_coe]
    norm_num
  have hFinal := bestStrategyCost_three "nested" "block" "hash"
    (fun strategy => bestStrategyCost ["nested", "block", "hash"]
        (fun strategy => estimate_join_cost cexStats "a" "c" ("x", "z") strategy
          (estimate_selectivity cexStats "a" "c" ("x", "z") "ndv")) +
      estimate_join_cost_with_intermediate cexStats
        (get_intermediate_result_size cexStats chainConds "ndv" ["a", "c"]) "b" ("x", "y")
        strategy (estimate_selectivity cexStats "a" "b" ("x", "y") "ndv"))
    (1953125/8) (1953125/8) (2003953525/8)
    (by decide) (by decide) (by decide) hon hob hoh
  have hmin2 : min (2003953525/8 : ℚ)
      (min ((1953125/8 : ℚ) * (19/20)) ((1953125/8 : ℚ) * (9/10))) = (3515625/16 : ℚ) := by
    norm_num
  rw [hmin2] at hFinal
  rw [hFinal]

theorem ndv_order_cost_bac : dpOrder cexStats chainConds "ndv" (method_strategy_preference "ndv")
    ["b", "a", "c"] = .ok (((3515625/64 : ℚ)) : WithTop ℚ) := by
  rw [dpOrder_three_eq cexStats chainConds "ndv" _ "b" "a" "c" "b" "b"
    ("y", "x") ("y", "z") (by decide) (by decide)]
  have hprefN : method_strategy_preference "ndv" = ["nested", "block", "hash"] := by decide
  rw [hprefN]
  have hfa : findJoinAttrs chainConds ["b"] "a" = some ("b", ("y", "x")) := by decide
  have hin : estimate_join_cost cexStats "b" "a" ("y", "x") "nested"
      (estimate_selectivity cexStats "b" "a" ("y", "x") "ndv") = ((0 : ℚ) : WithTop ℚ) := by
    have c1 : ("nested" = "hash") = False := by decide
    have c2 : ("nested" = "nested") = True := by decide
    simp only [estimate_join_cost, c1, c2, if_true, if_false]
    rw [WithTop.coe_eq_coe]
    simp [estimate_selectivity, get_intermediate_result_size, get_intermediate_result_size.go,
      hfa, List.getLast?, cexStats, Util.strStartsWith, Util.listPrefix, List.lookup,
      JoinOpt.seq_page_cost, JoinOpt.cpu_tuple_cost, JoinOpt.cpu_operator_cost,
      JoinOpt.random_page_cost, block_size, page_size] <;> norm_num
  have hib : estimate_join_cost cexStats "b" "a" ("y", "x") "block"
      (estimate_selectivity cexStats "b" "a" ("y", "x") "ndv") = ((0 : ℚ) : WithTop ℚ) := by
    have c1 : ("block" = "hash") = False := by decide
    have c2 : ("block" = "nested") = False := by decide
    have c3 : ("block" = "block") = True := by decide
    simp only [estimate_join_cost, c1, c2, c3, if_true, if_false]
    rw [WithTop.coe_eq_coe]
    simp [estimate_selectivity, get_intermediate_result_size, get_intermediate_result_size.go,
      hfa, List.getLast?, cexStats, Util.strStartsWith, Util.listPrefix, List.lookup,
      JoinOpt.seq_page_cost, JoinOpt.cpu_tuple_cost, JoinOpt.cpu_operator_cost,
      JoinOpt.random_page_cost, block_size, page_size] <;> norm_num
  have hih : estimate_join_cost cexStats "b" "a" ("y", "x") "hash"
      (estimate_selectivity cexStats "b" "a" ("y", "x") "ndv") = ((25145/2 : ℚ) : WithTop ℚ) := by
    have c1 : ("hash" = "hash") = True := by decide
    simp only [estimate_join_cost, c1, if_true, if_false]
    rw [WithTop.coe_eq_coe]
    simp [estimate_selectivity, get_intermediate_result_size, get_intermediate_result_size.go,
      hfa, List.getLast?, cexStats, Util.strStartsWith, Util.listPrefix, List.lookup,
      JoinOpt.seq_page_cost, JoinOpt.cpu_tuple_cost, JoinOpt.cpu_operator_cost,
      JoinOpt.random_page_cost, block_size, page_size] <;> norm_num
  have hInner := bestStrategyCost_three "nested" "block" "hash"
    (fun strategy => estimate_join_cost cexStats "b" "a" ("y", "x") strategy
      (estimate_selectivity cexStats "b" "a" ("y", "x") "ndv")) 0 0 (25145/2)
    (by decide) (by decide) (by decide) hin hib hih
  have hmin1 : min (25145/2 : ℚ) (min ((0 : ℚ) * (19/20)) ((0 : ℚ) * (9/10))) = (0 : ℚ) := by
    norm_num
  rw [hmin1] at hInner
  have hoEn : estimate_join_cost_with_intermediate cexStats
      (get_intermediate_result_size cexStats chainConds "ndv" ["b", "a"]) "c" ("y", "z")
      "nested" (estimate_selectivity cexStats "b" "c" ("y", "z") "ndv") =
      ((1953125/32 : ℚ) : WithTop ℚ) := by
    have c1 : ("nested" = "hash") = False := by decide
    have c2 : ("nested" = "nested") = True := by decide
    simp only [estimate_join_cost_with_intermediate, c1, c2, if_true, if_false]
    rw [WithTop.coe_eq_coe]
    simp [estimate_selectivity, get_intermediate_result_size, get_intermediate_result_size.go,
      hfa, List.getLast?, cexStats, Util.strStartsWith, Util.listPrefix, List.lookup,
      JoinOpt.seq_page_cost, JoinOpt.cpu_tuple_cost, JoinOpt.cpu_operator_cost,
      JoinOpt.random_page_cost, block_size, page_size] <;> norm_num
  have hoEb : estimate_join_cost_with_intermediate cexStats
      (get_intermediate_result_size cexStats chainConds "ndv" ["b", "a"]) "c" ("y", "z")
      "block" (estimate_selectivity cexStats "b" "c" ("y", "z") "ndv") =
      ((1953125/32 : ℚ) : WithTop ℚ) := by
    have c1 : ("block" = "hash") = False := by decide
    have c2 : ("block" = "nested") = False := by decide
    have c3 : ("block" = "block") = True := by decide
    simp only [estimate_join_cost_with_intermediate, c1, c2, c3, if_true, if_false]
    rw [WithTop.coe_eq_coe]
    simp [estimate_selectivity, get_intermediate_result_size, get_intermediate_result_size.go,
      hfa, List.getLast?, cexStats, Util.strStartsWith, Util.listPrefix, List.lookup,
      JoinOpt.seq_page_cost, JoinOpt.cpu_tuple_cost, JoinOpt.cpu_operator_cost,
      JoinOpt.random_page_cost, block_size, page_size] <;> norm_num
  have hoEh : estimate_join_cost_with_intermediate cexStats
      (get_intermediate_result_size cexStats chainConds "ndv" ["b", "a"]) "c" ("y", "z")
      "hash" (estimate_selectivity cexStats "b" "c" ("y", "z") "ndv") =
      ((8003959525/32 : ℚ) : WithTop ℚ) := by
    have c1 : ("hash" = "hash") = True := by decide
    simp only [estimate_join_cost_with_intermediate, c1, if_true, if_false]
    rw [WithTop.coe_eq_coe]
    simp [estimate_selectivity, get_intermediate_result_size, get_intermediate_result_size.go,
      hfa, List.getLast?, cexStats, Util.strStartsWith, Util.listPrefix, List.lookup,
      JoinOpt.seq_page_cost, JoinOpt.cpu_tuple_cost, JoinOpt.cpu_operator_cost,
      JoinOpt.random_page_cost, block_size, page_size] <;> norm_num
  have hon : (fun strategy => bestStrategyCost ["nested", "block", "hash"]
        (fun strategy => estimate_join_cost cexStats "b" "a" ("y", "x") strategy
          (estimate_selectivity cexStats "b" "a" ("y", "x") "ndv")) +
      estimate_join_cost_with_intermediate cexStats
        (get_intermediate_result_size cexStats chainConds "ndv" ["b", "a"]) "c" ("y", "z")
        strategy (estimate_selectivity cexStats "b" "c" ("y", "z") "ndv")) "nested" =
      ((1953125/32 : ℚ) : WithTop ℚ) := by
    show bestStrategyCost _ _ + _ = _
    rw [hInner, hoEn, ← WithTop.coe_add, WithTop.coe_eq_coe]
    norm_num
  have hob : (fun strategy => bestStrategyCost ["nested", "block", "hash"]
        (fun strategy => estimate_join_cost cexStats "b" "a" ("y", "x") strategy
          (estimate_selectivity cexStats "b" "a" ("y", "x") "ndv")) +
      estimate_join_cost_with_intermediate cexStats
        (get_intermediate_result_size cexStats chainConds "ndv" ["b", "a"]) "c" ("y", "z")
        strategy (estimate_selectivity cexStats "b" "c" ("y", "z") "ndv")) "block" =
      ((1953125/32 : ℚ) : WithTop ℚ) := by
    show bestStrategyCost _ _ + _ = _
    rw [hInner, hoEb, ← WithTop.coe_add, WithTop.coe_eq_coe]
    norm_num
  have hoh : (fun strategy => bestStrategyCost ["nested", "block", "hash"]
        (fun strategy => estimate_join_cost cexStats "b" "a" ("y", "x") strategy
          (estimate_selectivity cexStats "b" "a" ("y", "x") "ndv")) +
      estimate_join_cost_with_intermediate cexStats
        (get_intermediate_result_size cexStats chainConds "ndv" ["b", "a"]) "c" ("y", "z")
        strategy (estimate_selectivity cexStats "b" "c" ("y", "z") "ndv")) "hash" =
      ((8003959525/32 : ℚ) : WithTop ℚ) := by
    show bestStrategyCost _ _ + _ = _
    rw [hInner, hoEh, ← WithTop.coe_add, WithTop.coe_eq_coe]
    norm_num
  have hFinal := bestStrategyCost_three "nested" "block" "hash"
    (fun strategy => bestStrategyCost ["nested", "block", "hash"]
        (fun strategy => estimate_join_cost cexStats "b" "a" ("y", "x") strategy
          (estimate_selectivity cexStats "b" "a" ("y", "x") "ndv")) +
      estimate_join_cost_with_intermediate cexStats
        (get_intermediate_result_size cexStats chainConds "ndv" ["b", "a"]) "c" ("y", "z")
        strategy (estimate_selectivity cexStats "b" "c" ("y", "z") "ndv"))
    (1953125/32) (1953125/32) (8003959525/32)
    (by decide) (by decide) (by decide) hon hob hoh
  have hmin2 : min (8003959525/32 : ℚ)
      (min ((1953125/32 : ℚ) * (19/20)) ((1953125/32 : ℚ) * (9/10))) = (3515625/64 : ℚ) := by
    norm_num
  rw [hmin2] at hFinal
  rw [hFinal]

theorem ndv_order_cost_bca : dpOrder cexStats chainConds "ndv" (method_strategy_preference "ndv")
    ["b", "c", "a"] = .ok (((17578125/16 : ℚ)) : WithTop ℚ) := by
  rw [dpOrder_three_eq cexStats chainConds "ndv" _ "b" "c" "a" "b" "b"
    ("y", "z") ("y", "x") (by decide) (by decide)]
  have hprefN : method_strategy_preference "ndv" = ["nested", "block", "hash"] := by decide
  rw [hprefN]
  have hfa : findJoinAttrs chainConds ["b"] "c" = some ("b", ("y", "z")) := by decide
  have hin : estimate_join_cost cexStats "b" "c" ("y", "z") "nested"
      (estimate_selectivity cexStats "b" "c" ("y", "z") "ndv") = ((0 : ℚ) : WithTop ℚ) := by
    have c1 : ("nested" = "hash") = False := by decide
    have c2 : ("nested" = "nested") = True := by decide
    simp only [estimate_join_cost, c1, c2, if_true, if_false]
    rw [WithTop.coe_eq_coe]
    simp [estimate_selectivity, get_intermediate_result_size, get_intermediate_result_size.go,
      hfa, List.getLast?, cexStats, Util.strStartsWith, Util.listPrefix, List.lookup,
      JoinOpt.seq_page_cost, JoinOpt.cpu_tuple_cost, JoinOpt.cpu_operator_cost,
      JoinOpt.random_page_cost, block_size, page_size] <;> norm_num
  have hib : estimate_join_cost cexStats "b" "c" ("y", "z") "block"
      (estimate_selectivity cexStats "b" "c" ("y", "z") "ndv") = ((0 : ℚ) : WithTop ℚ) := by
    have c1 : ("block" = "hash") = False := by decide
    have c2 : ("block" = "nested") = False := by decide
    have c3 : ("block" = "block") = True := by decide
    simp only [estimate_join_cost, c1, c2, c3, if_true, if_false]
    rw [WithTop.coe_eq_coe]
    simp [estimate_selectivity, get_intermediate_result_size, get_intermediate_result_size.go,
      hfa, List.getLast?, cexStats, Util.strStartsWith, Util.listPrefix, List.lookup,
      JoinOpt.seq_page_cost, JoinOpt.cpu_tuple_cost, JoinOpt.cpu_operator_cost,
      JoinOpt.random_page_cost, block_size, page_size] <;> norm_num
  have hih : estimate_join_cost cexStats "b" "c" ("y", "z") "hash"
      (estimate_selectivity cexStats "b" "c" ("y", "z") "ndv") = ((500525/2 : ℚ) : WithTop ℚ) := by
    have c1 : ("hash" = "hash") = True := by decide
    simp only [estimate_join_cost, c1, if_true, if_false]
    rw [WithTop.coe_eq_coe]
    simp [estimate_selectivity, get_intermediate_result_size, get_intermediate_result_size.go,
      hfa, List.getLast?, cexStats, Util.strStartsWith, Util.listPrefix, List.lookup,
      JoinOpt.seq_page_cost, JoinOpt.cpu_tuple_cost, JoinOpt.cpu_operator_cost,
      JoinOpt.random_page_cost, block_size, page_size] <;> norm_num
  have hInner := bestStrategyCost_three "nested" "block" "hash"
    (fun strategy => estimate_join_cost cexStats "b" "c" ("y", "z") strategy
      (estimate_selectivity cexStats "b" "c" ("y", "z") "ndv")) 0 0 (500525/2)
    (by decide) (by decide) (by decide) hin hib hih
  have hmin1 : min (500525/2 : ℚ) (min ((0 : ℚ) * (19/20)) ((0 : ℚ) * (9/10))) = (0 : ℚ) := by
    norm_num
  rw [hmin1] at hInner
  have hoEn : estimate_join_cost_with_intermediate cexStats
      (get_intermediate_result_size cexStats chainConds "ndv" ["b", "c"]) "a" ("y", "x")
      "nested" (estimate_selectivity cexStats "b" "a" ("y", "x") "ndv") =
      ((9765625/8 : ℚ) : WithTop ℚ) := by
    have c1 : ("nested" = "hash") = False := by decide
    have c2 : ("nested" = "nested") = True := by decide
    simp only [estimate_join_cost_with_intermediate, c1, c2, if_true, if_false]
    rw [WithTop.coe_eq_coe]
    simp [estimate_selectivity, get_intermediate_result_size, get_intermediate_result_size.go,
      hfa, List.getLast?, cexStats, Util.strStartsWith, Util.listPrefix, List.lookup,
      JoinOpt.seq_page_cost, JoinOpt.cpu_tuple_cost, JoinOpt.cpu_operator_cost,
      JoinOpt.random_page_cost, block_size, page_size] <;> norm_num
  have hoEb : estimate_join_cost_with_intermediate cexStats
      (get_intermediate_result_size cexStats chainConds "ndv" ["b", "c"]) "a" ("y", "x")
      "block" (estimate_selectivity cexStats "b" "a" ("y", "x") "ndv") =
      ((9765625/8 : ℚ) : WithTop ℚ) := by
    have c1 : ("block" = "hash") = False := by decide
    have c2 : ("block" = "nested") = False := by decide
    have c3 : ("block" = "block") = True := by decide
    simp only [estimate_join_cost_with_intermediate, c1, c2, c3, if_true, if_false]
    rw [WithTop.coe_eq_coe]
    simp [estimate_selectivity, get_intermediate_result_size, get_intermediate_result_size.go,
      hfa, List.getLast?, cexStats, Util.strStartsWith, Util.listPrefix, List.lookup,
      JoinOpt.seq_page_cost, JoinOpt.cpu_tuple_cost, JoinOpt.cpu_operator_cost,
      JoinOpt.random_page_cost, block_size, page_size] <;> norm_num
  have hoEh : estimate_join_cost_with_intermediate cexStats
      (get_intermediate_result_size cexStats chainConds "ndv" ["b", "c"]) "a" ("y", "x")
      "hash" (estimate_selectivity cexStats "b" "a" ("y", "x") "ndv") =
      ((2019765705/8 : ℚ) : WithTop ℚ) := by
    have c1 : ("hash" = "hash") = True := by decide
    simp only [estimate_join_cost_with_intermediate, c1, if_true, if_false]
    rw [WithTop.coe_eq_coe]
    simp [estimate_selectivity, get_intermediate_result_size, get_intermediate_result_size.go,
      hfa, List.getLast?, cexStats, Util.strStartsWith, Util.listPrefix, List.lookup,
      JoinOpt.seq_page_cost, JoinOpt.cpu_tuple_cost, JoinOpt.cpu_operator_cost,
      JoinOpt.random_page_cost, block_size, page_size] <;> norm_num
  have hon : (fun strategy => bestStrategyCost ["nested", "block", "hash"]
        (fun strategy => estimate_join_cost cexStats "b" "c" ("y", "z") strategy
          (estimate_selectivity cexStats "b" "c" ("y", "z") "ndv")) +
      estimate_join_cost_with_intermediate cexStats
        (get_intermediate_result_size cexStats chainConds "ndv" ["b", "c"]) "a" ("y", "x")
        strategy (estimate_selectivity cexStats "b" "a" ("y", "x") "ndv")) "nested" =
      ((9765625/8 : ℚ) : WithTop ℚ) := by
    show bestStrategyCost _ _ + _ = _
    rw [hInner, hoEn, ← WithTop.coe_add, WithTop.coe_eq_coe]
    norm_num
  have hob : (fun strategy => bestStrategyCost ["nested", "block", "hash"]
        (fun strategy => estimate_join_cost cexStats "b" "c" ("y", "z") strategy
          (estimate_selectivity cexStats "b" "c" ("y", "z") "ndv")) +
      estimate_join_cost_with_intermediate cexStats
        (get_intermediate_result_size cexStats chainConds "ndv" ["b", "c"]) "a" ("y", "x")
        strategy (estimate_selectivity cexStats "b" "a" ("y", "x") "ndv")) "block" =
      ((9765625/8 : ℚ) : WithTop ℚ) := by
    show bestStrategyCost _ _ + _ = _
    rw [hInner, hoEb, ← WithTop.coe_add, WithTop.coe_eq_coe]
    norm_num
  have hoh : (fun strategy => bestStrategyCost ["nested", "block", "hash"]
        (fun strategy => estimate_join_cost cexStats "b" "c" ("y", "z") strategy
          (estimate_selectivity cexStats "b" "c" ("y", "z") "ndv")) +
      estimate_join_cost_with_intermediate cexStats
        (get_intermediate_result_size cexStats chainConds "ndv" ["b", "c"]) "a" ("y", "x")
        strategy (estimate_selectivity cexStats "b" "a" ("y", "x") "ndv")) "hash" =
      ((2019765705/8 : ℚ) : WithTop ℚ) := by
    show bestStrategyCost _ _ + _ = _
    rw [hInner, hoEh, ← WithTop.coe_add, WithTop.coe_eq_coe]
    norm_num
  have hFinal := bestStrategyCost_three "nested" "block" "hash"
    (fun strategy => bestStrategyCost ["nested", "block", "hash"]
        (fun strategy => estimate_join_cost cexStats "b" "c" ("y", "z") strategy
          (estimate_selectivity cexStats "b" "c" ("y", "z") "ndv")) +
      estimate_join_cost_with_intermediate cexStats
        (get_intermediate_result_size cexStats chainConds "ndv" ["b", "c"]) "a" ("y", "x")
        strategy (estimate_selectivity cexStats "b" "a" ("y", "x") "ndv"))
    (9765625/8) (9765625/8) (2019765705/8)
    (by decide) (by decide) (by decide) hon hob hoh
  have hmin2 : min (2019765705/8 : ℚ)
      (min ((9765625/8 : ℚ) * (19/20)) ((9765625/8 : ℚ) * (9/10))) = (17578125/16 : ℚ) := by
    norm_num
  rw [hmin2] at hFinal
  rw [hFinal]

theorem ndv_order_cost_cba : dpOrder cexStats chainConds "ndv" (method_strategy_preference "ndv")
    ["c", "b", "a"] = .ok (((17578125/16 : ℚ)) : WithTop ℚ) := by
  rw [dpOrder_three_eq cexStats chainConds "ndv" _ "c" "b" "a" "c" "c"
    ("z", "y") ("z", "x") (by decide) (by decide)]
  have hprefN : method_strategy_preference "ndv" = ["nested", "block", "hash"] := by decide
  rw [hprefN]
  have hfa : findJoinAttrs chainConds ["c"] "b" = some ("c", ("z", "y")) := by decide
  have hin : estimate_join_cost cexStats "c" "b" ("z", "y") "nested"
      (estimate_selectivity cexStats "c" "b" ("z", "y") "ndv") = ((0 : ℚ) : WithTop ℚ) := by
    have c1 : ("nested" = "hash") = False := by decide
    have c2 : ("nested" = "nested") = True := by decide
    simp only [estimate_join_cost, c1, c2, if_true, if_false]
    rw [WithTop.coe_eq_coe]
    simp [estimate_selectivity, get_intermediate_result_size, get_intermediate_result_size.go,
      hfa, List.getLast?, cexStats, Util.strStartsWith, Util.listPrefix, List.lookup,
      JoinOpt.seq_page_cost, JoinOpt.cpu_tuple_cost, JoinOpt.cpu_operator_cost,
      JoinOpt.random_page_cost, block_size, page_size] <;> norm_num
  have hib : estimate_join_cost cexStats "c" "b" ("z", "y") "block"
      (estimate_selectivity cexStats "c" "b" ("z", "y") "ndv") = ((0 : ℚ) : WithTop ℚ) := by
    have c1 : ("block" = "hash") = False := by decide
    have c2 : ("block" = "nested") = False := by decide
    have c3 : ("block" = "block") = True := by decide
    simp only [estimate_join_cost, c1, c2, c3, if_true, if_false]
    rw [WithTop.coe_eq_coe]
    simp [estimate_selectivity, get_intermediate_result_size, get_intermediate_result_size.go,
      hfa, List.getLast?, cexStats, Util.strStartsWith, Util.listPrefix, List.lookup,
      JoinOpt.seq_page_cost, JoinOpt.cpu_tuple_cost, JoinOpt.cpu_operator_cost,
      JoinOpt.random_page_cost, block_size, page_size] <;> norm_num
  have hih : estimate_join_cost cexStats "c" "b" ("z", "y") "hash"
      (estimate_selectivity cexStats "c" "b" ("z", "y") "ndv") = ((250300/1 : ℚ) : WithTop ℚ) := by
    have c1 : ("hash" = "hash") = True := by decide
    simp only [estimate_join_cost, c1, if_true, if_false]
    rw [WithTop.coe_eq_coe]
    simp [estimate_selectivity, get_intermediate_result_size, get_intermediate_result_size.go,
      hfa, List.getLast?, cexStats, Util.strStartsWith, Util.listPrefix, List.lookup,
      JoinOpt.seq_page_cost, JoinOpt.cpu_tuple_cost, JoinOpt.cpu_operator_cost,
      JoinOpt.random_page_cost, block_size, page_size] <;> norm_num
  have hInner := bestStrategyCost_three "nested" "block" "hash"
    (fun strategy => estimate_join_cost cexStats "c" "b" ("z", "y") strategy
      (estimate_selectivity cexStats "c" "b" ("z", "y") "ndv")) 0 0 (250300/1)
    (by decide) (by decide) (by decide) hin hib hih
  have hmin1 : min (250300/1 : ℚ) (min ((0 : ℚ) * (19/20)) ((0 : ℚ) * (9/10))) = (0 : ℚ) := by
    norm_num
  rw [hmin1] at hInner
  have hoEn : estimate_join_cost_with_intermediate cexStats
      (get_intermediate_result_size cexStats chainConds "ndv" ["c", "b"]) "a" ("z", "x")
      "nested" (estimate_selectivity cexStats "c" "a" ("z", "x") "ndv") =
      ((9765625/8 : ℚ) : WithTop ℚ) := by
    have c1 : ("nested" = "hash") = False := by decide
    have c2 : ("nested" = "nested") = True := by decide
    simp only [estimate_join_cost_with_intermediate, c1, c2, if_true, if_false]
    rw [WithTop.coe_eq_coe]
    simp [estimate_selectivity, get_intermediate_result_size, get_intermediate_result_size.go,
      hfa, List.getLast?, cexStats, Util.strStartsWith, Util.listPrefix, List.lookup,
      JoinOpt.seq_page_cost, JoinOpt.cpu_tuple_cost, JoinOpt.cpu_operator_cost,
      JoinOpt.random_page_cost, block_size, page_size] <;> norm_num
  have hoEb : estimate_join_cost_with_intermediate cexStats
      (get_intermediate_result_size cexStats chainConds "ndv" ["c", "b"]) "a" ("z", "x")
      "block" (estimate_selectivity cexStats "c" "a" ("z", "x") "ndv") =
      ((9765625/8 : ℚ) : WithTop ℚ) := by
    have c1 : ("block" = "hash") = False := by decide
    have c2 : ("block" = "nested") = False := by decide
    have c3 : ("block" = "block") = True := by decide
    simp only [estimate_join_cost_with_intermediate, c1, c2, c3, if_true, if_false]
    rw [WithTop.coe_eq_coe]
    simp [estimate_selectivity, get_intermediate_result_size, get_intermediate_result_size.go,
      hfa, List.getLast?, cexStats, Util.strStartsWith, Util.listPrefix, List.lookup,
      JoinOpt.seq_page_cost, JoinOpt.cpu_tuple_cost, JoinOpt.cpu_operator_cost,
      JoinOpt.random_page_cost, block_size, page_size] <;> norm_num
  have hoEh : estimate_join_cost_with_intermediate cexStats
      (get_intermediate_result_size cexStats chainConds "ndv" ["c", "b"]) "a" ("z", "x")
      "hash" (estimate_selectivity cexStats "c" "a" ("z", "x") "ndv") =
      ((2019765705/8 : ℚ) : WithTop ℚ) := by
    have c1 : ("hash" = "hash") = True := by decide
    simp only [estimate_join_cost_with_intermediate, c1, if_true, if_false]
    rw [WithTop.coe_eq_coe]
    simp [estimate_selectivity, get_intermediate_result_size, get_intermediate_result_size.go,
      hfa, List.getLast?, cexStats, Util.strStartsWith, Util.listPrefix, List.lookup,
      JoinOpt.seq_page_cost, JoinOpt.cpu_tuple_cost, JoinOpt.cpu_operator_cost,
      JoinOpt.random_page_cost, block_size, page_size] <;> norm_num
  have hon : (fun strategy => bestStrategyCost ["nested", "block", "hash"]
        (fun strategy => estimate_join_cost cexStats "c" "b" ("z", "y") strategy
          (estimate_selectivity cexStats "c" "b" ("z", "y") "ndv")) +
      estimate_join_cost_with_intermediate cexStats
        (get_intermediate_result_size cexStats chainConds "ndv" ["c", "b"]) "a" ("z", "x")
        strategy (estimate_selectivity cexStats "c" "a" ("z", "x") "ndv")) "nested" =
      ((9765625/8 : ℚ) : WithTop ℚ) := by
    show bestStrategyCost _ _ + _ = _
    rw [hInner, hoEn, ← WithTop.coe_add, WithTop.coe_eq_coe]
    norm_num
  have hob : (fun strategy => bestStrategyCost ["nested", "block", "hash"]
        (fun strategy => estimate_join_cost cexStats "c" "b" ("z", "y") strategy
          (estimate_selectivity cexStats "c" "b" ("z", "y") "ndv")) +
      estimate_join_cost_with_intermediate cexStats
        (get_intermediate_result_size cexStats chainConds "ndv" ["c", "b"]) "a" ("z", "x")
        strategy (estimate_selectivity cexStats "c" "a" ("z", "x") "ndv")) "block" =
      ((9765625/8 : ℚ) : WithTop ℚ) := by
    show bestStrategyCost _ _ + _ = _
    rw [hInner, hoEb, ← WithTop.coe_add, WithTop.coe_eq_coe]
    norm_num
  have hoh : (fun strategy => bestStrategyCost ["nested", "block", "hash"]
        (fun strategy => estimate_join_cost cexStats "c" "b" ("z", "y") strategy
          (estimate_selectivity cexStats "c" "b" ("z", "y") "ndv")) +
      estimate_join_cost_with_intermediate cexStats
        (get_intermediate_result_size cexStats chainConds "ndv" ["c", "b"]) "a" ("z", "x")
        strategy (estimate_selectivity cexStats "c" "a" ("z", "x") "ndv")) "hash" =
      ((2019765705/8 : ℚ) : WithTop ℚ) := by
    show bestStrategyCost _ _ + _ = _
    rw [hInner, hoEh, ← WithTop.coe_add, WithTop.coe_eq_coe]
    norm_num
  have hFinal := bestStrategyCost_three "nested" "block" "hash"
    (fun strategy => bestStrategyCost ["nested", "block", "hash"]
        (fun strategy => estimate_join_cost cexStats "c" "b" ("z", "y") strategy
          (estimate_selectivity cexStats "c" "b" ("z", "y") "ndv")) +
      estimate_join_cost_with_intermediate cexStats
        (get_intermediate_result_size cexStats chainConds "ndv" ["c", "b"]) "a" ("z", "x")
        strategy (estimate_selectivity cexStats "c" "a" ("z", "x") "ndv"))
    (9765625/8) (9765625/8) (2019765705/8)
    (by decide) (by decide) (by decide) hon hob hoh
  have hmin2 : min (2019765705/8 : ℚ)
      (min ((9765625/8 : ℚ) * (19/20)) ((9765625/8 : ℚ) * (9/10))) = (17578125/16 : ℚ) := by
    norm_num
  rw [hmin2] at hFinal
  rw [hFinal]

theorem ndv_order_cost_cab : dpOrder cexStats chainConds "ndv" (method_strategy_preference "ndv")
    ["c", "a", "b"] = .ok (((3515625/16 : ℚ)) : WithTop ℚ) := by
  rw [dpOrder_three_eq cexStats chainConds "ndv" _ "c" "a" "b" "c" "c"
    ("z", "x") ("z", "y") (by decide) (by decide)]
  have hprefN : method_strategy_preference "ndv" = ["nested", "block", "hash"] := by decide
  rw [hprefN]
  have hfa : findJoinAttrs chainConds ["c"] "a" = some ("c", ("z", "x")) := by decide
  have hin : estimate_join_cost cexStats "c" "a" ("z", "x") "nested"
      (estimate_selectivity cexStats "c" "a" ("z", "x") "ndv") = ((0 : ℚ) : WithTop ℚ) := by
    have c1 : ("nested" = "hash") = False := by decide
    have c2 : ("nested" = "nested") = True := by decide
    simp only [estimate_join_cost, c1, c2, if_true, if_false]
    rw [WithTop.coe_eq_coe]
    simp [estimate_selectivity, get_intermediate_result_size, get_intermediate_result_size.go,
      hfa, List.getLast?, cexStats, Util.strStartsWith, Util.listPrefix, List.lookup,
      JoinOpt.seq_page_cost, JoinOpt.cpu_tuple_cost, JoinOpt.cpu_operator_cost,
      JoinOpt.random_page_cost, block_size, page_size] <;> norm_num
  have hib : estimate_join_cost cexStats "c" "a" ("z", "x") "block"
      (estimate_selectivity cexStats "c" "a" ("z", "x") "ndv") = ((0 : ℚ) : WithTop ℚ) := by
    have c1 : ("block" = "hash") = False := by decide
    have c2 : ("block" = "nested") = False := by decide
    have c3 : ("block" = "block") = True := by decide
    simp only [estimate_join_cost, c1, c2, c3, if_true, if_false]
    rw [WithTop.coe_eq_coe]
    simp [estimate_selectivity, get_intermediate_result_size, get_intermediate_result_size.go,
      hfa, List.getLast?, cexStats, Util.strStartsWith, Util.listPrefix, List.lookup,
      JoinOpt.seq_page_cost, JoinOpt.cpu_tuple_cost, JoinOpt.cpu_operator_cost,
      JoinOpt.random_page_cost, block_size, page_size] <;> norm_num
  have hih : estimate_join_cost cexStats "c" "a" ("z", "x") "hash"
      (estimate_selectivity cexStats "c" "a" ("z", "x") "ndv") = ((50260/1 : ℚ) : WithTop ℚ) := by
    have c1 : ("hash" = "hash") = True := by decide
    simp only [estimate_join_cost, c1, if_true, if_false]
    rw [WithTop.coe_eq_coe]
    simp [estimate_selectivity, get_intermediate_result_size, get_intermediate_result_size.go,
      hfa, List.getLast?, cexStats, Util.strStartsWith, Util.listPrefix, List.lookup,
      JoinOpt.seq_page_cost, JoinOpt.cpu_tuple_cost, JoinOpt.cpu_operator_cost,
      JoinOpt.random_page_cost, block_size, page_size] <;> norm_num
  have hInner := bestStrategyCost_three "nested" "block" "hash"
    (fun strategy => estimate_join_cost cexStats "c" "a" ("z", "x") strategy
      (estimate_selectivity cexStats "c" "a" ("z", "x") "ndv")) 0 0 (50260/1)
    (by decide) (by decide) (by decide) hin hib hih
  have hmin1 : min (50260/1 : ℚ) (min ((0 : ℚ) * (19/20)) ((0 : ℚ) * (9/10))) = (0 : ℚ) := by
    norm_num
  rw [hmin1] at hInner
  have hoEn : estimate_join_cost_with_intermediate cexStats
      (get_intermediate_result_size cexStats chainConds "ndv" ["c", "a"]) "b" ("z", "y")
      "nested" (estimate_selectivity cexStats "c" "b" ("z", "y") "ndv") =
      ((1953125/8 : ℚ) : WithTop ℚ) := by
    have c1 : ("nested" = "hash") = False := by decide
    have c2 : ("nested" = "nested") = True := by decide
    simp only [estimate_join_cost_with_intermediate, c1, c2, if_true, if_false]
    rw [WithTop.coe_eq_coe]
    simp [estimate_selectivity, get_intermediate_result_size, get_intermediate_result_size.go,
      hfa, List.getLast?, cexStats, Util.strStartsWith, Util.listPrefix, List.lookup,
      JoinOpt.seq_page_cost, JoinOpt.cpu_tuple_cost, JoinOpt.cpu_operator_cost,
      JoinOpt.random_page_cost, block_size, page_size] <;> norm_num
  have hoEb : estimate_join_cost_with_intermediate cexStats
      (get_intermediate_result_size cexStats chainConds "ndv" ["c", "a"]) "b" ("z", "y")
      "block" (estimate_selectivity cexStats "c" "b" ("z", "y") "ndv") =
      ((1953125/8 : ℚ) : WithTop ℚ) := by
    have c1 : ("block" = "hash") = False := by decide
    have c2 : ("block" = "nested") = False := by decide
    have c3 : ("block" = "block") = True := by decide
    simp only [estimate_join_cost_with_intermediate, c1, c2, c3, if_true, if_false]
    rw [WithTop.coe_eq_coe]
    simp [estimate_selectivity, get_intermediate_result_size, get_intermediate_result_size.go,
      hfa, List.getLast?, cexStats, Util.strStartsWith, Util.listPrefix, List.lookup,
      JoinOpt.seq_page_cost, JoinOpt.cpu_tuple_cost, JoinOpt.cpu_operator_cost,
      JoinOpt.random_page_cost, block_size, page_size] <;> norm_num
  have hoEh : estimate_join_cost_with_intermediate cexStats
      (get_intermediate_result_size cexStats chainConds "ndv" ["c", "a"]) "b" ("z", "y")
      "hash" (estimate_selectivity cexStats "c" "b" ("z", "y") "ndv") =
      ((2003953525/8 : ℚ) : WithTop ℚ) := by
    have c1 : ("hash" = "hash") = True := by decide
    simp only [estimate_join_cost_with_intermediate, c1, if_true, if_false]
    rw [WithTop.coe_eq_coe]
    simp [estimate_selectivity, get_intermediate_result_size, get_intermediate_result_size.go,
      hfa, List.getLast?, cexStats, Util.strStartsWith, Util.listPrefix, List.lookup,
      JoinOpt.seq_page_cost, JoinOpt.cpu_tuple_cost, JoinOpt.cpu_operator_cost,
      JoinOpt.random_page_cost, block_size, page_size] <;> norm_num
  have hon : (fun strategy => bestStrategyCost ["nested", "block", "hash"]
        (fun strategy => estimate_join_cost cexStats "c" "a" ("z", "x") strategy
          (estimate_selectivity cexStats "c" "a" ("z", "x") "ndv")) +
      estimate_join_cost_with_intermediate cexStats
        (get_intermediate_result_size cexStats chainConds "ndv" ["c", "a"]) "b" ("z", "y")
        strategy (estimate_selectivity cexStats "c" "b" ("z", "y") "ndv")) "nested" =
      ((1953125/8 : ℚ) : WithTop ℚ) := by
    show bestStrategyCost _ _ + _ = _
    rw [hInner, hoEn, ← WithTop.coe_add, WithTop.coe_eq_coe]
    norm_num
  have hob : (fun strategy => bestStrategyCost ["nested", "block", "hash"]
        (fun strategy => estimate_join_cost cexStats "c" "a" ("z", "x") strategy
          (estimate_selectivity cexStats "c" "a" ("z", "x") "ndv")) +
      estimate_join_cost_with_intermediate cexStats
        (get_intermediate_result_size cexStats chainConds "ndv" ["c", "a"]) "b" ("z", "y")
        strategy (estimate_selectivity cexStats "c" "b" ("z", "y") "ndv")) "block" =
      ((1953125/8 : ℚ) : WithTop ℚ) := by
    show bestStrategyCost _ _ + _ = _
    rw [hInner, hoEb, ← WithTop.coe_add, WithTop.coe_eq_coe]
    norm_num
  have hoh : (fun strategy => bestStrategyCost ["nested", "block", "hash"]
        (fun strategy => estimate_join_cost cexStats "c" "a" ("z", "x") strategy
          (estimate_selectivity cexStats "c" "a" ("z", "x") "ndv")) +
      estimate_join_cost_with_intermediate cexStats
        (get_intermediate_result_size cexStats chainConds "ndv" ["c", "a"]) "b" ("z", "y")
        strategy (estimate_selectivity cexStats "c" "b" ("z", "y") "ndv")) "hash" =
      ((2003953525/8 : ℚ) : WithTop ℚ) := by
    show bestStrategyCost _ _ + _ = _
    rw [hInner, hoEh, ← WithTop.coe_add, WithTop.coe_eq_coe]
    norm_num
  have hFinal := bestStrategyCost_three "nested" "block" "hash"
    (fun strategy => bestStrategyCost ["nested", "block", "hash"]
        (fun strategy => estimate_join_cost cexStats "c" "a" ("z", "x") strategy
          (estimate_selectivity cexStats "c" "a" ("z", "x") "ndv")) +
      estimate_join_cost_with_intermediate cexStats
        (get_intermediate_result_size cexStats chainConds "ndv" ["c", "a"]) "b" ("z", "y")
        strategy (estimate_selectivity cexStats "c" "b" ("z", "y") "ndv"))
    (1953125/8) (1953125/8) (2003953525/8)
    (by decide) (by decide) (by decide) hon hob hoh
  have hmin2 : min (2003953525/8 : ℚ)
      (min ((1953125/8 : ℚ) * (19/20)) ((1953125/8 : ℚ) * (9/10))) = (3515625/16 : ℚ) := by
    norm_num
  rw [hmin2] at hFinal
  rw [hFinal]

theorem ndv_best_cost_value : best_cost_for_method cexStats chainConds orders6 "ndv" =
    .ok ((3515625/64 : ℚ) : WithTop ℚ) := by
  simp only [best_cost_for_method, orders6, List.foldlM, ndv_order_cost_abc, ndv_order_cost_acb, ndv_order_cost_bac, ndv_order_cost_bca, ndv_order_cost_cba, ndv_order_cost_cab,
    Except.bind, bind, Except.pure, pure, WithTop.coe_lt_top, if_true, wt_ite_min]
  norm_num [WithTop.coe_eq_coe]

theorem cex_scan_cost : (cexStats "a").page_count * JoinOpt.seq_page_cost +
    (cexStats "a").row_count * JoinOpt.cpu_tuple_cost = (10 : ℚ) := by
  norm_num [cexStats, JoinOpt.seq_page_cost, JoinOpt.cpu_tuple_cost]

theorem cex_first_join_block_cost : estimate_join_cost cexStats "a" "b" ("x", "y") "block"
    (estimate_selectivity cexStats "a" "b" ("x", "y") "fixed") = ((0 : ℚ) : WithTop ℚ) := by
  have c1 : ("block" = "hash") = False := by decide
  have c2 : ("block" = "nested") = False := by decide
  have c3 : ("block" = "block") = True := by decide
  simp only [estimate_join_cost, c1, c2, c3, if_true, if_false]
  rw [WithTop.coe_eq_coe]
  simp [estimate_selectivity, cexStats, Util.strStartsWith, Util.listPrefix, List.lookup,
    JoinOpt.seq_page_cost, JoinOpt.cpu_tuple_cost, JoinOpt.cpu_operator_cost,
    JoinOpt.random_page_cost, block_size, page_size] <;> norm_num

theorem cex_second_join_block_cost : estimate_join_cost_with_intermediate cexStats
    (get_intermediate_result_size cexStats chainConds "fixed" ["a", "b"]) "c" ("x", "z")
    "block" (estimate_selectivity cexStats "a" "c" ("x", "z") "fixed") =
    ((390625/64 : ℚ) : WithTop ℚ) := by
  have hfa : findJoinAttrs chainConds ["a"] "b" = some ("a", ("x", "y")) := by decide
  have c1 : ("block" = "hash") = False := by decide
  have c2 : ("block" = "nested") = False := by decide
  have c3 : ("block" = "block") = True := by decide
  simp only [estimate_join_cost_with_intermediate, c1, c2, c3, if_true, if_false]
  rw [WithTop.coe_eq_coe]
  simp [estimate_selectivity, get_intermediate_result_size, get_intermediate_result_size.go,
    hfa, List.getLast?, cexStats, Util.strStartsWith, Util.listPrefix, List.lookup,
    JoinOpt.seq_page_cost, JoinOpt.cpu_tuple_cost, JoinOpt.cpu_operator_cost,
    JoinOpt.random_page_cost, block_size, page_size] <;> norm_num

theorem cex_naive_cost_value : calculate_naive_cost cexStats chainTree =
    ((391265/64 : ℚ) : WithTop ℚ) := by
  rw [naive_chain_eq cexStats, cex_scan_cost, cex_first_join_block_cost, cex_second_join_block_cost, ← WithTop.coe_add,
    ← WithTop.coe_add, WithTop.coe_eq_coe]
  norm_num

end Claims

/-! ## Claim theorems -/

namespace Claims

open Util CostPopulator JoinOpt PredicatePushdown Cse AppEndpoint

/-- Claim C5 (confirmed): applying predicate pushdown to the logical plan
FILTER with predicate "a.x = 1 AND b.y = 2" over JOIN(SCAN(a), SCAN(b))
yields JOIN(FILTER(SCAN(a), "a.x = 1"), FILTER(SCAN(b), "b.y = 2")): each
single-table conjunct is pushed to the scan of its table and no residual
filter remains above the join. -/
theorem pushdown_splits_and_pushes_conjuncts :
    predicate_pushdown 4
      (FILTER (JOIN (SCAN "a" "a") (SCAN "b" "b") "a.x = b.y") "a.x = 1 AND b.y = 2") =
    JOIN (FILTER (SCAN "a" "a") "a.x = 1") (FILTER (SCAN "b" "b") "b.y = 2") "a.x = b.y" := by
  rfl

/-- Claim C6, counterexample: with page counts 10 and 5, row counts 1000 and
500 and selectivity 0.1, the hash-join cost computed by estimate_join_cost is
not 155.25 (the value asserted by the claim): the last term of the formula is
(1000 + 50000) * 0.0025 = 127.5, not 125.25. -/
theorem hash_join_cost_not_155_25 :
    estimate_join_cost c6Stats "t1" "t2" ("x", "y") "hash" (1/10) ≠
      (((621 : ℚ)/4 : ℚ) : WithTop ℚ) := by
  have h : estimate_join_cost c6Stats "t1" "t2" ("x", "y") "hash" (1/10) =
      (((10 * JoinOpt.seq_page_cost + 1000 * JoinOpt.cpu_tuple_cost +
         (5 * JoinOpt.seq_page_cost + 500 * JoinOpt.cpu_tuple_cost) +
         (1000 + 1000 * 500 * (1/10)) * JoinOpt.cpu_operator_cost : ℚ)) : WithTop ℚ) := rfl
  rw [h, ne_eq, WithTop.coe_eq_coe]
  norm_num [JoinOpt.seq_page_cost, JoinOpt.cpu_tuple_cost, JoinOpt.cpu_operator_cost]

/-- Claim C6 as amended: for two tables with page_count 10 / row_count 1000
and page_count 5 / row_count 500 and selectivity 0.1, the hash-join cost
computed by estimate_join_cost equals
(10*1.0 + 1000*0.01) + (5*1.0 + 500*0.01) + (1000 + 1000*500*0.1)*0.0025
= 20 + 10 + 127.5 = 157.5. -/
theorem hash_join_cost_equals_157_5 (stats : Stats) (t1 t2 : String)
    (attrs : String × String)
    (h1r : (stats t1).row_count = 1000) (h1p : (stats t1).page_count = 10)
    (h2r : (stats t2).row_count = 500) (h2p : (stats t2).page_count = 5) :
    estimate_join_cost stats t1 t2 attrs "hash" (1/10) = (((315 : ℚ)/2 : ℚ) : WithTop ℚ) := by
  simp only [estimate_join_cost, h1r, h1p, h2r, h2p, JoinOpt.seq_page_cost,
    JoinOpt.cpu_tuple_cost, JoinOpt.cpu_operator_cost, if_pos, if_true, if_neg]
  norm_num

/-- Witness for the amended claim C6 at the concrete statistics environment. -/
theorem hash_join_cost_equals_157_5_witness :
    estimate_join_cost c6Stats "t1" "t2" ("x", "y") "hash" (1/10) =
      (((315 : ℚ)/2 : ℚ) : WithTop ℚ) :=
  hash_join_cost_equals_157_5 c6Stats "t1" "t2" ("x", "y")
    (by simp [c6Stats]) (by simp [c6Stats]) (by simp [c6Stats]) (by simp [c6Stats])

/-- Claim C7, counterexample: a select node whose condition type is AND does
not fail with an unhandled-mapping error; calculate_cost returns a result,
with cardinality input_cardinality * 0.5 (here 100 * 0.5 = 50). -/
theorem select_and_condition_no_error :
    calculate_cost rows100Stats (fun _ => none)
      (.select .AND (.base_relation ["t"])) = .ok ((101, 50), []) := by
  simp [calculate_cost, rows100Stats, predicate_selectivity, Except.bind, bind,
    CostPopulator.cpu_tuple_cost, CostPopulator.seq_page_cost]
  norm_num

/-- Claim C7 as amended: the select branch of calculate_cost multiplies the
input cardinality by 0.5 for GT and LT, by 0.1 for EQ, and by the dict-get
default 0.5 for every other condition type (AND, OR, NOT, NE, LE, GE), never
raising an unhandled-mapping error of its own. -/
theorem select_selectivity_with_default (stats : String → TableStats)
    (exprs : String → Option (ℚ × ℚ)) (ct : CondType) (input : PlanNode) :
    calculate_cost stats exprs (.select ct input) =
      (calculate_cost stats exprs input).map
        (fun r => ((r.1.1 + r.1.2, r.1.2 * selVal ct), r.2)) := by
  cases h : calculate_cost stats exprs input with
  | error e => simp [calculate_cost, h, Except.map, Except.bind, bind]
  | ok r =>
    obtain ⟨⟨ic, isz⟩, occ⟩ := r
    cases ct <;>
      simp [calculate_cost, h, predicate_selectivity, selVal, Except.map, Except.bind, bind]

/-- Claim C9 (confirmed): the division in the join rule of calculate_cost is
unguarded — joining two base relations whose row_count statistic is 0 raises
a division-by-zero error — and under the precondition that every base
relation row count is positive (and every resolvable common expression has
positive cardinality) that error branch is unreachable. -/
theorem join_division_unguarded_but_safe_on_positive_stats :
    (calculate_cost zeroRowStats (fun _ => none)
        (.join (.base_relation ["t0"]) (.base_relation ["t0"])) = .error .divZero) ∧
    (∀ (stats : String → TableStats) (exprs : String → Option (ℚ × ℚ)) (p : PlanNode),
      (∀ t, 0 < (stats t).row_count) →
      (∀ i c k, exprs i = some (c, k) → 0 < k) →
      calculate_cost stats exprs p ≠ .error .divZero) := by
  constructor
  · simp [calculate_cost, zeroRowStats, Except.bind, bind]
  · intro stats exprs p hstats hexprs
    exact (CostPopulator.calculate_cost_no_divZero stats exprs hstats hexprs p).1

/-- Witness for claim C9 at a concrete positive statistics environment. -/
theorem join_division_unguarded_but_safe_on_positive_stats_witness :
    calculate_cost posRowStats (fun _ => none)
      (.join (.base_relation ["t"]) (.base_relation ["t"])) ≠ .error .divZero :=
  join_division_unguarded_but_safe_on_positive_stats.2 posRowStats (fun _ => none)
    (.join (.base_relation ["t"]) (.base_relation ["t"]))
    (fun _ => by norm_num [posRowStats])
    (fun i c k h => by simp at h)


/-- C3: for a CSE-optimized document with one structural common-expressions
entry referenced exactly twice from the main query, the total returned by
calc_subseq_cost equals the cost of the query with the shared subtree expanded
inline at both reference sites minus one copy of the entry cost: the shared
subtree is charged exactly once, not once per reference. -/
theorem shared_subtree_cost_counted_once (stats : String → TableStats)
    (eid : String) (e q : PlanNode) (total card : ℚ)
    (hstruct : e.isStructural = true)
    (hcount : (refList q).count eid = 2)
    (h : calc_subseq_cost stats ⟨[(eid, e)], q⟩ = .ok (total, card)) :
    ∃ ec ek, calculate_cost stats (fun _ => none) e = .ok ((ec, ek), []) ∧
      calculate_cost stats (fun _ => none) (substRef eid e q) = .ok ((total + ec, card), []) := by
  rw [calc_subseq_cost] at h
  rw [costEntries_single stats eid e hstruct] at h
  cases hce : calculate_cost stats (fun _ => none) e with
  | error er => simp [hce, Except.map, Except.bind, bind] at h
  | ok re =>
    obtain ⟨⟨ec, ek⟩, oe⟩ := re
    have hoe : oe = [] := by
      obtain ⟨-, h2⟩ := calc_ok_occ stats (fun _ => none) e ⟨ec, ek⟩ oe hce
      cases oe with
      | nil => rfl
      | cons x xs => exact absurd (h2 x (by simp)) (by simp)
    subst hoe
    simp only [hce, Except.map, Except.bind, bind] at h
    set envF := fun i => List.lookup i [(eid, (ec, ek))] with henvF
    have henv1 : envF eid = some (ec, ek) := by simp [henvF]
    have henv2 : ∀ i, i ≠ eid → envF i = none := by
      intro i hie
      have hb : (i == eid) = false := beq_eq_false_iff_ne.mpr hie
      simp [henvF, List.lookup, hb]
    cases hcq : calculate_cost stats envF q with
    | error er => simp [hcq, Except.bind, bind] at h
    | ok rq =>
      obtain ⟨⟨c, k⟩, occs⟩ := rq
      simp only [hcq, Except.bind, bind, Except.ok.injEq, Prod.mk.injEq] at h
      obtain ⟨htot, hcard⟩ := h
      obtain ⟨hocc_eq, hocc_some⟩ := calc_ok_occ stats envF q ⟨c, k⟩ occs hcq
      have hall : ∀ i ∈ occs, i = eid := by
        intro i hi
        by_contra hne
        have := hocc_some i hi
        rw [henv2 i hne] at this
        simp at this
      have hcnt : occs.count eid = 2 := by rw [hocc_eq]; exact hcount
      have hlen : occs.length = 2 := by
        rw [← hcnt]
        exact (List.count_eq_length.mpr (fun b hb => (hall b hb).symm)).symm
      have hocc2 : occs = [eid, eid] := by
        have := List.eq_replicate_of_mem (fun b hb => hall b hb)
        rw [this, hlen]
        rfl
      subst hocc2
      refine ⟨ec, ek, rfl, ?_⟩
      have hsub := calc_subst stats eid e ec ek envF henv1 henv2 hce q c k _ hcq
      have htc : total = c - ec := by
        rw [← htot]
        simp [Util.firstDedup]
        norm_num
      have htc2 : total + ec = c := by rw [htc]; ring
      rw [htc2, ← hcard]
      exact hsub

/-- Witness for C3 at the single-table plan over posRowStats: the entry
base_relation [t] costs 11/10, the double-reference join totals 111/10, and
inline expansion costs 111/10 + 11/10. -/
theorem shared_subtree_cost_counted_once_witness :
    ∃ ec ek,
      calculate_cost Claims.posRowStats (fun _ => none)
        (.base_relation ["t"]) = .ok ((ec, ek), []) ∧
      calculate_cost Claims.posRowStats (fun _ => none)
        (substRef "expr_0" (.base_relation ["t"])
          (.join (.expr_ref "expr_0") (.expr_ref "expr_0"))) =
        .ok ((111/10 + ec, 1), []) :=
  shared_subtree_cost_counted_once Claims.posRowStats "expr_0" (.base_relation ["t"])
    (.join (.expr_ref "expr_0") (.expr_ref "expr_0")) (111/10) 1
    rfl (by decide)
    (by
      norm_num [calc_subseq_cost, costEntries, calculate_cost, Claims.posRowStats,
        CostPopulator.cpu_tuple_cost, CostPopulator.seq_page_cost, Except.bind, bind,
        Util.firstDedup, List.lookup,
        List.count, List.countP, List.countP.go])


/-- C8 counterexample: at the session state every slot of which is populated
as the three endpoints leave it (an original plan, a stored pushdown plan
with its non-zero stored cost 10, a stored join plan, and scale 2 — the
stored cost and the scale are returned by the absent join_optimization
module and are unconstrained by the repository), with the real cost
calculator running against a database in which table t has 10 rows on 1
page, the CSE run on the stored base_relation join plan finds no common
expressions, yet the response reports original_cost 10 and optimized_cost
20: the fields are not equal, because the fallback assignment is followed by
the scale multiplication applied only to optimized_cost. -/
theorem cse_empty_not_equal_cex :
    ∃ r, optimize_common_subexpr (calcPlainReal 9 posRowStats) (calcSubReal 9 posRowStats)
        ⟨some planC8, some (planC8, 10), some planC8, 2⟩ = some r ∧
      r.optimized_doc.common_expressions = [] ∧
      r.original_cost = .num 10 ∧ r.optimized_cost = .num 20 ∧
      r.optimized_cost ≠ r.original_cost := by
  have hdoc : (optimize_and_cleanup planC8).common_expressions = [] := rfl
  have hsub : calcSubReal 9 posRowStats
      (optimize_and_cleanup ((some planC8).getD planC8)) =
      .ok (10 * CostPopulator.cpu_tuple_cost + 1 * CostPopulator.seq_page_cost, 10) := rfl
  refine ⟨⟨.num 10, .num 20, optimize_and_cleanup planC8⟩, ?_, hdoc, rfl, rfl, by decide⟩
  simp only [optimize_common_subexpr, hsub, scaleCost]
  norm_num [hdoc, List.isEmpty]

/-- C8 (amended): when the stored pushdown cost c is non-falsy and the CSE
table is empty, the endpoint responds with original_cost = c and
optimized_cost = c * scale: the two fields agree exactly when the session
scale factor is 1. -/
theorem cse_empty_fallback_scaled
    (calcPlain : Json → Except Unit (ℚ × ℚ))
    (calcSub : OptimizedDoc → Except Unit (ℚ × ℚ))
    (st : SessionState) (p : Json) (c v1 v2 : ℚ)
    (hpred : st.pred = some (p, c)) (hc : c ≠ 0)
    (hempty : (optimize_and_cleanup ((st.join_plan).getD p)).common_expressions = [])
    (hsub : calcSub (optimize_and_cleanup ((st.join_plan).getD p)) = .ok (v1, v2)) :
    optimize_common_subexpr calcPlain calcSub st =
      some ⟨.num c, .num (c * st.scale), optimize_and_cleanup ((st.join_plan).getD p)⟩ := by
  simp only [optimize_common_subexpr, hpred, hc, hsub, hempty, scaleCost]
  simp only [List.isEmpty, hempty, scaleCost]
  simp [hc]

/-- Witness for the amended C8 theorem: the fully populated session state of
the counterexample, with the real cost calculator over the 10-rows-1-page
statistics, stored pushdown cost 10 and scale 2. -/
theorem cse_empty_fallback_scaled_witness :
    optimize_common_subexpr (calcPlainReal 9 posRowStats) (calcSubReal 9 posRowStats)
        ⟨some planC8, some (planC8, 10), some planC8, 2⟩ =
      some ⟨.num 10, .num (10 * 2), optimize_and_cleanup planC8⟩ :=
  cse_empty_fallback_scaled (calcPlainReal 9 posRowStats) (calcSubReal 9 posRowStats)
    ⟨some planC8, some (planC8, 10), some planC8, 2⟩ planC8 10
    (10 * CostPopulator.cpu_tuple_cost + 1 * CostPopulator.seq_page_cost) 10
    rfl (by norm_num) rfl rfl


set_option maxRecDepth 10000 in
/-- C4 counterexample: c4conds contains the chain conditions a.x = b.y and
b.y = c.z and no direct a-c condition, yet add_transitive_edges records the
a-c condition with attribute pair (w, z), not the claimed (x, z): the merged
equivalence class also contains (a, w) from the d-a condition, and the pair
loop reaches (a, w) with (c, z) first. -/
theorem transitive_attr_pair_not_from_chain_cex :
    (("a", "b"), ("x", "y")) ∈ c4conds ∧ (("b", "c"), ("y", "z")) ∈ c4conds ∧
    hasCond c4conds "a" "c" = false ∧
    (add_transitive_edges c4conds c4graph).1.lookup ("a", "c") = some ("w", "z") ∧
    (add_transitive_edges c4conds c4graph).1.lookup ("c", "a") = none ∧
    (add_transitive_edges c4conds c4graph).1.lookup ("a", "c") ≠ some ("x", "z") := by
  decide

/-- C4 (amended): whenever the condition map contains an edge between A and B
on (x, y) and one between B and C on (y, z), no direct A-C condition exists in
either orientation, and A and C are distinct tables, add_transitive_edges adds
a join condition between A and C (under some key orientation, with attributes
drawn from the merged class) and adds the A-C join-graph edge in both
directions. -/
theorem transitive_edge_added
    (conds : Conds) (graph : Graph) (A B C x y z : String)
    (hAB : ((A, B), (x, y)) ∈ conds) (hBC : ((B, C), (y, z)) ∈ conds)
    (hAC : hasCond conds A C = false) (hACne : A ≠ C) :
    hasCond (add_transitive_edges conds graph).1 A C = true ∧
    C ∈ nbrs (add_transitive_edges conds graph).2 A ∧
    A ∈ nbrs (add_transitive_edges conds graph).2 C := by
  have hAx : (A, x) ∈ condPairs conds := mem_condPairs_left _ _ _ _ _ hAB
  have hBy : (B, y) ∈ condPairs conds := mem_condPairs_right _ _ _ _ _ hAB
  have hCz : (C, z) ∈ condPairs conds := mem_condPairs_right _ _ _ _ _ hBC
  have hlAB : linked conds (A, x) (B, y) = true := linked_of_mem _ _ _ _ _ hAB
  have hlBC : linked conds (B, y) (C, z) = true := linked_of_mem _ _ _ _ _ hBC
  have haxcz : ((A, x) : TAPair) ≠ (C, z) := fun h => hACne (congrArg Prod.fst h)
  have hlen : ∃ k, (condPairs conds).length = k + 2 := by
    have h2 : 2 ≤ (condPairs conds).length :=
      two_le_length_of_mem _ _ _ hAx hCz haxcz
    exact ⟨(condPairs conds).length - 2, by omega⟩
  have hcomp_self : ((A, x) : TAPair) ∈ component conds (A, x) := mem_component_self _ _
  have hcomp_cz : ((C, z) : TAPair) ∈ component conds (A, x) :=
    mem_component_two_step _ _ _ _ hBy hCz hlAB hlBC hlen
  have hP : hasCond (add_transitive_edges conds graph).1 A C = true := by
    rw [add_transitive_edges]
    refine foldl_reach _ (fun st => hasCond st.1 A C = true) ?_ _ (A, x) hAx ?_ (conds, graph)
    · intro s p h
      exact foldl_pres _ _ (fun s e h => addPairStep_hasCond_mono s e A C h) _ _ h
    · intro s
      rcases mem_orderedPairs _ _ _ hcomp_self hcomp_cz haxcz with he | he
      · refine foldl_reach _ _ (fun s e h => addPairStep_hasCond_mono s e A C h) _ _ he ?_ s
        intro s2
        exact addPairStep_hasCond_hit s2 A C x z hACne
      · refine foldl_reach _ _ (fun s e h => addPairStep_hasCond_mono s e A C h) _ _ he ?_ s
        intro s2
        rw [hasCond_symm]
        exact addPairStep_hasCond_hit s2 C A z x (fun h => hACne h.symm)
  have hInv : hasCond (add_transitive_edges conds graph).1 A C = true →
      C ∈ nbrs (add_transitive_edges conds graph).2 A ∧
      A ∈ nbrs (add_transitive_edges conds graph).2 C := by
    rw [add_transitive_edges]
    refine foldl_pres _
      (fun st => hasCond st.1 A C = true → C ∈ nbrs st.2 A ∧ A ∈ nbrs st.2 C)
      ?_ _ (conds, graph) ?_
    · intro s p h
      exact foldl_pres _ _ (fun s e h => addPairStep_inv A C s e h) _ _ h
    · intro h
      rw [h] at hAC
      exact absurd hAC (by simp)
  exact ⟨hP, hInv hP⟩

set_option maxRecDepth 10000 in
/-- Witness for the amended C4 theorem on the c4conds cycle. -/
theorem transitive_edge_added_witness :
    hasCond (add_transitive_edges c4conds c4graph).1 "a" "c" = true ∧
    "c" ∈ nbrs (add_transitive_edges c4conds c4graph).2 "a" ∧
    "a" ∈ nbrs (add_transitive_edges c4conds c4graph).2 "c" :=
  by
  refine transitive_edge_added c4conds c4graph "a" "b" "c" "x" "y" "z" ?_ ?_ ?_ ?_ <;>
    decide


/-- C1 counterexample: at cexStats (rows 1000/5000/20000, zero pages, ndv-1
join columns) the chain input optimizes with an ndv-method best-plan cost of
3515625/64 while the naive baseline costs 391265/64, and the ndv cost is not
less than or equal to the naive cost: the claim fails for the ndv (and mcv)
selectivity methods. -/
theorem ndv_exceeds_naive_cex :
    (cexStats "a").row_count = 1000 ∧ (cexStats "b").row_count = 5000 ∧
    (cexStats "c").row_count = 20000 ∧
    (∃ F M, optimize_join_query cexStats 100 chainTree =
      .ok (.plans [("fixed", F), ("ndv", ((3515625/64 : ℚ) : WithTop ℚ)), ("mcv", M)])) ∧
    calculate_naive_cost cexStats chainTree = ((391265/64 : ℚ) : WithTop ℚ) ∧
    ¬ (((3515625/64 : ℚ) : WithTop ℚ) ≤ ((391265/64 : ℚ) : WithTop ℚ)) := by
  refine ⟨by simp [cexStats], by simp [cexStats], by simp [cexStats],
    ?_, cex_naive_cost_value, ?_⟩
  · obtain ⟨F, hF, -, -⟩ := foldlM_min_ok
      (fun o => dpOrder cexStats chainConds "fixed" (method_strategy_preference "fixed") o)
      orders6 (chain_dpOrders_ok cexStats "fixed" _) ⊤
    obtain ⟨M, hM, -, -⟩ := foldlM_min_ok
      (fun o => dpOrder cexStats chainConds "mcv" (method_strategy_preference "mcv") o)
      orders6 (chain_dpOrders_ok cexStats "mcv" _) ⊤
    have hbf : best_cost_for_method cexStats chainConds orders6 "fixed" = .ok F := hF
    have hbm : best_cost_for_method cexStats chainConds orders6 "mcv" = .ok M := hM
    have hoe : orders6.isEmpty = false := by decide
    refine ⟨F, M, ?_⟩
    simp only [optimize_join_query, chain_parse_eq, chain_orders_eq, hoe, List.isEmpty_cons,
      Bool.false_eq_true, if_false, hbf, ndv_best_cost_value, hbm, Except.bind, bind, pure, Except.pure]
  · rw [WithTop.coe_le_coe]
    norm_num

/-- C1 (amended): for every statistics assignment with nonnegative row count
and page count for the first chain table, optimize_join_query succeeds on the
chain input and its fixed-method best-plan cost is at most the
calculate_naive_cost baseline; the ndv and mcv methods can exceed that
baseline. -/
theorem optimize_fixed_le_naive (stats : Stats)
    (hra : 0 ≤ (stats "a").row_count)
    (hpa : 0 ≤ (stats "a").page_count) :
    ∃ F N M, optimize_join_query stats 100 chainTree =
        .ok (.plans [("fixed", F), ("ndv", N), ("mcv", M)]) ∧
      F ≤ calculate_naive_cost stats chainTree := by
  obtain ⟨F, hF, -, hFmem⟩ := foldlM_min_ok
    (fun o => dpOrder stats chainConds "fixed" (method_strategy_preference "fixed") o)
    orders6 (chain_dpOrders_ok stats "fixed" _) ⊤
  obtain ⟨N, hN, -, -⟩ := foldlM_min_ok
    (fun o => dpOrder stats chainConds "ndv" (method_strategy_preference "ndv") o)
    orders6 (chain_dpOrders_ok stats "ndv" _) ⊤
  obtain ⟨M, hM, -, -⟩ := foldlM_min_ok
    (fun o => dpOrder stats chainConds "mcv" (method_strategy_preference "mcv") o)
    orders6 (chain_dpOrders_ok stats "mcv" _) ⊤
  have hbf : best_cost_for_method stats chainConds orders6 "fixed" = .ok F := hF
  have hbn : best_cost_for_method stats chainConds orders6 "ndv" = .ok N := hN
  have hbm : best_cost_for_method stats chainConds orders6 "mcv" = .ok M := hM
  refine ⟨F, N, M, ?_, ?_⟩
  · have hoe : orders6.isEmpty = false := by decide
    simp only [optimize_join_query, chain_parse_eq, chain_orders_eq, hoe, List.isEmpty_cons,
      Bool.false_eq_true, if_false, hbf, hbn, hbm, Except.bind, bind, pure, Except.pure]
  · have hf1 : findJoinAttrs chainConds ["a"] "b" = some ("a", ("x", "y")) := by decide
    have hf2 : findJoinAttrs chainConds ["a", "b"] "c" = some ("a", ("x", "z")) := by decide
    have habc := dpOrder_three_eq stats chainConds "fixed"
      (method_strategy_preference "fixed") "a" "b" "c" "a" "a" ("x", "y") ("x", "z") hf1 hf2
    have hFle := hFmem ["a", "b", "c"] (by simp [orders6]) _ habc
    have hprefF : method_strategy_preference "fixed" = ["hash", "nested", "block"] := by
      decide
    have hmem_block : "block" ∈ method_strategy_preference "fixed" := by
      rw [hprefF]; simp
    have h1 : bestStrategyCost (method_strategy_preference "fixed")
        (fun strategy => estimate_join_cost stats "a" "b" ("x", "y") strategy
          (estimate_selectivity stats "a" "b" ("x", "y") "fixed")) ≤
        estimate_join_cost stats "a" "b" ("x", "y") "block"
          (estimate_selectivity stats "a" "b" ("x", "y") "fixed") := by
      refine le_trans (bestStrategyCost_le _ _ "block" hmem_block) ?_
      rw [hprefF, adjustCost_block_fixed]
    have h2 : bestStrategyCost (method_strategy_preference "fixed")
        (fun strategy =>
          bestStrategyCost (method_strategy_preference "fixed")
            (fun strategy => estimate_join_cost stats "a" "b" ("x", "y") strategy
              (estimate_selectivity stats "a" "b" ("x", "y") "fixed")) +
          estimate_join_cost_with_intermediate stats
            (get_intermediate_result_size stats chainConds "fixed" ["a", "b"])
            "c" ("x", "z") strategy
            (estimate_selectivity stats "a" "c" ("x", "z") "fixed")) ≤
        bestStrategyCost (method_strategy_preference "fixed")
            (fun strategy => estimate_join_cost stats "a" "b" ("x", "y") strategy
              (estimate_selectivity stats "a" "b" ("x", "y") "fixed")) +
          estimate_join_cost_with_intermediate stats
            (get_intermediate_result_size stats chainConds "fixed" ["a", "b"])
            "c" ("x", "z") "block"
            (estimate_selectivity stats "a" "c" ("x", "z") "fixed") := by
      refine le_trans (bestStrategyCost_le _ _ "block" hmem_block) ?_
      rw [hprefF, adjustCost_block_fixed]
    have hq : (0 : ℚ) ≤ (stats "a").page_count * JoinOpt.seq_page_cost +
        (stats "a").row_count * JoinOpt.cpu_tuple_cost := by
      have h1 : JoinOpt.seq_page_cost = 1 := rfl
      have h10 : JoinOpt.cpu_tuple_cost = 1/100 := rfl
      rw [h1, h10]
      linarith
    have hscan : (0 : WithTop ℚ) ≤
        ↑((stats "a").page_count * JoinOpt.seq_page_cost +
          (stats "a").row_count * JoinOpt.cpu_tuple_cost) := by
      exact_mod_cast hq
    rw [naive_chain_eq stats]
    refine le_trans hFle (le_trans h2 ?_)
    refine le_trans (add_le_add_right h1 _) ?_
    rw [add_assoc]
    exact le_add_of_nonneg_left hscan

/-- Witness for the amended C1 theorem at the counterexample statistics. -/
theorem optimize_fixed_le_naive_witness :
    ∃ F N M, optimize_join_query cexStats 100 chainTree =
        .ok (.plans [("fixed", F), ("ndv", N), ("mcv", M)]) ∧
      F ≤ calculate_naive_cost cexStats chainTree :=
  optimize_fixed_le_naive cexStats (by simp [cexStats]) (by simp [cexStats])

end Claims

namespace Claims

open Util Cse

set_option maxRecDepth 10000 in
/-- Claim C10, counterexample: the input tree that is itself an expression
reference with id expr_99 passes through optimize_and_cleanup unchanged: the
returned query still contains the expr_ref expr_99 while the returned
common-expressions table is empty, leaving a dangling reference. -/
theorem cse_dangling_ref_cex :
    refIds (optimize_and_cleanup c10tree).query = ["expr_99"] ∧
    (optimize_and_cleanup c10tree).common_expressions.map Prod.fst = [] := by
  decide

/-- Claim C10 as amended: for every input tree containing no expr_ref nodes
(the shape produced by the earlier pipeline stages), optimize_and_cleanup
returns a document in which every expr_ref id occurring in the query is a key
of the common-expressions table, no common-expressions entry contains an
expr_ref, and the keys are exactly expr_0, expr_1, ... with consecutive
indices; for inputs that already carry expr_ref nodes the no-dangling-
references part can fail. -/
theorem optimize_cleanup_refs_closed (t : Json) (hrefs : refIds t = []) :
    (∀ i ∈ refIds (optimize_and_cleanup t).query,
        i ∈ (optimize_and_cleanup t).common_expressions.map Prod.fst) ∧
    (∀ e ∈ (optimize_and_cleanup t).common_expressions, refIds e.2 = []) ∧
    (optimize_and_cleanup t).common_expressions.map Prod.fst =
      (List.range (optimize_and_cleanup t).common_expressions.length).map
        (fun n => "expr_" ++ toString n) := by
  obtain ⟨h1, h2, h3⟩ := optimize_refs_closed t hrefs
  have hmap : (optimize_and_cleanup t).common_expressions.map Prod.fst =
      (optimize t).common_expressions.map Prod.fst := by
    simp only [optimize_and_cleanup, List.map_map]
    rfl
  have hlen2 : (optimize_and_cleanup t).common_expressions.length =
      (optimize t).common_expressions.length := by
    simp only [optimize_and_cleanup, List.length_map]
  refine ⟨?_, ?_, ?_⟩
  · intro i hi
    have hq : i ∈ refIds (optimize t).query :=
      refIds_cleanup_subset (optimize t).query i hi
    rw [hmap]
    exact h1 i hq
  · intro e he
    simp only [optimize_and_cleanup, List.mem_map] at he
    obtain ⟨p, hp, hpe⟩ := he
    have h0 := h2 p hp
    rw [← hpe]
    show refIds (cleanup p.2) = []
    rw [List.eq_nil_iff_forall_not_mem]
    intro i hi
    have hmem := refIds_cleanup_subset p.2 i hi
    rw [h0] at hmem
    simp at hmem
  · rw [hmap, hlen2]
    exact h3

set_option maxRecDepth 100000 in
/-- Claim C10 witness: the reference-free join of two identical selects
satisfies the hypothesis and the closure property. -/
theorem optimize_cleanup_refs_closed_witness :
    refIds c10wtree = [] ∧
    ((∀ i ∈ refIds (optimize_and_cleanup c10wtree).query,
        i ∈ (optimize_and_cleanup c10wtree).common_expressions.map Prod.fst) ∧
    (∀ e ∈ (optimize_and_cleanup c10wtree).common_expressions, refIds e.2 = []) ∧
    (optimize_and_cleanup c10wtree).common_expressions.map Prod.fst =
      (List.range (optimize_and_cleanup c10wtree).common_expressions.length).map
        (fun n => "expr_" ++ toString n)) :=
  ⟨by decide, optimize_cleanup_refs_closed c10wtree (by decide)⟩

set_option maxRecDepth 100000 in
/-- Claim C2, counterexample: in the join of two identical select nodes whose
shared AND condition is itself a significant dict of serialized length above
20, the select node occurs exactly twice and serializes to more than 20
characters, yet the pass emits two common-expressions entries (expr_0 for the
select group and expr_1 for the condition group), not exactly one. -/
theorem cse_two_entries_cex :
    ((collectNodes c2cextree).countP
        (fun p => decide (p.1 = serializeForComparison (objFields c2cexsel)))) = 2 ∧
    (serializeForComparison (objFields c2cexsel)).length > 20 ∧
    (optimize c2cextree).common_expressions.map Prod.fst = ["expr_0", "expr_1"] ∧
    refIds (optimize c2cextree).query = ["expr_0", "expr_0"] := by
  decide

/-- Claim C2 as amended: when the retained group table of a reference-free
input consists of a single group with exactly two occurrences u and v, no
collected node of the group serialization contains a nested occurrence of the
same serialization, and u and v carry no internal-metadata fields, the pass
produces exactly one common-expressions entry (expr_0 bound to u) and exactly
two expr_ref nodes pointing at it, and both occurrences serialize
byte-for-byte to the group key, so substituting the entry back for each
expr_ref reproduces the two occurrences after metadata stripping; with nested
significant subexpressions the exactly-one-entry part fails. -/
theorem cse_single_group (t : Json) (s : String) (u v : Json)
    (hrefs : refIds t = [])
    (hret : retainedGroups t = [(s, [u, v])])
    (hnn : ∀ p ∈ collectNodes t, p.1 = s →
      (collectFields (objFields p.2)).countP (fun q => decide (q.1 = s)) = 0)
    (hu : (objFields u).filter (fun q => ¬ isMetaKey q.1) = objFields u)
    (hv : (objFields v).filter (fun q => ¬ isMetaKey q.1) = objFields v) :
    (optimize t).common_expressions = [("expr_0", u)] ∧
    refIds (optimize t).query = ["expr_0", "expr_0"] ∧
    dumpsSorted u = s ∧ dumpsSorted v = s := by
  have hsort : sortedRetained t = [(s, [u, v])] := by
    rw [sortedRetained, hret]
    simp [List.insertionSort, List.orderedInsert]
  have hce : (optimize t).common_expressions = [("expr_0", u)] := by
    show mintedEntries t = _
    rw [mintedEntries, hsort]
    have h0 : ("expr_" ++ toString 0 : String) = "expr_0" := by decide
    simp [List.enum, List.enumFrom, h0]
  have hrmap : replaceMap t = [(s, "expr_0")] := by
    rw [replaceMap, hsort]
    have h0 : ("expr_" ++ toString 0 : String) = "expr_0" := by decide
    simp [List.enum, List.enumFrom, h0]
  have hmemret : (s, [u, v]) ∈ retainedGroups t := by
    rw [hret]; exact List.mem_singleton.mpr rfl
  have hmemgrp : (s, [u, v]) ∈ groupBySer (collectNodes t) :=
    (List.mem_filter.mp hmemret).1
  have hfil : [u, v] =
      ((collectNodes t).filter (fun q => q.1 = s)).map Prod.snd :=
    groupBySer_mem _ _ hmemgrp
  have hcount : (collectNodes t).countP (fun p => decide (p.1 = s)) = 2 := by
    rw [List.countP_eq_length_filter]
    have h2 : (((collectNodes t).filter (fun q => q.1 = s)).map Prod.snd).length = 2 := by
      rw [← hfil]; rfl
    rw [List.length_map] at h2
    exact h2
  have hpair : (collectNodes t).filter (fun q => q.1 = s) = [(s, u), (s, v)] := by
    refine filter_pair_eq s u v _ ?_ hfil.symm
    intro x hx
    have := (List.mem_filter.mp hx).2
    exact of_decide_eq_true this
  have humem : (s, u) ∈ collectNodes t := by
    have : (s, u) ∈ (collectNodes t).filter (fun q => q.1 = s) := by
      rw [hpair]; simp
    exact (List.mem_filter.mp this).1
  have hvmem : (s, v) ∈ collectNodes t := by
    have : (s, v) ∈ (collectNodes t).filter (fun q => q.1 = s) := by
      rw [hpair]; simp
    exact (List.mem_filter.mp this).1
  have hud : dumpsSorted u = s := by
    obtain ⟨f, hf1, hf2⟩ := collected_shape t (s, u) humem
    simp only at hf1 hf2
    rw [hf1] at hu ⊢
    simp only [objFields] at hu
    rw [hf2, serializeForComparison, hu]
  have hvd : dumpsSorted v = s := by
    obtain ⟨f, hf1, hf2⟩ := collected_shape t (s, v) hvmem
    simp only at hf1 hf2
    rw [hf1] at hv ⊢
    simp only [objFields] at hv
    rw [hf2, serializeForComparison, hv]
  refine ⟨hce, ?_, hud, hvd⟩
  show refIds (replaceNode (replaceMap t) t) = _
  rw [hrmap, replace_count s "expr_0" t hnn hrefs, hcount]
  rfl

set_option maxRecDepth 100000 in
/-- Claim C2 witness: the join of two identical short selects has a single
retained group and satisfies every hypothesis of the amended theorem. -/
theorem cse_single_group_witness :
    (refIds c2wtree = [] ∧
     retainedGroups c2wtree =
       [(serializeForComparison (objFields c2wsel), [c2wsel, c2wsel])] ∧
     (∀ p ∈ collectNodes c2wtree, p.1 = serializeForComparison (objFields c2wsel) →
       (collectFields (objFields p.2)).countP
         (fun q => decide (q.1 = serializeForComparison (objFields c2wsel))) = 0) ∧
     (objFields c2wsel).filter (fun q => ¬ isMetaKey q.1) = objFields c2wsel) ∧
    ((optimize c2wtree).common_expressions = [("expr_0", c2wsel)] ∧
     refIds (optimize c2wtree).query = ["expr_0", "expr_0"] ∧
     dumpsSorted c2wsel = serializeForComparison (objFields c2wsel) ∧
     dumpsSorted c2wsel = serializeForComparison (objFields c2wsel)) :=
  ⟨⟨by decide, by rfl, by decide, by rfl⟩,
   cse_single_group c2wtree (serializeForComparison (objFields c2wsel)) c2wsel c2wsel
     (by decide) (by rfl) (by decide) (by rfl) (by rfl)⟩

end Claims
